import Mathlib

/-!
# Game actions of OpenRCT2: ride demolition, banner removal, staff colours

A shallow embedding of `RideDemolishAction.cpp`, `BannerRemoveAction.cpp` and
`StaffSetColourAction.cpp`.
Machine integers are `Nat` or `Int`; signed 32-bit results are reduced with `wrap32`.
The world is an explicit record that every operation receives and returns.
Functions that the actions call but whose bodies live in other translation units are
collected in the record `Env`.
-/

namespace OpenRCT2

/-! ## Money -/

/-- Reduction of an integer to the range of `money32` (two-complement, 32 bits). -/
def wrap32 (x : Int) : Int := (x + 2147483648) % 4294967296 - 2147483648

/-- Smallest value of `int32_t`. -/
def INT32_MIN : Int := -2147483648

/-- Largest value of `int32_t`. -/
def INT32_MAX : Int := 2147483647

/-- Modelled from the spec: the constant `MONEY32_UNDEFINED` (declared in `common.h`), the
sentinel cost, which is `(money32)0x80000000`. -/
def MONEY32_UNDEFINED : Int := -2147483648

/-! ## Results -/

/-- Modelled from the spec: `GameActions::Status` (declared in `GameAction.h`), with the five
values that section 7 of the specification lists. -/
inductive Status where
  | Ok
  | InvalidParameters
  | NotOwned
  | NoClearance
  | Disallowed
  deriving DecidableEq, Repr

/-- Modelled from the spec: the string identifiers (declared in `StringIds.h`) that the actions
use, as distinct values. -/
inductive StringId where
  | STR_NONE
  | STR_CANT_DEMOLISH_RIDE
  | STR_LOCAL_AUTHORITY_FORBIDS_DEMOLITION_OR_MODIFICATIONS_TO_THIS_RIDE
  | STR_CANT_REFURBISH_RIDE
  | STR_MUST_BE_CLOSED_FIRST
  | STR_RIDE_NOT_YET_EMPTY
  | STR_CANT_REFURBISH_NOT_NEEDED
  | STR_CANT_DO_THIS
  | STR_CANT_REMOVE_THIS
  | STR_LAND_NOT_OWNED_BY_PARK
  deriving DecidableEq, Repr

/-- Modelled from the spec: `ExpenditureType` (declared in `Finance.h`), with the categories
that the actions use; `Count` is the category of a fresh result. -/
inductive ExpenditureType where
  | RideConstruction
  | Landscaping
  | Count
  deriving DecidableEq, Repr

/-- Modelled from the spec: the constant `LOCATION_NULL` (declared in `Location.hpp`), which is
`(int16_t)0x8000`. -/
def LOCATION_NULL : Int := -32768

/-- Modelled from the spec: `CoordsXY` (declared in `Location.hpp`), a pair of map coordinates
in world units. -/
structure CoordsXY where
  x : Int
  y : Int
  deriving DecidableEq, Repr

/-- Modelled from the spec: `CoordsXYZ` (declared in `Location.hpp`), a triple of map
coordinates in world units. -/
structure CoordsXYZ where
  x : Int
  y : Int
  z : Int
  deriving DecidableEq, Repr

/-- Modelled from the spec: `CoordsXYZD` (declared in `Location.hpp`), a triple of map
coordinates with a direction. -/
structure CoordsXYZD where
  x : Int
  y : Int
  z : Int
  direction : Nat
  deriving DecidableEq, Repr

/-- Modelled from the spec: `CoordsXY::isNull` (declared in `Location.hpp`). -/
def CoordsXY.isNull (c : CoordsXY) : Bool := c.x == LOCATION_NULL

/-- Modelled from the spec: `CoordsXY::ToTileCentre` (declared in `Location.hpp`): the start of
the tile (`floor2` of each coordinate by 32) plus half a tile. -/
def CoordsXY.ToTileCentre (c : CoordsXY) : CoordsXY :=
  { x := c.x / 32 * 32 + 16, y := c.y / 32 * 32 + 16 }

/-- Modelled from the spec: `GameActions::Result` (declared in `GameAction.h`): status, cost,
expenditure category, error title and message, position. A fresh result has status `Ok`. -/
structure Result where
  Error : Status := Status.Ok
  ErrorTitle : StringId := StringId.STR_NONE
  ErrorMessage : StringId := StringId.STR_NONE
  Position : CoordsXYZ := { x := LOCATION_NULL, y := LOCATION_NULL, z := LOCATION_NULL }
  Cost : Int := 0
  Expenditure : ExpenditureType := ExpenditureType.Count
  deriving DecidableEq, Repr

/-- Modelled from the spec: the call `MakeResult()` (declared in `GameAction.h`), a fresh
result. -/
def MakeResult : Result := {}

/-- Modelled from the spec: the constructor `Result(error, title, message)` (its body is in
`GameAction.cpp`). -/
def MakeResult3 (error : Status) (title message : StringId) : Result :=
  { Error := error, ErrorTitle := title, ErrorMessage := message }

/-- Modelled from the spec: the constructor `Result(error, message)` (its body is in
`GameAction.cpp`); it sets the status and the message and leaves the title at its default. -/
def MakeResult2 (error : Status) (message : StringId) : Result :=
  { Error := error, ErrorMessage := message }

/-! ## Flags and constants -/

/-- Modelled from the spec: the flag `GAME_COMMAND_FLAG_ALLOW_DURING_PAUSED` (declared in
`Game.h`), bit 3. -/
def GAME_COMMAND_FLAG_ALLOW_DURING_PAUSED : Nat := 8

/-- Modelled from the spec: the flag `GAME_COMMAND_FLAG_NO_SPEND` (declared in `Game.h`),
bit 5. -/
def GAME_COMMAND_FLAG_NO_SPEND : Nat := 32

/-- Modelled from the spec: the flag `GAME_COMMAND_FLAG_GHOST` (declared in `Game.h`), bit 6. -/
def GAME_COMMAND_FLAG_GHOST : Nat := 64

/-- Modelled from the spec: the modify type `RIDE_MODIFY_DEMOLISH` (declared in `Ride.h`), the
first of the two modes of the action. -/
def RIDE_MODIFY_DEMOLISH : Nat := 0

/-- Modelled from the spec: the modify type `RIDE_MODIFY_RENEW` (declared in `Ride.h`), the
second of the two modes of the action. -/
def RIDE_MODIFY_RENEW : Nat := 1

/-- Modelled from the spec: the ride status `RIDE_STATUS_CLOSED` (declared in `Ride.h`). -/
def RIDE_STATUS_CLOSED : Nat := 0

/-- Modelled from the spec: the ride status `RIDE_STATUS_OPEN` (declared in `Ride.h`). -/
def RIDE_STATUS_OPEN : Nat := 1

/-- Modelled from the spec: the ride status `RIDE_STATUS_TESTING` (declared in `Ride.h`). -/
def RIDE_STATUS_TESTING : Nat := 2

/-- Modelled from the spec: the ride status `RIDE_STATUS_SIMULATING` (declared in `Ride.h`). -/
def RIDE_STATUS_SIMULATING : Nat := 3

/-- Modelled from the spec: the lifecycle flag `RIDE_LIFECYCLE_EVER_BEEN_OPENED` (declared in
`Ride.h`), bit 12. -/
def RIDE_LIFECYCLE_EVER_BEEN_OPENED : Nat := 4096

/-- Modelled from the spec: the lifecycle flag `RIDE_LIFECYCLE_INDESTRUCTIBLE` (declared in
`Ride.h`), bit 14. -/
def RIDE_LIFECYCLE_INDESTRUCTIBLE : Nat := 16384

/-- Modelled from the spec: the lifecycle flag `RIDE_LIFECYCLE_INDESTRUCTIBLE_TRACK` (declared
in `Ride.h`), bit 15. -/
def RIDE_LIFECYCLE_INDESTRUCTIBLE_TRACK : Nat := 32768

/-- Modelled from the spec: the crash type `RIDE_CRASH_TYPE_NONE` (declared in `Ride.h`). -/
def RIDE_CRASH_TYPE_NONE : Nat := 0

/-- Modelled from the spec: the flag `RIDE_INVALIDATE_RIDE_CUSTOMER` (declared in `Ride.h`),
bit 0. -/
def RIDE_INVALIDATE_RIDE_CUSTOMER : Nat := 1

/-- Modelled from the spec: the flag `RIDE_INVALIDATE_RIDE_MAINTENANCE` (declared in `Ride.h`),
bit 5. -/
def RIDE_INVALIDATE_RIDE_MAINTENANCE : Nat := 32

/-- Modelled from the spec: the constant `MAX_RIDES` (declared in `Ride.h`), the capacity of
the ride table. -/
def MAX_RIDES : Nat := 255

/-- Modelled from the spec: the constant `RIDE_ID_NULL` (declared in `Ride.h`), the null
sentinel of ride identifiers: the largest value of the 16-bit `ride_id_t`. -/
def RIDE_ID_NULL : Nat := 65535

/-- All 32 bits set: the mask of a `uint32_t`. -/
def UINT32_MASK : Nat := 4294967295

/-! ## Rides -/

/-- Modelled from the spec: `Ride` (declared in `Ride.h`), with the fields that the actions
read or write. -/
structure Ride where
  type : Nat := 0
  status : Nat := 0
  lifecycle_flags : Nat := 0
  num_riders : Nat := 0
  overall_view : CoordsXY := { x := LOCATION_NULL, y := LOCATION_NULL }
  last_crash_type : Nat := 0
  window_invalidate_flags : Nat := 0
  build_date : Nat := 0
  reliability : Nat := 0
  deriving DecidableEq, Repr

/-! ## Guests -/

/-- Modelled from the spec: the peep state `PeepState::Watching` (declared in `Peep.h`). -/
def PeepState_Watching : Nat := 18

/-- Modelled from the spec: the thought type `PeepThoughtType::None` (declared in `Peep.h`). -/
def PeepThoughtType_None : Nat := 255

/-- Modelled from the spec: the constant `PEEP_THOUGHT_ITEM_NONE` (declared in `Peep.h`). -/
def PEEP_THOUGHT_ITEM_NONE : Nat := 255

/-- Modelled from the spec: the constant `PEEP_MAX_THOUGHTS` (declared in `Peep.h`), the
capacity of the thought queue of a peep. -/
def PEEP_MAX_THOUGHTS : Nat := 5

/-- Modelled from the spec: the voucher type `VOUCHER_TYPE_RIDE_FREE` (declared in `Peep.h`). -/
def VOUCHER_TYPE_RIDE_FREE : Nat := 1

/-- Modelled from the spec: `ShopItem` (declared in `ShopItem.h`), with the items that the
demolition inspects and two that it does not. -/
inductive ShopItem where
  | Balloon
  | Umbrella
  | Voucher
  | Photo
  | Photo2
  | Photo3
  | Photo4
  deriving DecidableEq, Repr

/-- Modelled from the spec: `rct_peep_thought` (declared in `Peep.h`), one entry of the thought
queue. -/
structure PeepThought where
  type : Nat := 255
  item : Nat := 255
  freshness : Nat := 0
  fresh_timeout : Nat := 0
  deriving DecidableEq, Repr

/-- Modelled from the spec: `Guest` (declared in `Peep.h`), with the fields that the demolition
reads or writes. `RidesBeenOn` is an array of bytes, `Thoughts` an array of
`PEEP_MAX_THOUGHTS` entries, `Items` the set of the items held. -/
structure Guest where
  RidesBeenOn : List Nat := List.replicate 32 0
  State : Nat := 0
  CurrentRide : Nat := 65535
  TimeToStand : Nat := 0
  Items : List ShopItem := []
  VoucherType : Nat := 0
  VoucherRideId : Nat := 65535
  Photo1RideRef : Nat := 65535
  Photo2RideRef : Nat := 65535
  Photo3RideRef : Nat := 65535
  Photo4RideRef : Nat := 65535
  GuestHeadingToRideId : Nat := 65535
  FavouriteRide : Nat := 65535
  Thoughts : List PeepThought := List.replicate 5 {}
  deriving DecidableEq, Repr

/-- Modelled from the spec: `Peep::HasItem` (its body is in `Peep.cpp`): whether the guest
holds the collectible item. -/
def Guest.HasItem (peep : Guest) (item : ShopItem) : Bool := peep.Items.contains item

/-- Modelled from the spec: `Peep::RemoveItem` (its body is in `Peep.cpp`): the guest no longer
holds the item; the other items stay. -/
def Guest.RemoveItem (peep : Guest) (item : ShopItem) : Guest :=
  { peep with Items := peep.Items.filter (fun i => i != item) }

/-! ## Tile elements, banners, the world -/

/-- Modelled from the spec: the tile element type `TILE_ELEMENT_TYPE_TRACK` (declared in
`TileElement.h`). -/
def TILE_ELEMENT_TYPE_TRACK : Nat := 8

/-- Modelled from the spec: the tile element type `TILE_ELEMENT_TYPE_BANNER` (declared in
`TileElement.h`). -/
def TILE_ELEMENT_TYPE_BANNER : Nat := 28

/-- Modelled from the spec: the track type `TrackElemType::Maze` (declared in `Track.h`). -/
def TrackElemType_Maze : Nat := 101

/-- Modelled from the spec: the maze mode `GC_SET_MAZE_TRACK_FILL` (declared in
`MazeSetTrackAction.h`). -/
def GC_SET_MAZE_TRACK_FILL : Nat := 2

/-- Modelled from the spec: the constant `MAX_BANNERS` (declared in `Banner.h`), the capacity of
the banner table. -/
def MAX_BANNERS : Nat := 250

/-- Modelled from the spec: the constant `BANNER_INDEX_NULL` (declared in `Banner.h`), the null
sentinel of banner indices: the largest value of the 16-bit `BannerIndex`. -/
def BANNER_INDEX_NULL : Nat := 65535

/-- Modelled from the spec: the banner type `BANNER_NULL` (declared in `Banner.h`). -/
def BANNER_NULL : Nat := 255

/-- Modelled from the spec: the flag `BANNER_FLAG_LINKED_TO_RIDE` (declared in `Banner.h`),
bit 2. -/
def BANNER_FLAG_LINKED_TO_RIDE : Nat := 4

/-- All 8 bits set: the mask of a `uint8_t`. -/
def UINT8_MASK : Nat := 255

/-- Modelled from the spec: `TileElement` (declared in `TileElement.h`), with the views that the
actions use: the common fields, the track view (`AsTrack`) and the banner view. -/
structure TileElement where
  type : Nat := 0
  baseZ : Int := 0
  direction : Nat := 0
  ghost : Bool := false
  rideIndex : Nat := 65535
  trackType : Nat := 0
  sequenceIndex : Nat := 0
  bannerIndex : Nat := 65535
  position : Nat := 0
  deriving DecidableEq, Repr

/-- Modelled from the spec: one tile of the tile element store: its tile coordinates and its
elements from first to last. -/
structure Tile where
  x : Nat
  y : Nat
  elements : List TileElement
  deriving DecidableEq, Repr

/-- Modelled from the spec: `Banner` (declared in `Banner.h`), an entry of the banner table. -/
structure Banner where
  type : Nat := 255
  flags : Nat := 0
  ride_index : Nat := 65535
  text : List Nat := []
  deriving DecidableEq, Repr

/-- Modelled from the spec: `Banner::IsNull` (declared in `Banner.h`). -/
def Banner.IsNull (b : Banner) : Bool := b.type == BANNER_NULL

/-- Modelled from the spec: `MarketingCampaign` (declared in `Marketing.h`), a running
campaign. -/
structure MarketingCampaign where
  CampaignType : Nat
  RideId : Nat
  deriving DecidableEq, Repr

/-- Modelled from the spec: the staff category `StaffType::Handyman` (declared in `Staff.h`). -/
def StaffType_Handyman : Nat := 0

/-- Modelled from the spec: the staff category `StaffType::Mechanic` (declared in `Staff.h`). -/
def StaffType_Mechanic : Nat := 1

/-- Modelled from the spec: the staff category `StaffType::Security` (declared in `Staff.h`). -/
def StaffType_Security : Nat := 2

/-- Modelled from the spec: the staff category `StaffType::Entertainer` (declared in
`Staff.h`), which has no uniform colour. -/
def StaffType_Entertainer : Nat := 3

/-- Modelled from the spec: `Staff` (declared in `Staff.h`), with the fields that the colour
action reads or writes, and the sprite index that identifies the entity. -/
structure Staff where
  sprite_index : Nat := 0
  AssignedStaffType : Nat := 0
  TshirtColour : Nat := 0
  TrousersColour : Nat := 0
  deriving DecidableEq, Repr

/-- Modelled from the spec: the global uniform colours `gStaffHandymanColour`,
`gStaffMechanicColour` and `gStaffSecurityColour` (declared in `Staff.h`), the setting per
category. -/
structure StaffColours where
  gStaffHandymanColour : Nat := 0
  gStaffMechanicColour : Nat := 0
  gStaffSecurityColour : Nat := 0
  deriving DecidableEq, Repr

/-- Modelled from the spec: the global simulation state that the actions read or write: the
ride table, the tile element store, the banner table, the guests, the campaigns, two
globals, the staff and the uniform colours. The map is the list of its tiles in the order in
which the iterator visits them. -/
structure World where
  rides : List (Option Ride) := []
  tiles : List Tile := []
  banners : List Banner := []
  guests : List Guest := []
  campaigns : List MarketingCampaign := []
  gGamePaused : Nat := 0
  gParkValue : Int := 0
  staff : List Staff := []
  staffColours : StaffColours := {}
  deriving DecidableEq, Repr

/-- Modelled from the spec: `get_ride` (its body is in `Ride.cpp`): lookup by index in the
ride table, which has `MAX_RIDES` slots; a free slot and an index outside the table give
nothing, so the null identifier never resolves. -/
def get_ride (w : World) (index : Nat) : Option Ride :=
  if index < MAX_RIDES then (w.rides.get? index).join else none

/-- Writes through a `Ride*`: the slot of the ride table at the index is replaced. -/
def set_ride (w : World) (index : Nat) (ride : Ride) : World :=
  { w with rides := w.rides.set index (some ride) }

/-- Modelled from the spec: `GetBanner` (its body is in `Banner.cpp`): lookup by index in the
banner table; an index outside the table gives nothing. -/
def GetBanner (w : World) (index : Nat) : Option Banner := w.banners.get? index

/-- Modelled from the spec: `tile_element_remove` (its body is in `Map.cpp`): the element at
the given place of the given tile leaves the map, the elements after it move up. -/
def tile_element_remove (w : World) (tile elem : Nat) : World :=
  { w with tiles := w.tiles.modify (fun t => { t with elements := t.elements.eraseIdx elem }) tile }

/-! ## Nested actions and collaborators -/

/-- Modelled from the spec: `TrackRemoveAction` (declared in `TrackRemoveAction.h`): the
parameters that its constructor takes, and its flags. -/
structure TrackRemoveAction where
  trackType : Nat
  sequence : Nat
  origin : CoordsXYZD
  flags : Nat
  deriving DecidableEq, Repr

/-- Modelled from the spec: `MazeSetTrackAction` (declared in `MazeSetTrackAction.h`): the
parameters that its constructor takes, and its flags. -/
structure MazeSetTrackAction where
  loc : CoordsXYZD
  initialPlacement : Bool
  rideIndex : Nat
  mode : Nat
  flags : Nat
  deriving DecidableEq, Repr

/-- A nested action as it was issued. -/
inductive NestedAction where
  | track (a : TrackRemoveAction)
  | maze (a : MazeSetTrackAction)
  deriving DecidableEq, Repr

/-- Flags that a nested action was given. -/
def NestedAction.flags : NestedAction → Nat
  | NestedAction.track a => a.flags
  | NestedAction.maze a => a.flags

/-- One record of the trace of a demolition: the nested action issued, the result that
`GameActions::ExecuteNested` returned for it, and whether its cost was added to the refund
(whether the statement `refundPrice += ...` ran for it). -/
structure NestedCall where
  action : NestedAction
  result : Result
  added : Bool
  deriving DecidableEq, Repr

/-- The functions of other translation units that the actions call. Each is a parameter of
the development: nothing is assumed of it beyond its type, unless a theorem states a hypothesis
on it. The nested executions return the
result of the nested action and the world that it leaves. -/
structure Env where
  ride_get_refund_price : World → Ride → Int
  AvailableBreakdowns : Nat → Nat
  Renew : Ride → Ride
  tile_element_height : World → CoordsXY → Int
  ExecuteNestedTrackRemove : TrackRemoveAction → World → Result × World
  ExecuteNestedMazeSetTrack : MazeSetTrackAction → World → Result × World
  ride_clear_for_construction : Nat → World → World
  ride_remove_peeps : Nat → World → World
  StopGuestsQueuing : Nat → World → World
  sub_6CB945 : Nat → World → World
  ride_clear_leftover_entrances : Nat → World → World
  DisableNewsItems : Nat → World → World
  CalculateParkValue : World → Int
  LocationValid : CoordsXYZD → Bool
  map_can_build_at : World → CoordsXYZ → Bool
  get_banner_entry_price : Nat → Option Int

/-- Modelled from the spec: `MarketingCancelCampaignsForRide` (its body is in `Marketing.cpp`):
the campaigns that reference the ride are cancelled. -/
def MarketingCancelCampaignsForRide (rideId : Nat) (w : World) : World :=
  { w with campaigns := w.campaigns.filter (fun c => c.RideId != rideId) }

/-- Modelled from the spec: `Ride::Delete` (its body is in `Ride.cpp`): the slot of the ride
becomes free. -/
def Ride.Delete (rideIndex : Nat) (w : World) : World :=
  { w with rides := w.rides.set rideIndex none }

/-! ## RideDemolishAction -/

/-- Modelled from the spec: `RideDemolishAction` (declared in `RideDemolishAction.h`): the
parameters `_rideIndex` and `_modifyType`, and the fields of the base `GameAction`: the flags,
the network id and the player id. -/
structure RideDemolishAction where
  rideIndex : Nat
  modifyType : Nat
  flags : Nat := 0
  networkId : Nat := 0
  playerId : Int := -1
  deriving DecidableEq, Repr

/-- Method `RideDemolishAction::GetRefundPrice`. -/
def RideDemolishAction.GetRefundPrice (env : Env) (w : World) (ride : Ride) : Int :=
  env.ride_get_refund_price w ride

/-- Method `RideDemolishAction::GetRefurbishPrice`: `-GetRefundPrice(ride) / 2` in `money32`. -/
def RideDemolishAction.GetRefurbishPrice (env : Env) (w : World) (ride : Ride) : Int :=
  Int.tdiv (wrap32 (-(RideDemolishAction.GetRefundPrice env w ride))) 2

/-- Method `RideDemolishAction::Query`. -/
def RideDemolishAction.Query (env : Env) (a : RideDemolishAction) (w : World) : Result :=
  match get_ride w a.rideIndex with
  | none => MakeResult3 Status.InvalidParameters StringId.STR_CANT_DEMOLISH_RIDE StringId.STR_NONE
  | some ride =>
    if (ride.lifecycle_flags &&& (RIDE_LIFECYCLE_INDESTRUCTIBLE ||| RIDE_LIFECYCLE_INDESTRUCTIBLE_TRACK)) ≠ 0
        ∧ a.modifyType = RIDE_MODIFY_DEMOLISH then
      MakeResult3 Status.NoClearance StringId.STR_CANT_DEMOLISH_RIDE
        StringId.STR_LOCAL_AUTHORITY_FORBIDS_DEMOLITION_OR_MODIFICATIONS_TO_THIS_RIDE
    else
      let result : Result := {}
      if a.modifyType = RIDE_MODIFY_RENEW then
        if ride.status ≠ RIDE_STATUS_CLOSED ∧ ride.status ≠ RIDE_STATUS_SIMULATING then
          MakeResult3 Status.Disallowed StringId.STR_CANT_REFURBISH_RIDE StringId.STR_MUST_BE_CLOSED_FIRST
        else if ride.num_riders > 0 then
          MakeResult3 Status.Disallowed StringId.STR_CANT_REFURBISH_RIDE StringId.STR_RIDE_NOT_YET_EMPTY
        else if (ride.lifecycle_flags &&& RIDE_LIFECYCLE_EVER_BEEN_OPENED) = 0
            ∨ env.AvailableBreakdowns ride.type = 0 then
          MakeResult3 Status.Disallowed StringId.STR_CANT_REFURBISH_RIDE
            StringId.STR_CANT_REFURBISH_NOT_NEEDED
        else
          { result with
            ErrorTitle := StringId.STR_CANT_REFURBISH_RIDE
            Cost := RideDemolishAction.GetRefurbishPrice env w ride }
      else result

/-- Method `RideDemolishAction::RefurbishRide`; the ride is the one in the slot `_rideIndex`,
and the writes through the pointer go to that slot. -/
def RideDemolishAction.RefurbishRide (env : Env) (a : RideDemolishAction) (ride : Ride)
    (w : World) : Result × World :=
  let res : Result :=
    { Expenditure := ExpenditureType.RideConstruction
      Cost := RideDemolishAction.GetRefurbishPrice env w ride }
  let ride := env.Renew ride
  let ride := { ride with
    lifecycle_flags := ride.lifecycle_flags &&& (UINT32_MASK ^^^ RIDE_LIFECYCLE_EVER_BEEN_OPENED) }
  let ride := { ride with last_crash_type := RIDE_CRASH_TYPE_NONE }
  let ride := { ride with
    window_invalidate_flags :=
      ride.window_invalidate_flags ||| (RIDE_INVALIDATE_RIDE_MAINTENANCE ||| RIDE_INVALIDATE_RIDE_CUSTOMER) }
  let w := set_ride w a.rideIndex ride
  if !ride.overall_view.isNull then
    let location := ride.overall_view.ToTileCentre
    ({ res with Position := { x := location.x, y := location.y, z := env.tile_element_height w location } }, w)
  else (res, w)

/-! ### The scrub of a guest -/

/-- The statements `memmove(&Thoughts[i], &Thoughts[i + 1], ...)` and the two writes to
`Thoughts[PEEP_MAX_THOUGHTS - 1]`: the entries after place `i` move up by one, the last entry
gets type `None` and item `PEEP_THOUGHT_ITEM_NONE` and keeps its other fields. -/
def clearTopThought (ts : List PeepThought) (i : Nat) : List PeepThought :=
  let moved := ts.take i ++ (ts.drop (i + 1)).take (PEEP_MAX_THOUGHTS - i - 1)
    ++ ts.drop (PEEP_MAX_THOUGHTS - 1)
  moved.modify
    (fun t => { t with type := PeepThoughtType_None, item := PEEP_THOUGHT_ITEM_NONE })
    (PEEP_MAX_THOUGHTS - 1)

/-- The loop over the thought queue in `DemolishRide`, from index `i` on. Each turn of the
loop takes one unit of fuel; `none` means that the fuel ran out. -/
def thoughtLoop (rideIndex : Nat) : Nat → List PeepThought → Nat → Option (List PeepThought)
  | 0, _, _ => none
  | fuel + 1, ts, i =>
    if i < PEEP_MAX_THOUGHTS then
      match ts.get? i with
      | none => some ts
      | some t =>
        if t.type = PeepThoughtType_None then some ts
        else if t.type ≠ PeepThoughtType_None ∧ t.item = rideIndex then
          thoughtLoop rideIndex fuel (clearTopThought ts i) i
        else thoughtLoop rideIndex fuel ts (i + 1)
    else some ts

/-- The statement `peep->RidesBeenOn[ride_id_offset] &= ~(1 << ride_id_bit)` with the two
`uint8_t` locals before it. -/
def scrubRidesBeenOn (rideIndex : Nat) (peep : Guest) : Guest :=
  let ride_id_bit := (rideIndex % 8) % 256
  let ride_id_offset := (rideIndex / 8) % 256
  { peep with
    RidesBeenOn := peep.RidesBeenOn.modify (fun b => b &&& (UINT8_MASK ^^^ (1 <<< ride_id_bit)))
      ride_id_offset }

/-- The block `if (peep->State == PeepState::Watching)`. -/
def scrubWatching (rideIndex : Nat) (peep : Guest) : Guest :=
  if peep.State = PeepState_Watching then
    if peep.CurrentRide = rideIndex then
      let peep := { peep with CurrentRide := RIDE_ID_NULL }
      if peep.TimeToStand ≥ 50 then { peep with TimeToStand := 50 } else peep
    else peep
  else peep

/-- The block `if (peep->HasItem(ShopItem::Voucher))`. -/
def scrubVoucher (rideIndex : Nat) (peep : Guest) : Guest :=
  if peep.HasItem ShopItem.Voucher then
    if peep.VoucherType = VOUCHER_TYPE_RIDE_FREE ∧ peep.VoucherRideId = rideIndex then
      peep.RemoveItem ShopItem.Voucher
    else peep
  else peep

/-- The block `if (peep->HasItem(ShopItem::Photo))`. -/
def scrubPhoto1 (rideIndex : Nat) (peep : Guest) : Guest :=
  if peep.HasItem ShopItem.Photo then
    if peep.Photo1RideRef = rideIndex then peep.RemoveItem ShopItem.Photo else peep
  else peep

/-- The block `if (peep->HasItem(ShopItem::Photo2))`. -/
def scrubPhoto2 (rideIndex : Nat) (peep : Guest) : Guest :=
  if peep.HasItem ShopItem.Photo2 then
    if peep.Photo2RideRef = rideIndex then peep.RemoveItem ShopItem.Photo2 else peep
  else peep

/-- The block `if (peep->HasItem(ShopItem::Photo3))`. -/
def scrubPhoto3 (rideIndex : Nat) (peep : Guest) : Guest :=
  if peep.HasItem ShopItem.Photo3 then
    if peep.Photo3RideRef = rideIndex then peep.RemoveItem ShopItem.Photo3 else peep
  else peep

/-- The block `if (peep->HasItem(ShopItem::Photo4))`. -/
def scrubPhoto4 (rideIndex : Nat) (peep : Guest) : Guest :=
  if peep.HasItem ShopItem.Photo4 then
    if peep.Photo4RideRef = rideIndex then peep.RemoveItem ShopItem.Photo4 else peep
  else peep

/-- The block `if (peep->GuestHeadingToRideId == _rideIndex)`. -/
def scrubHeading (rideIndex : Nat) (peep : Guest) : Guest :=
  if peep.GuestHeadingToRideId = rideIndex then { peep with GuestHeadingToRideId := RIDE_ID_NULL }
  else peep

/-- The block `if (peep->FavouriteRide == _rideIndex)`. -/
def scrubFavourite (rideIndex : Nat) (peep : Guest) : Guest :=
  if peep.FavouriteRide = rideIndex then { peep with FavouriteRide := RIDE_ID_NULL } else peep

/-- The body of the loop over the guests in `DemolishRide`, without the thought queue: its
blocks in the order of the source. -/
def scrubGuestFields (rideIndex : Nat) (peep : Guest) : Guest :=
  let peep := scrubRidesBeenOn rideIndex peep
  let peep := scrubWatching rideIndex peep
  let peep := scrubVoucher rideIndex peep
  let peep := scrubPhoto1 rideIndex peep
  let peep := scrubPhoto2 rideIndex peep
  let peep := scrubPhoto3 rideIndex peep
  let peep := scrubPhoto4 rideIndex peep
  let peep := scrubHeading rideIndex peep
  let peep := scrubFavourite rideIndex peep
  peep

/-- The body of the loop over the guests in `DemolishRide`. -/
def scrubGuest (rideIndex fuel : Nat) (peep : Guest) : Option Guest :=
  let peep := scrubGuestFields rideIndex peep
  match thoughtLoop rideIndex fuel peep.Thoughts 0 with
  | none => none
  | some ts => some { peep with Thoughts := ts }

/-- The loop `for (auto peep : EntityList<Guest>())` of `DemolishRide`. -/
def scrubGuests (rideIndex fuel : Nat) : List Guest → Option (List Guest)
  | [] => some []
  | peep :: rest =>
    match scrubGuest rideIndex fuel peep with
    | none => none
    | some peep =>
      match scrubGuests rideIndex fuel rest with
      | none => none
      | some rest => some (peep :: rest)

/-! ### The demolition of the track -/

/-- The table `DirOffsets` of `DemolishTracks`. -/
def DirOffsets : List CoordsXY :=
  [{ x := 0, y := 0 }, { x := 0, y := 16 }, { x := 16, y := 16 }, { x := 16, y := 0 }]

/-- Modelled from the spec: the range `ALL_DIRECTIONS` (declared in `Location.hpp`), the four
directions in order. -/
def ALL_DIRECTIONS : List Nat := [0, 1, 2, 3]

/-- The state of `DemolishTracks` while it runs: the world, the local `refundPrice`, and the
trace of the nested actions issued so far. -/
structure TrackState where
  world : World
  refundPrice : Int
  trace : List NestedCall
  deriving DecidableEq, Repr

/-- What `MazeRemoveTrack` yields: the price it returns, the world it leaves, the nested action
that it issued and the result of that action. -/
structure MazeRemoval where
  price : Int
  world : World
  action : MazeSetTrackAction
  result : Result
  deriving DecidableEq, Repr

/-- Method `RideDemolishAction::MazeRemoveTrack`. -/
def RideDemolishAction.MazeRemoveTrack (env : Env) (a : RideDemolishAction) (coords : CoordsXYZD)
    (w : World) : MazeRemoval :=
  let setMazeTrack : MazeSetTrackAction :=
    { loc := coords, initialPlacement := false, rideIndex := a.rideIndex,
      mode := GC_SET_MAZE_TRACK_FILL, flags := 0 }
  let setMazeTrack := { setMazeTrack with flags := a.flags }
  let execRes := env.ExecuteNestedMazeSetTrack setMazeTrack w
  if execRes.1.Error = Status.Ok then
    { price := execRes.1.Cost, world := execRes.2, action := setMazeTrack, result := execRes.1 }
  else
    { price := MONEY32_UNDEFINED, world := execRes.2, action := setMazeTrack, result := execRes.1 }

/-- The loop `for (Direction dir : ALL_DIRECTIONS)` of `DemolishTracks` over the directions
that remain, for the maze element at `location`. -/
def RideDemolishAction.mazeLoop (env : Env) (a : RideDemolishAction) (location : CoordsXYZD) :
    List Nat → TrackState → TrackState
  | [], s => s
  | dir :: rest, s =>
    let off := DirOffsets.getD dir { x := 0, y := 0 }
    let r := RideDemolishAction.MazeRemoveTrack env a
      { x := location.x + off.x, y := location.y + off.y, z := location.z + 0, direction := dir }
      s.world
    if r.price ≠ MONEY32_UNDEFINED then
      RideDemolishAction.mazeLoop env a location rest
        { world := r.world
          refundPrice := wrap32 (s.refundPrice + r.price)
          trace := s.trace ++ [{ action := NestedAction.maze r.action, result := r.result, added := true }] }
    else
      { world := r.world
        refundPrice := s.refundPrice
        trace := s.trace ++ [{ action := NestedAction.maze r.action, result := r.result, added := false }] }

/-- Modelled from the spec: `tile_element_iterator` (declared in `Map.h`): the tile that the
iterator is at, as a place in the list of the tiles, and the element of that tile that it
points to; `none` stands for the null pointer that a restart leaves. -/
structure tile_element_iterator where
  tile : Nat
  element : Option Nat
  deriving DecidableEq, Repr

/-- What a call of `tile_element_iterator_next` yields: the end of the map, a move to the
next tile, or the iterator at an element together with its tile and that element. -/
inductive IteratorStep where
  | finished
  | moved (it : tile_element_iterator)
  | found (it : tile_element_iterator) (tile : Tile) (element : TileElement)
  deriving DecidableEq, Repr

/-- Modelled from the spec: `tile_element_iterator_begin` (its body is in `Map.cpp`): the
iterator before the first element of the first tile, so that all tile elements are
iterated. -/
def tile_element_iterator_begin : tile_element_iterator := { tile := 0, element := none }

/-- Modelled from the spec: `tile_element_iterator_next` (its body is in `Map.cpp`): after a
restart the first element of the tile, else the element after the current one; past the last
element of a tile the iterator moves to the next tile, past the last tile it is finished. -/
def tile_element_iterator_next (w : World) (it : tile_element_iterator) : IteratorStep :=
  match w.tiles.get? it.tile with
  | none => IteratorStep.finished
  | some tile =>
    let e :=
      match it.element with
      | none => 0
      | some e => e + 1
    match tile.elements.get? e with
    | none => IteratorStep.moved { tile := it.tile + 1, element := none }
    | some element => IteratorStep.found { tile := it.tile, element := some e } tile element

/-- Modelled from the spec: `tile_element_iterator_restart_for_tile` (its body is in
`Map.cpp`): the iterator will read the current tile again from its first element. -/
def tile_element_iterator_restart_for_tile (it : tile_element_iterator) : tile_element_iterator :=
  { it with element := none }

/-- The call `tile_element_remove(it.element)`. -/
def tile_element_remove_at (w : World) (it : tile_element_iterator) : World :=
  match it.element with
  | none => w
  | some e => tile_element_remove w it.tile e

/-- The loop `while (tile_element_iterator_next(&it))` of `DemolishTracks`. Each call of
`tile_element_iterator_next` takes one unit of fuel; `none` means that the fuel ran out. -/
def RideDemolishAction.demolishLoop (env : Env) (a : RideDemolishAction) :
    Nat → tile_element_iterator → TrackState → Option TrackState
  | 0, _, _ => none
  | fuel + 1, it, s =>
    match tile_element_iterator_next s.world it with
    | IteratorStep.finished => some s
    | IteratorStep.moved it => RideDemolishAction.demolishLoop env a fuel it s
    | IteratorStep.found it tile element =>
      if element.type ≠ TILE_ELEMENT_TYPE_TRACK then
        RideDemolishAction.demolishLoop env a fuel it s
      else if element.rideIndex ≠ a.rideIndex then
        RideDemolishAction.demolishLoop env a fuel it s
      else
        let location : CoordsXYZD :=
          { x := (tile.x : Int) * 32, y := (tile.y : Int) * 32, z := element.baseZ,
            direction := element.direction }
        let type := element.trackType
        if type ≠ TrackElemType_Maze then
          let trackRemoveAction : TrackRemoveAction :=
            { trackType := type, sequence := element.sequenceIndex, origin := location, flags := 0 }
          let trackRemoveAction := { trackRemoveAction with flags := GAME_COMMAND_FLAG_NO_SPEND }
          let removRes := env.ExecuteNestedTrackRemove trackRemoveAction s.world
          if removRes.1.Error ≠ Status.Ok then
            RideDemolishAction.demolishLoop env a fuel (tile_element_iterator_restart_for_tile it)
              { world := tile_element_remove_at removRes.2 it
                refundPrice := s.refundPrice
                trace := s.trace ++
                  [{ action := NestedAction.track trackRemoveAction, result := removRes.1, added := false }] }
          else
            RideDemolishAction.demolishLoop env a fuel (tile_element_iterator_restart_for_tile it)
              { world := removRes.2
                refundPrice := wrap32 (s.refundPrice + removRes.1.Cost)
                trace := s.trace ++
                  [{ action := NestedAction.track trackRemoveAction, result := removRes.1, added := true }] }
        else
          RideDemolishAction.demolishLoop env a fuel (tile_element_iterator_restart_for_tile it)
            (RideDemolishAction.mazeLoop env a location ALL_DIRECTIONS s)

/-- Method `RideDemolishAction::DemolishTracks`; the result carries the refund, the world and
the trace of the nested actions. -/
def RideDemolishAction.DemolishTracks (env : Env) (a : RideDemolishAction) (fuel : Nat)
    (w : World) : Option TrackState :=
  let refundPrice : Int := 0
  let oldpaused := w.gGamePaused
  let w := { w with gGamePaused := 0 }
  match RideDemolishAction.demolishLoop env a fuel tile_element_iterator_begin
      { world := w, refundPrice := refundPrice, trace := [] } with
  | none => none
  | some s => some { s with world := { s.world with gGamePaused := oldpaused } }

/-- The loop over the banner table in `DemolishRide`. -/
def unlinkBanners (rideIndex : Nat) (banners : List Banner) : List Banner :=
  (banners.take MAX_BANNERS).map (fun banner =>
      if !banner.IsNull ∧ (banner.flags &&& BANNER_FLAG_LINKED_TO_RIDE) ≠ 0
          ∧ banner.ride_index = rideIndex then
        { banner with flags := banner.flags &&& (UINT8_MASK ^^^ BANNER_FLAG_LINKED_TO_RIDE), text := [] }
      else banner)
    ++ banners.drop MAX_BANNERS

/-- The first part of `DemolishRide`, up to the loop over the guests: the track is demolished,
the ride is cleared, the banners are unlinked. -/
def RideDemolishAction.DemolishRidePrepare (env : Env) (a : RideDemolishAction) (fuel : Nat)
    (w : World) : Option TrackState :=
  match RideDemolishAction.DemolishTracks env a fuel w with
  | none => none
  | some s =>
    let w := s.world
    let w := env.ride_clear_for_construction a.rideIndex w
    let w := env.ride_remove_peeps a.rideIndex w
    let w := env.StopGuestsQueuing a.rideIndex w
    let w := env.sub_6CB945 a.rideIndex w
    let w := env.ride_clear_leftover_entrances a.rideIndex w
    let w := env.DisableNewsItems a.rideIndex w
    let w := { w with banners := unlinkBanners a.rideIndex w.banners }
    some { s with world := w }

/-- Method `RideDemolishAction::DemolishRide`. The window calls at its end act on the user
interface only and are left out. The result comes with the world and the trace of the nested
actions; `none` means that the fuel ran out. -/
def RideDemolishAction.DemolishRide (env : Env) (a : RideDemolishAction) (fuel : Nat)
    (w : World) : Option (Result × World × List NestedCall) :=
  match RideDemolishAction.DemolishRidePrepare env a fuel w with
  | none => none
  | some s =>
    let refundPrice := s.refundPrice
    let w := s.world
    match scrubGuests a.rideIndex fuel w.guests with
    | none => none
    | some guests =>
      let w := { w with guests := guests }
      let w := MarketingCancelCampaignsForRide a.rideIndex w
      let res : Result := {}
      let res := { res with Expenditure := ExpenditureType.RideConstruction }
      let res := { res with Cost := refundPrice }
      let res :=
        match (w.rides.get? a.rideIndex).join with
        | none => res
        | some ride =>
          if !ride.overall_view.isNull then
            let xy := ride.overall_view.ToTileCentre
            { res with Position := { x := xy.x, y := xy.y, z := env.tile_element_height w xy } }
          else res
      let w := Ride.Delete a.rideIndex w
      let w := { w with gParkValue := env.CalculateParkValue w }
      some (res, w, s.trace)

/-- Method `RideDemolishAction::Execute`; `none` means that the fuel ran out. -/
def RideDemolishAction.Execute (env : Env) (a : RideDemolishAction) (fuel : Nat) (w : World) :
    Option (Result × World × List NestedCall) :=
  match get_ride w a.rideIndex with
  | none =>
    some (MakeResult3 Status.InvalidParameters StringId.STR_CANT_DEMOLISH_RIDE StringId.STR_NONE, w, [])
  | some ride =>
    if a.modifyType = RIDE_MODIFY_DEMOLISH then RideDemolishAction.DemolishRide env a fuel w
    else if a.modifyType = RIDE_MODIFY_RENEW then
      let r := RideDemolishAction.RefurbishRide env a ride w
      some (r.1, r.2, [])
    else some (MakeResult2 Status.InvalidParameters StringId.STR_CANT_DO_THIS, w, [])

/-! ## BannerRemoveAction -/

/-- Modelled from the spec: `BannerRemoveAction` (declared in `BannerRemoveAction.h`): the
parameter `_loc`, and the fields of the base `GameAction`: the flags, the network id and the
player id. -/
structure BannerRemoveAction where
  loc : CoordsXYZD
  flags : Nat := 0
  networkId : Nat := 0
  playerId : Int := -1
  deriving DecidableEq, Repr

/-- Modelled from the spec: `map_get_first_element_at` (its body is in `Map.cpp`): the place in
the map of the tile that holds the world coordinates, nothing for coordinates off the map. -/
def tileIndexAt (w : World) (x y : Int) : Option Nat :=
  if x < 0 ∨ y < 0 then none
  else w.tiles.findIdx? (fun t => (t.x : Int) == Int.tdiv x 32 && (t.y : Int) == Int.tdiv y 32)

/-- The loop of `GetBannerElementAt` over the elements of one tile, from place `i` on; the
view `TileElementsView<BannerElement>` passes over the elements that are no banners. -/
def BannerRemoveAction.scan (a : BannerRemoveAction) : List TileElement → Nat → Option (Nat × TileElement)
  | [], _ => none
  | bannerElement :: rest, i =>
    if bannerElement.type ≠ TILE_ELEMENT_TYPE_BANNER then BannerRemoveAction.scan a rest (i + 1)
    else if bannerElement.baseZ ≠ a.loc.z then BannerRemoveAction.scan a rest (i + 1)
    else if bannerElement.ghost ∧ (a.flags &&& GAME_COMMAND_FLAG_GHOST) = 0 then
      BannerRemoveAction.scan a rest (i + 1)
    else if bannerElement.position ≠ a.loc.direction then BannerRemoveAction.scan a rest (i + 1)
    else some (i, bannerElement)

/-- Method `BannerRemoveAction::GetBannerElementAt`: the tile, the place in the tile and the
element found, or nothing for the null pointer. -/
def BannerRemoveAction.GetBannerElementAt (a : BannerRemoveAction) (w : World) :
    Option (Nat × Nat × TileElement) :=
  match tileIndexAt w a.loc.x a.loc.y with
  | none => none
  | some t =>
    match w.tiles.get? t with
    | none => none
    | some tile =>
      match BannerRemoveAction.scan a tile.elements 0 with
      | none => none
      | some found => some (t, found.1, found.2)

/-- The refund `-((price * 3) / 4)` for a banner entry of the given price, in 32-bit
arithmetic. -/
def bannerRefund (price : Int) : Int := wrap32 (-(Int.tdiv (wrap32 (price * 3)) 4))

/-- Method `BannerRemoveAction::Query`. -/
def BannerRemoveAction.Query (env : Env) (a : BannerRemoveAction) (w : World) : Result :=
  let res := MakeResult
  let res := { res with Expenditure := ExpenditureType.Landscaping }
  let res := { res with Position := { x := a.loc.x + 16, y := a.loc.y + 16, z := a.loc.z } }
  let res := { res with ErrorTitle := StringId.STR_CANT_REMOVE_THIS }
  if !env.LocationValid a.loc
      ∨ !env.map_can_build_at w { x := a.loc.x, y := a.loc.y, z := a.loc.z - 16 } then
    MakeResult3 Status.NotOwned StringId.STR_CANT_REMOVE_THIS StringId.STR_LAND_NOT_OWNED_BY_PARK
  else
    match BannerRemoveAction.GetBannerElementAt a w with
    | none => MakeResult2 Status.InvalidParameters StringId.STR_CANT_REMOVE_THIS
    | some found =>
      let bannerElement := found.2.2
      if bannerElement.bannerIndex ≥ MAX_BANNERS ∨ bannerElement.bannerIndex = BANNER_INDEX_NULL then
        MakeResult2 Status.InvalidParameters StringId.STR_CANT_REMOVE_THIS
      else
        match GetBanner w bannerElement.bannerIndex with
        | none => MakeResult2 Status.InvalidParameters StringId.STR_CANT_REMOVE_THIS
        | some banner =>
          match env.get_banner_entry_price banner.type with
          | some price => { res with Cost := bannerRefund price }
          | none => res

/-- Modelled from the spec: `TileElement::RemoveBannerEntry` (its body is in `Banner.cpp`): the
banner that the element refers to is detached, its slot of the banner table becomes null. -/
def RemoveBannerEntry (w : World) (bannerIndex : Nat) : World :=
  { w with banners := w.banners.set bannerIndex {} }

/-- Method `BannerRemoveAction::Execute`; the invalidation of the screen is left out. -/
def BannerRemoveAction.Execute (env : Env) (a : BannerRemoveAction) (w : World) : Result × World :=
  let res := MakeResult
  let res := { res with Expenditure := ExpenditureType.Landscaping }
  let res := { res with Position := { x := a.loc.x + 16, y := a.loc.y + 16, z := a.loc.z } }
  let res := { res with ErrorTitle := StringId.STR_CANT_REMOVE_THIS }
  match BannerRemoveAction.GetBannerElementAt a w with
  | none => (MakeResult2 Status.InvalidParameters StringId.STR_CANT_REMOVE_THIS, w)
  | some found =>
    let bannerElement := found.2.2
    if bannerElement.bannerIndex ≥ MAX_BANNERS ∨ bannerElement.bannerIndex = BANNER_INDEX_NULL then
      (MakeResult2 Status.InvalidParameters StringId.STR_CANT_REMOVE_THIS, w)
    else
      match GetBanner w bannerElement.bannerIndex with
      | none => (MakeResult2 Status.InvalidParameters StringId.STR_CANT_REMOVE_THIS, w)
      | some banner =>
        let res :=
          match env.get_banner_entry_price banner.type with
          | some price => { res with Cost := bannerRefund price }
          | none => res
        let w := RemoveBannerEntry w bannerElement.bannerIndex
        let w := tile_element_remove w found.1 found.2.1
        (res, w)

/-! ## StaffSetColourAction -/

/-- Modelled from the spec: `StaffSetColourAction` (declared in `StaffSetColourAction.h`): the
parameters `_staffType` and `_colour`, both 8-bit, and the fields of the base `GameAction`: the
flags, the network id and the player id. -/
structure StaffSetColourAction where
  staffType : Nat
  colour : Nat
  flags : Nat := 0
  networkId : Nat := 0
  playerId : Int := -1
  deriving DecidableEq, Repr

/-- Modelled from the spec: `staff_set_colour` (its body is in `Staff.cpp`): the global
per-category setting of the category gets the colour; a category other than handyman, mechanic
and security is rejected. The function acts on the uniform colours only. -/
def staff_set_colour (staffType colour : Nat) (g : StaffColours) : Bool × StaffColours :=
  if staffType = StaffType_Handyman then (true, { g with gStaffHandymanColour := colour })
  else if staffType = StaffType_Mechanic then (true, { g with gStaffMechanicColour := colour })
  else if staffType = StaffType_Security then (true, { g with gStaffSecurityColour := colour })
  else (false, g)

/-- Method `StaffSetColourAction::Query`. -/
def StaffSetColourAction.Query (a : StaffSetColourAction) : Result :=
  let staffType := a.staffType
  if staffType ≠ StaffType_Handyman ∧ staffType ≠ StaffType_Mechanic
      ∧ staffType ≠ StaffType_Security then
    MakeResult2 Status.InvalidParameters StringId.STR_NONE
  else MakeResult

/-- The loop `for (auto peep : EntityList<Staff>(EntityListId::Peep))` of
`StaffSetColourAction::Execute`. -/
def StaffSetColourAction.recolour (a : StaffSetColourAction) : List Staff → List Staff
  | [] => []
  | peep :: rest =>
    (if peep.AssignedStaffType = a.staffType then
      let peep := { peep with TshirtColour := a.colour }
      let peep := { peep with TrousersColour := a.colour }
      peep
    else peep) :: StaffSetColourAction.recolour a rest

/-- Method `StaffSetColourAction::Execute`; the invalidation of the screen is left out. -/
def StaffSetColourAction.Execute (a : StaffSetColourAction) (w : World) : Result × World :=
  let set := staff_set_colour a.staffType a.colour w.staffColours
  let w := { w with staffColours := set.2 }
  if !set.1 then
    (MakeResult2 Status.InvalidParameters StringId.STR_NONE, w)
  else
    let w := { w with staff := StaffSetColourAction.recolour a w.staff }
    (MakeResult, w)

/-! ## Serialisation -/

/-- Modelled from the spec: `DataSerialiser` (declared in `DataSerialiser.h`): a stream of
bytes in one of two modes, with one code path for both. When saving, `stream` holds the bytes
written so far; when loading, the bytes still to read, and `failed` records a read past the
end of the stream. -/
structure DataSerialiser where
  isSaving : Bool
  stream : List Nat
  failed : Bool := false
  deriving DecidableEq, Repr

/-- Modelled from the spec: the encoding of an 8-bit field, one byte. -/
def bytesU8 (value : Nat) : List Nat := [value % 256]

/-- Modelled from the spec: the encoding of a 16-bit field, two bytes, the high byte first. -/
def bytesU16 (value : Nat) : List Nat := [value / 256 % 256, value % 256]

/-- Modelled from the spec: the encoding of a 32-bit field, four bytes, the high byte first. -/
def bytesU32 (value : Nat) : List Nat :=
  [value / 16777216 % 256, value / 65536 % 256, value / 256 % 256, value % 256]

/-- Modelled from the spec: the encoding of a signed 32-bit field: the four bytes of its
two-complement representation, the high byte first. -/
def bytesI32 (value : Int) : List Nat := bytesU32 (value % 4294967296).toNat

/-- Modelled from the spec: the operator `<<` of `DataSerialiser` on a tagged 8-bit field: the
field is written when saving and read when loading; the result is the stream and the value
that the field holds afterwards. -/
def DataSerialiser.uint8 (s : DataSerialiser) (value : Nat) : DataSerialiser × Nat :=
  if s.isSaving then ({ s with stream := s.stream ++ bytesU8 value }, value)
  else
    match s.stream with
    | b0 :: rest => ({ s with stream := rest }, b0 % 256)
    | _ => ({ s with failed := true }, value)

/-- Modelled from the spec: the operator `<<` of `DataSerialiser` on a tagged 16-bit field. -/
def DataSerialiser.uint16 (s : DataSerialiser) (value : Nat) : DataSerialiser × Nat :=
  if s.isSaving then ({ s with stream := s.stream ++ bytesU16 value }, value)
  else
    match s.stream with
    | b0 :: b1 :: rest => ({ s with stream := rest }, b0 % 256 * 256 + b1 % 256)
    | _ => ({ s with failed := true }, value)

/-- Modelled from the spec: the operator `<<` of `DataSerialiser` on a tagged 32-bit field. -/
def DataSerialiser.uint32 (s : DataSerialiser) (value : Nat) : DataSerialiser × Nat :=
  if s.isSaving then ({ s with stream := s.stream ++ bytesU32 value }, value)
  else
    match s.stream with
    | b0 :: b1 :: b2 :: b3 :: rest =>
      ({ s with stream := rest },
        b0 % 256 * 16777216 + b1 % 256 * 65536 + b2 % 256 * 256 + b3 % 256)
    | _ => ({ s with failed := true }, value)

/-- Modelled from the spec: the operator `<<` of `DataSerialiser` on a tagged signed 32-bit
field. -/
def DataSerialiser.int32 (s : DataSerialiser) (value : Int) : DataSerialiser × Int :=
  if s.isSaving then ({ s with stream := s.stream ++ bytesI32 value }, value)
  else
    match s.stream with
    | b0 :: b1 :: b2 :: b3 :: rest =>
      ({ s with stream := rest },
        wrap32 ((b0 % 256 * 16777216 + b1 % 256 * 65536 + b2 % 256 * 256 + b3 % 256 : Nat) : Int))
    | _ => ({ s with failed := true }, value)

/-- Modelled from the spec: the operator `<<` of `DataSerialiser` on a tagged `CoordsXYZD`: its
three coordinates as signed 32-bit fields, then its direction as an 8-bit field. -/
def DataSerialiser.coordsXYZD (s : DataSerialiser) (value : CoordsXYZD) :
    DataSerialiser × CoordsXYZD :=
  let x := s.int32 value.x
  let y := x.1.int32 value.y
  let z := y.1.int32 value.z
  let direction := z.1.uint8 value.direction
  (direction.1, { x := x.2, y := y.2, z := z.2, direction := direction.2 })

/-- The fields of the base `GameAction`: the network id, the flags and the player id. -/
structure GameActionBase where
  networkId : Nat
  flags : Nat
  playerId : Int
  deriving DecidableEq, Repr

/-- Modelled from the spec: `GameAction::Serialise` (its body is in `GameAction.cpp`): the base
fields in the order network id, flags, player id. -/
def GameAction.Serialise (stream : DataSerialiser) (base : GameActionBase) :
    DataSerialiser × GameActionBase :=
  let networkId := stream.uint32 base.networkId
  let flags := networkId.1.uint32 base.flags
  let playerId := flags.1.int32 base.playerId
  (playerId.1, { networkId := networkId.2, flags := flags.2, playerId := playerId.2 })

/-- Method `RideDemolishAction::Serialise`: the base fields, then `_rideIndex`, then
`_modifyType`. -/
def RideDemolishAction.Serialise (stream : DataSerialiser) (a : RideDemolishAction) :
    DataSerialiser × RideDemolishAction :=
  let base := GameAction.Serialise stream
    { networkId := a.networkId, flags := a.flags, playerId := a.playerId }
  let rideIndex := base.1.uint16 a.rideIndex
  let modifyType := rideIndex.1.uint8 a.modifyType
  (modifyType.1,
    { rideIndex := rideIndex.2, modifyType := modifyType.2, flags := base.2.flags,
      networkId := base.2.networkId, playerId := base.2.playerId })

/-- Method `BannerRemoveAction::Serialise`: the base fields, then `_loc`. -/
def BannerRemoveAction.Serialise (stream : DataSerialiser) (a : BannerRemoveAction) :
    DataSerialiser × BannerRemoveAction :=
  let base := GameAction.Serialise stream
    { networkId := a.networkId, flags := a.flags, playerId := a.playerId }
  let loc := base.1.coordsXYZD a.loc
  (loc.1,
    { loc := loc.2, flags := base.2.flags, networkId := base.2.networkId,
      playerId := base.2.playerId })

/-- Method `StaffSetColourAction::Serialise`: the base fields, then `_staffType`, then
`_colour`. -/
def StaffSetColourAction.Serialise (stream : DataSerialiser) (a : StaffSetColourAction) :
    DataSerialiser × StaffSetColourAction :=
  let base := GameAction.Serialise stream
    { networkId := a.networkId, flags := a.flags, playerId := a.playerId }
  let staffType := base.1.uint8 a.staffType
  let colour := staffType.1.uint8 a.colour
  (colour.1,
    { staffType := staffType.2, colour := colour.2, flags := base.2.flags,
      networkId := base.2.networkId, playerId := base.2.playerId })

/-- A serialiser that saves into an empty stream. -/
def savingStream : DataSerialiser := { isSaving := true, stream := [] }

/-- A serialiser that loads from the given bytes. -/
def loadingStream (bytes : List Nat) : DataSerialiser := { isSaving := false, stream := bytes }

/-- The bytes that saving a ride demolition produces. -/
def RideDemolishAction.encode (a : RideDemolishAction) : List Nat :=
  (RideDemolishAction.Serialise savingStream a).1.stream

/-- Loading of a ride demolition from bytes into the action `fresh`. -/
def RideDemolishAction.decode (bytes : List Nat) (fresh : RideDemolishAction) :
    DataSerialiser × RideDemolishAction :=
  RideDemolishAction.Serialise (loadingStream bytes) fresh

/-- The bytes that saving a banner removal produces. -/
def BannerRemoveAction.encode (a : BannerRemoveAction) : List Nat :=
  (BannerRemoveAction.Serialise savingStream a).1.stream

/-- Loading of a banner removal from bytes into the action `fresh`. -/
def BannerRemoveAction.decode (bytes : List Nat) (fresh : BannerRemoveAction) :
    DataSerialiser × BannerRemoveAction :=
  BannerRemoveAction.Serialise (loadingStream bytes) fresh

/-- The bytes that saving a staff colour action produces. -/
def StaffSetColourAction.encode (a : StaffSetColourAction) : List Nat :=
  (StaffSetColourAction.Serialise savingStream a).1.stream

/-- Loading of a staff colour action from bytes into the action `fresh`. -/
def StaffSetColourAction.decode (bytes : List Nat) (fresh : StaffSetColourAction) :
    DataSerialiser × StaffSetColourAction :=
  StaffSetColourAction.Serialise (loadingStream bytes) fresh

/-! ## Sample data -/

/-- The map without the elements of the tile at the world coordinates that satisfy `p`. -/
def removeElementsAt (w : World) (x y : Int) (p : TileElement → Bool) : World :=
  { w with tiles := w.tiles.map (fun t =>
      if (t.x : Int) == Int.tdiv x 32 && (t.y : Int) == Int.tdiv y 32 then
        { t with elements := t.elements.filter (fun el => !p el) }
      else t) }

/-- A collaborator record for examples. A nested track removal fails for track type 7 and
leaves the map as it is; for the other types it takes the pieces of that type and height from
the tile and refunds 100. A nested maze removal refunds 10, and the one for direction 3 takes
the maze element from the tile. The other functions change nothing. -/
def sampleEnv : Env where
  ride_get_refund_price := fun _ _ => -3001
  AvailableBreakdowns := fun _ => 1
  Renew := fun ride => { ride with reliability := 25600 }
  tile_element_height := fun _ _ => 16
  ExecuteNestedTrackRemove := fun act w =>
    if act.trackType = 7 then ({ Error := Status.Disallowed }, w)
    else ({ Cost := -100 },
      removeElementsAt w act.origin.x act.origin.y (fun el =>
        el.type == TILE_ELEMENT_TYPE_TRACK && el.trackType == act.trackType && el.baseZ == act.origin.z))
  ExecuteNestedMazeSetTrack := fun act w =>
    if act.loc.direction = 3 then
      ({ Cost := -10 },
        removeElementsAt w act.loc.x act.loc.y (fun el =>
          el.type == TILE_ELEMENT_TYPE_TRACK && el.trackType == TrackElemType_Maze
            && el.rideIndex == act.rideIndex))
    else ({ Cost := -10 }, w)
  ride_clear_for_construction := fun _ w => w
  ride_remove_peeps := fun _ w => w
  StopGuestsQueuing := fun _ w => w
  sub_6CB945 := fun _ w => w
  ride_clear_leftover_entrances := fun _ w => w
  DisableNewsItems := fun _ w => w
  CalculateParkValue := fun _ => 0
  LocationValid := fun _ => true
  map_can_build_at := fun _ _ => true
  get_banner_entry_price := fun _ => some 30

/-- A closed ride that has been opened before, with nobody on it. -/
def sampleRide : Ride :=
  { type := 1, status := RIDE_STATUS_CLOSED, lifecycle_flags := RIDE_LIFECYCLE_EVER_BEEN_OPENED }

/-- A world whose ride table holds `sampleRide` in slot 0. -/
def sampleWorld : World := { rides := [some sampleRide] }

/-- A world with one banner, on the tile (1, 1) at height 16 and edge 2, above a surface
element. -/
def bannerWorld : World :=
  { tiles := [{ x := 1, y := 1, elements :=
      [{ type := 0 },
       { type := TILE_ELEMENT_TYPE_BANNER, baseZ := 16, position := 2, bannerIndex := 0 }] }]
    banners := [{ type := 3 }] }

/-- The action that removes the banner of `bannerWorld`. -/
def bannerAction : BannerRemoveAction := { loc := { x := 32, y := 32, z := 16, direction := 2 } }

/-- Relation between a guest and the same guest after a block of the scrub that at most takes
items away: the ride references, the bytes of `RidesBeenOn` and the thoughts are the same, and
every item held after was held before. -/
structure KeepsRefs (g g' : Guest) : Prop where
  rides : g'.RidesBeenOn = g.RidesBeenOn
  voucherType : g'.VoucherType = g.VoucherType
  voucherRide : g'.VoucherRideId = g.VoucherRideId
  photo1 : g'.Photo1RideRef = g.Photo1RideRef
  photo2 : g'.Photo2RideRef = g.Photo2RideRef
  photo3 : g'.Photo3RideRef = g.Photo3RideRef
  photo4 : g'.Photo4RideRef = g.Photo4RideRef
  items : ∀ item, g'.HasItem item = true → g.HasItem item = true
  thoughts : g'.Thoughts = g.Thoughts

/-- The state of a guest `after` the demolition of ride `r`, against the guest `before` the loop
over the guests: bit `r mod 8` of byte `r div 8` of `RidesBeenOn` is clear and every other bit
of the array is as before; the favourite ride and the ride headed to are not `r`; the guest
holds no free-ride voucher for `r` and no photo of `r`. -/
def RideRefsScrubbed (r : Nat) (before after : Guest) : Prop :=
  after.RidesBeenOn.length = before.RidesBeenOn.length
  ∧ (∀ j b, b < 8 →
      ((after.RidesBeenOn.getD j 0).testBit b
        = if j = r / 8 ∧ b = r % 8 then false else (before.RidesBeenOn.getD j 0).testBit b))
  ∧ after.FavouriteRide ≠ r
  ∧ after.GuestHeadingToRideId ≠ r
  ∧ ¬ (after.HasItem ShopItem.Voucher = true ∧ after.VoucherType = VOUCHER_TYPE_RIDE_FREE
        ∧ after.VoucherRideId = r)
  ∧ ¬ (after.HasItem ShopItem.Photo = true ∧ after.Photo1RideRef = r)
  ∧ ¬ (after.HasItem ShopItem.Photo2 = true ∧ after.Photo2RideRef = r)
  ∧ ¬ (after.HasItem ShopItem.Photo3 = true ∧ after.Photo3RideRef = r)
  ∧ ¬ (after.HasItem ShopItem.Photo4 = true ∧ after.Photo4RideRef = r)

/-- A guest who has been on ride 0 and ride 9, holds a free voucher for ride 0 and photos of
ride 0 and ride 9, heads to ride 0 and has thoughts about ride 0 and about ride 9. -/
def sampleGuest : Guest :=
  { RidesBeenOn := [3, 2, 0, 0, 0, 0, 0, 0, 0, 0, 0, 0, 0, 0, 0, 0, 0, 0, 0, 0, 0, 0, 0, 0, 0, 0, 0, 0, 0, 0, 0, 0]
    State := PeepState_Watching
    CurrentRide := 0
    TimeToStand := 80
    Items := [ShopItem.Balloon, ShopItem.Voucher, ShopItem.Photo, ShopItem.Photo2]
    VoucherType := VOUCHER_TYPE_RIDE_FREE
    VoucherRideId := 0
    Photo1RideRef := 0
    Photo2RideRef := 9
    GuestHeadingToRideId := 0
    FavouriteRide := 9
    Thoughts :=
      [{ type := 4, item := 0, freshness := 1 }, { type := 5, item := 9, freshness := 2 },
       { type := 6, item := 0, freshness := 3 }, { type := 255, item := 255 },
       { type := 255, item := 255 }] }

/-- The ride of `sampleRide` with an overall view on the tile (1, 0). -/
def viewedRide : Ride := { sampleRide with overall_view := { x := 40, y := 8 } }

/-- A world for the demolition of ride 0: a flat piece of track that the nested action removes,
a piece of type 7 that the nested action refuses, and a maze tile; a linked banner, a guest
and a campaign. -/
def demolishWorld : World :=
  { rides := [some viewedRide]
    tiles :=
      [{ x := 0, y := 0, elements := [{ type := 0 }] },
       { x := 1, y := 0, elements :=
          [{ type := 0 },
           { type := TILE_ELEMENT_TYPE_TRACK, baseZ := 16, rideIndex := 0, trackType := 1 },
           { type := TILE_ELEMENT_TYPE_TRACK, baseZ := 32, rideIndex := 0, trackType := 7, direction := 1 }] },
       { x := 2, y := 0, elements :=
          [{ type := 0 },
           { type := TILE_ELEMENT_TYPE_TRACK, baseZ := 16, rideIndex := 0, trackType := TrackElemType_Maze },
           { type := TILE_ELEMENT_TYPE_TRACK, baseZ := 16, rideIndex := 5, trackType := 1 }] }]
    banners := [{ type := 1, flags := 4, ride_index := 0, text := [82] }]
    guests := [sampleGuest]
    campaigns := [{ CampaignType := 1, RideId := 0 }, { CampaignType := 1, RideId := 5 }]
    gGamePaused := 1 }

/-- The action that demolishes ride 0. -/
def demolishAction : RideDemolishAction :=
  { rideIndex := 0, modifyType := RIDE_MODIFY_DEMOLISH, flags := GAME_COMMAND_FLAG_GHOST }

/-- A thought queue is compacted when no entry of type `None` comes before an entry of another
type. -/
def Compacted (ts : List PeepThought) : Prop :=
  ∀ i j t u, i < j → ts.get? i = some t → ts.get? j = some u →
    t.type = PeepThoughtType_None → u.type = PeepThoughtType_None

/-- A guest whose queue holds one thought, about ride 9, and after it an entry of type `None`
that still carries the item 0 of a thought that has expired. -/
def staleGuest : Guest :=
  { Thoughts :=
      [{ type := 4, item := 9, freshness := 2 }, { type := 255, item := 0 },
       { type := 255, item := 255 }, { type := 255, item := 255 }, { type := 255, item := 255 }] }

/-- The world `demolishWorld` with `staleGuest` as its only guest. -/
def staleWorld : World := { demolishWorld with guests := [staleGuest] }

/-- The nested action that the maze loop issues for direction `dir` at `location`. -/
def mazeActionAt (a : RideDemolishAction) (location : CoordsXYZD) (dir : Nat) : NestedAction :=
  NestedAction.maze
    { loc :=
        { x := location.x + (DirOffsets.getD dir { x := 0, y := 0 }).x
          y := location.y + (DirOffsets.getD dir { x := 0, y := 0 }).y
          z := location.z + 0
          direction := dir }
      initialPlacement := false
      rideIndex := a.rideIndex
      mode := GC_SET_MAZE_TRACK_FILL
      flags := a.flags }

/-- The sum of the costs of the calls of a trace that were added to the refund. -/
def sumAdded (calls : List NestedCall) : Int :=
  ((calls.filter (fun c => c.added)).map (fun c => c.result.Cost)).sum

/-- The local `refundPrice` after the statements `refundPrice += ...` of the calls of a trace
that were added, each addition in 32-bit arithmetic. -/
def addRefunds (init : Int) (calls : List NestedCall) : Int :=
  calls.foldl (fun acc c => if c.added then wrap32 (acc + c.result.Cost) else acc) init

/-- A call of the trace agrees with the code that issued it: a `TrackRemoveAction` carries the
flag `GAME_COMMAND_FLAG_NO_SPEND` alone and its cost is added exactly when its status is `Ok`;
a `MazeSetTrackAction` carries the flags of the parent, and its cost is added exactly when its
status is `Ok` and its cost is not `MONEY32_UNDEFINED`. -/
def CallOk (a : RideDemolishAction) (c : NestedCall) : Prop :=
  match c.action with
  | NestedAction.track t =>
    t.flags = GAME_COMMAND_FLAG_NO_SPEND ∧ (c.added = true ↔ c.result.Error = Status.Ok)
  | NestedAction.maze m =>
    m.flags = a.flags
    ∧ (c.added = true ↔ (c.result.Error = Status.Ok ∧ c.result.Cost ≠ MONEY32_UNDEFINED))

/-- The state of `DemolishTracks` agrees with its trace: the local `refundPrice` is the 32-bit
sum of the costs that were added, and every call of the trace satisfies `CallOk`. -/
def TraceOk (a : RideDemolishAction) (s : TrackState) : Prop :=
  s.refundPrice = wrap32 (sumAdded s.trace) ∧ ∀ c ∈ s.trace, CallOk a c

/-- The collaborators of `sampleEnv`, except that the nested maze removal for direction `k` is
refused with `NotOwned` and no nested maze removal changes the map. -/
def mazeFailsAtEnv (k : Nat) : Env :=
  { sampleEnv with
    ExecuteNestedMazeSetTrack := fun act w =>
      if act.loc.direction = k then ({ Error := Status.NotOwned }, w) else ({ Cost := -10 }, w) }

/-- A world whose ride 0 has one maze tile, on the tile (1, 0) above the surface element. -/
def mazeWorld : World :=
  { rides := [some sampleRide]
    tiles :=
      [{ x := 0, y := 0, elements := [{ type := 0 }] },
       { x := 1, y := 0, elements :=
          [{ type := 0 },
           { type := TILE_ELEMENT_TYPE_TRACK, baseZ := 16, rideIndex := 0,
             trackType := TrackElemType_Maze }] }] }

/-- The maze element of `mazeWorld`. -/
def mazeElement : TileElement :=
  { type := TILE_ELEMENT_TYPE_TRACK, baseZ := 16, rideIndex := 0, trackType := TrackElemType_Maze }

/-- The tile of `mazeWorld` that holds the maze element. -/
def mazeTile : Tile := { x := 1, y := 0, elements := [{ type := 0 }, mazeElement] }

/-- The state of `DemolishTracks` at its start in `mazeWorld`. -/
def mazeStart : TrackState := { world := mazeWorld, refundPrice := 0, trace := [] }

/-- The execution of a nested action through the collaborators: the result of the nested
action and the world that it leaves. -/
def Env.ExecuteNested (env : Env) : NestedAction → World → Result × World
  | NestedAction.track t, w => env.ExecuteNestedTrackRemove t w
  | NestedAction.maze m, w => env.ExecuteNestedMazeSetTrack m w

/-- The result that a call of the trace records is the result that the execution of its nested
action returned in some world. -/
def FromEnv (env : Env) (c : NestedCall) : Prop :=
  ∃ w : World, c.result = (env.ExecuteNested c.action w).1

/-- The relation of a nested call to the nested call issued next that the early exit of the
maze loop gives: when a maze removal fails (its status is not `Ok` or its cost is
`MONEY32_UNDEFINED`), a maze removal that follows it is the removal for direction 0, the first
of a visit. -/
def EndsVisit (c next : NestedCall) : Prop :=
  ∀ m m1, c.action = NestedAction.maze m → next.action = NestedAction.maze m1 →
    ¬ (c.result.Error = Status.Ok ∧ c.result.Cost ≠ MONEY32_UNDEFINED) → m1.loc.direction = 0

/-- The local `refundPrice` after the statement `refundPrice += removePrice` for each call of
the list, each addition in 32-bit arithmetic. -/
def addAll (init : Int) (calls : List NestedCall) : Int :=
  calls.foldl (fun acc c => wrap32 (acc + c.result.Cost)) init

/-- The state after the visit of the maze element of `mazeWorld` when the nested maze removal
for direction 2 is refused. -/
def failedVisit : TrackState :=
  RideDemolishAction.mazeLoop (mazeFailsAtEnv 2) demolishAction
    { x := 32, y := 0, z := 16, direction := 0 } ALL_DIRECTIONS mazeStart

/-- The three conditions of `GetBannerElementAt` on an element of the view of banner elements:
its base height is the `z` of the action, its position is the direction of the action, and it
is not a ghost unless the action carries `GAME_COMMAND_FLAG_GHOST`. -/
def BannerRemoveAction.isTarget (a : BannerRemoveAction) (el : TileElement) : Prop :=
  el.type = TILE_ELEMENT_TYPE_BANNER
  ∧ el.baseZ = a.loc.z
  ∧ el.position = a.loc.direction
  ∧ (el.ghost = true → (a.flags &&& GAME_COMMAND_FLAG_GHOST) ≠ 0)

/-- The elements of the tile that holds the world coordinates, from first to last; no elements
for coordinates off the map. -/
def tileElementsAt (w : World) (x y : Int) : List TileElement :=
  match tileIndexAt w x y with
  | none => []
  | some t =>
    match w.tiles.get? t with
    | none => []
    | some tile => tile.elements

/-- A ride that the local authority protects: closed, opened before, indestructible. -/
def protectedRide : Ride :=
  { type := 1, status := RIDE_STATUS_CLOSED,
    lifecycle_flags := RIDE_LIFECYCLE_EVER_BEEN_OPENED ||| RIDE_LIFECYCLE_INDESTRUCTIBLE }

/-- A world whose ride table holds `protectedRide` in slot 0. -/
def protectedWorld : World := { rides := [some protectedRide] }

/-- A world with a ghost banner and, after it, a real banner at the same height and edge of
the tile (1, 1). -/
def ghostBannerWorld : World :=
  { tiles := [{ x := 1, y := 1, elements :=
      [{ type := 0 },
       { type := TILE_ELEMENT_TYPE_BANNER, baseZ := 16, position := 2, bannerIndex := 1, ghost := true },
       { type := TILE_ELEMENT_TYPE_BANNER, baseZ := 16, position := 2, bannerIndex := 0 }] }]
    banners := [{ type := 3 }, { type := 3 }] }

/-- A world with two handymen, a mechanic and an entertainer. -/
def staffWorld : World :=
  { staff :=
      [{ sprite_index := 10, AssignedStaffType := StaffType_Handyman, TshirtColour := 1, TrousersColour := 2 },
       { sprite_index := 11, AssignedStaffType := StaffType_Mechanic, TshirtColour := 3, TrousersColour := 3 },
       { sprite_index := 12, AssignedStaffType := StaffType_Handyman, TshirtColour := 4, TrousersColour := 4 },
       { sprite_index := 13, AssignedStaffType := StaffType_Entertainer, TshirtColour := 5, TrousersColour := 6 }]
    staffColours := { gStaffHandymanColour := 1, gStaffMechanicColour := 3, gStaffSecurityColour := 7 } }

/-- An entry of the thought queue after the two writes `type = PeepThoughtType::None` and
`item = PEEP_THOUGHT_ITEM_NONE`. -/
def PeepThought.cleared (t : PeepThought) : PeepThought :=
  { t with type := PeepThoughtType_None, item := PEEP_THOUGHT_ITEM_NONE }

/-- The entries of a thought queue before its first entry of type `None`. -/
def thoughtsBeforeNone (ts : List PeepThought) : List PeepThought :=
  ts.takeWhile (fun t => t.type != PeepThoughtType_None)

/-- The entries of a thought queue from its first entry of type `None` on. -/
def thoughtsFromNone (ts : List PeepThought) : List PeepThought :=
  ts.dropWhile (fun t => t.type != PeepThoughtType_None)

/-- The entries before the first entry of type `None` whose item is not the ride, in their
order. -/
def thoughtsKept (rideIndex : Nat) (ts : List PeepThought) : List PeepThought :=
  (thoughtsBeforeNone ts).filter (fun t => t.item != rideIndex)

/-- The number of the entries before the first entry of type `None` whose item is the ride. -/
def thoughtsRemoved (rideIndex : Nat) (ts : List PeepThought) : Nat :=
  (thoughtsBeforeNone ts).countP (fun t => t.item == rideIndex)

/-- A guest with a full queue: thoughts about ride 0 at its start, in its middle and at its
end. -/
def fullQueueGuest : Guest :=
  { Thoughts :=
      [{ type := 4, item := 0, freshness := 1 }, { type := 5, item := 9, freshness := 2 },
       { type := 6, item := 0, freshness := 3 }, { type := 7, item := 8, freshness := 4 },
       { type := 8, item := 0, freshness := 5 }] }

/-! ## The refurbishment: preconditions and price -/

theorem wrap32_of_range (x : Int) (hlo : INT32_MIN ≤ x) (hhi : x ≤ INT32_MAX) : wrap32 x = x := by
  unfold wrap32
  unfold INT32_MIN at hlo
  unfold INT32_MAX at hhi
  omega

theorem query_of_ride (env : Env) (a : RideDemolishAction) (w : World) (ride : Ride)
    (hride : get_ride w a.rideIndex = some ride) (hmode : a.modifyType = RIDE_MODIFY_RENEW) :
    RideDemolishAction.Query env a w =
      if ride.status ≠ RIDE_STATUS_CLOSED ∧ ride.status ≠ RIDE_STATUS_SIMULATING then
        MakeResult3 Status.Disallowed StringId.STR_CANT_REFURBISH_RIDE StringId.STR_MUST_BE_CLOSED_FIRST
      else if ride.num_riders > 0 then
        MakeResult3 Status.Disallowed StringId.STR_CANT_REFURBISH_RIDE StringId.STR_RIDE_NOT_YET_EMPTY
      else if (ride.lifecycle_flags &&& RIDE_LIFECYCLE_EVER_BEEN_OPENED) = 0
          ∨ env.AvailableBreakdowns ride.type = 0 then
        MakeResult3 Status.Disallowed StringId.STR_CANT_REFURBISH_RIDE
          StringId.STR_CANT_REFURBISH_NOT_NEEDED
      else
        { ErrorTitle := StringId.STR_CANT_REFURBISH_RIDE
          Cost := RideDemolishAction.GetRefurbishPrice env w ride } := by
  have hne : ¬ RIDE_MODIFY_RENEW = RIDE_MODIFY_DEMOLISH := by decide
  simp only [RideDemolishAction.Query, hride, hmode, hne, and_false, if_false, if_true]

/-- C9: for an existing ride, a refurbish-mode `Query` returns `Ok` only if the ride is closed
or simulating, has no riders and has been opened before; and whenever the ride has riders the
status is `Disallowed`, whatever its status and lifecycle flags. -/
theorem query_renew_preconditions (env : Env) (a : RideDemolishAction) (w : World) (ride : Ride)
    (hride : get_ride w a.rideIndex = some ride) (hmode : a.modifyType = RIDE_MODIFY_RENEW) :
    ((RideDemolishAction.Query env a w).Error = Status.Ok →
        (ride.status = RIDE_STATUS_CLOSED ∨ ride.status = RIDE_STATUS_SIMULATING)
        ∧ ride.num_riders = 0
        ∧ (ride.lifecycle_flags &&& RIDE_LIFECYCLE_EVER_BEEN_OPENED) ≠ 0)
    ∧ (ride.num_riders > 0 → (RideDemolishAction.Query env a w).Error = Status.Disallowed) := by
  rw [query_of_ride env a w ride hride hmode]
  constructor
  · intro hok
    split at hok
    · simp [MakeResult3] at hok
    · split at hok
      · simp [MakeResult3] at hok
      · split at hok
        · simp [MakeResult3] at hok
        · rename_i h1 h2 h3
          refine ⟨?_, ?_, ?_⟩
          · by_contra hc
            exact h1 ⟨fun h => hc (Or.inl h), fun h => hc (Or.inr h)⟩
          · omega
          · intro hz
            exact h3 (Or.inl hz)
  · intro hpos
    split
    · rfl
    · rfl

theorem query_renew_preconditions_witness :
    get_ride sampleWorld 0 = some sampleRide
    ∧ (1 : Nat) = RIDE_MODIFY_RENEW
    ∧ ((RideDemolishAction.Query sampleEnv { rideIndex := 0, modifyType := 1 } sampleWorld).Error
          = Status.Ok →
        (sampleRide.status = RIDE_STATUS_CLOSED ∨ sampleRide.status = RIDE_STATUS_SIMULATING)
        ∧ sampleRide.num_riders = 0
        ∧ (sampleRide.lifecycle_flags &&& RIDE_LIFECYCLE_EVER_BEEN_OPENED) ≠ 0)
    ∧ (sampleRide.num_riders > 0 →
        (RideDemolishAction.Query sampleEnv { rideIndex := 0, modifyType := 1 } sampleWorld).Error
          = Status.Disallowed) :=
  ⟨by decide, by decide,
    query_renew_preconditions sampleEnv { rideIndex := 0, modifyType := 1 } sampleWorld sampleRide
      (by decide) (by decide)⟩

theorem half_of_nonneg (n : Int) (h : 0 ≤ n) :
    0 ≤ Int.tdiv n 2 ∧ (2 * Int.tdiv n 2 = n ∨ 2 * Int.tdiv n 2 = n - 1) := by
  rw [Int.tdiv_eq_ediv h (by decide)]
  omega

theorem refurbishRide_cost (env : Env) (a : RideDemolishAction) (ride : Ride) (w : World) :
    (RideDemolishAction.RefurbishRide env a ride w).1.Cost
      = RideDemolishAction.GetRefurbishPrice env w ride := by
  unfold RideDemolishAction.RefurbishRide
  simp only
  split <;> rfl

/-- C10: for a ride whose refund price `r` is a `money32` above `INT32_MIN`, `GetRefurbishPrice`
returns `(-r) / 2` with the division truncating toward zero; for `r ≤ 0` this fee `f` is
non-negative and `2 * f` is `-r` or `-r - 1`; and `f` is the cost of a successful refurbish
`Query` and the cost that `RefurbishRide` reports. -/
theorem refurbish_price_is_half_refund (env : Env) (w : World) (ride : Ride)
    (hlo : INT32_MIN < RideDemolishAction.GetRefundPrice env w ride)
    (hhi : RideDemolishAction.GetRefundPrice env w ride ≤ INT32_MAX) :
    RideDemolishAction.GetRefurbishPrice env w ride
        = Int.tdiv (-(RideDemolishAction.GetRefundPrice env w ride)) 2
    ∧ (RideDemolishAction.GetRefundPrice env w ride ≤ 0 →
        0 ≤ RideDemolishAction.GetRefurbishPrice env w ride
        ∧ (2 * RideDemolishAction.GetRefurbishPrice env w ride
              = -(RideDemolishAction.GetRefundPrice env w ride)
          ∨ 2 * RideDemolishAction.GetRefurbishPrice env w ride
              = -(RideDemolishAction.GetRefundPrice env w ride) - 1))
    ∧ (∀ a : RideDemolishAction, get_ride w a.rideIndex = some ride →
        a.modifyType = RIDE_MODIFY_RENEW →
        (RideDemolishAction.Query env a w).Error = Status.Ok →
        (RideDemolishAction.Query env a w).Cost = RideDemolishAction.GetRefurbishPrice env w ride)
    ∧ (∀ a : RideDemolishAction,
        (RideDemolishAction.RefurbishRide env a ride w).1.Cost
          = RideDemolishAction.GetRefurbishPrice env w ride) := by
  have hw : wrap32 (-(RideDemolishAction.GetRefundPrice env w ride))
      = -(RideDemolishAction.GetRefundPrice env w ride) := by
    apply wrap32_of_range
    · unfold INT32_MIN; unfold INT32_MAX at hhi; omega
    · unfold INT32_MAX; unfold INT32_MIN at hlo; omega
  have hval : RideDemolishAction.GetRefurbishPrice env w ride
      = Int.tdiv (-(RideDemolishAction.GetRefundPrice env w ride)) 2 := by
    unfold RideDemolishAction.GetRefurbishPrice
    rw [hw]
  refine ⟨hval, ?_, ?_, ?_⟩
  · intro hneg
    rw [hval]
    exact half_of_nonneg _ (by omega)
  · intro a hride hmode hok
    rw [query_of_ride env a w ride hride hmode] at hok ⊢
    split at hok
    · simp [MakeResult3] at hok
    · split at hok
      · simp [MakeResult3] at hok
      · split at hok
        · simp [MakeResult3] at hok
        · rename_i h1 h2 h3
          rw [if_neg h1, if_neg h2, if_neg h3]
  · intro a
    exact refurbishRide_cost env a ride w

theorem refurbish_price_is_half_refund_witness :
    INT32_MIN < RideDemolishAction.GetRefundPrice sampleEnv sampleWorld sampleRide
    ∧ RideDemolishAction.GetRefundPrice sampleEnv sampleWorld sampleRide ≤ INT32_MAX
    ∧ RideDemolishAction.GetRefurbishPrice sampleEnv sampleWorld sampleRide = 1500
    ∧ RideDemolishAction.GetRefurbishPrice sampleEnv sampleWorld sampleRide
        = Int.tdiv (-(RideDemolishAction.GetRefundPrice sampleEnv sampleWorld sampleRide)) 2 :=
  ⟨by decide, by decide, by decide,
    (refurbish_price_is_half_refund sampleEnv sampleWorld sampleRide (by decide) (by decide)).1⟩

/-! ## Banner removal: Execute after Query -/

/-- C2: whenever `BannerRemoveAction::Query` returns `Ok`, `BannerRemoveAction::Execute` on the
same world returns `Ok` with the same cost, expenditure category and position. -/
theorem banner_execute_agrees_with_query (env : Env) (a : BannerRemoveAction) (w : World)
    (hq : (BannerRemoveAction.Query env a w).Error = Status.Ok) :
    (BannerRemoveAction.Execute env a w).1.Error = Status.Ok
    ∧ (BannerRemoveAction.Execute env a w).1.Cost = (BannerRemoveAction.Query env a w).Cost
    ∧ (BannerRemoveAction.Execute env a w).1.Expenditure
        = (BannerRemoveAction.Query env a w).Expenditure
    ∧ (BannerRemoveAction.Execute env a w).1.Position
        = (BannerRemoveAction.Query env a w).Position := by
  unfold BannerRemoveAction.Query at hq ⊢
  unfold BannerRemoveAction.Execute
  simp only at hq ⊢
  split at hq
  · simp [MakeResult3] at hq
  · rename_i hown
    rw [if_neg hown]
    cases hfound : BannerRemoveAction.GetBannerElementAt a w with
    | none => simp [hfound, MakeResult2] at hq
    | some found =>
      simp only [hfound] at hq ⊢
      split at hq
      · simp [MakeResult2] at hq
      · rename_i hidx
        simp only [if_neg hidx]
        cases hbanner : GetBanner w found.2.2.bannerIndex with
        | none => simp [hbanner, MakeResult2] at hq
        | some banner =>
          simp only [hbanner]
          cases hprice : env.get_banner_entry_price banner.type with
          | none => simp [MakeResult]
          | some price => simp [MakeResult]

theorem banner_execute_agrees_with_query_witness :
    (BannerRemoveAction.Query sampleEnv bannerAction bannerWorld).Error = Status.Ok
    ∧ (BannerRemoveAction.Query sampleEnv bannerAction bannerWorld).Cost = -22
    ∧ (BannerRemoveAction.Execute sampleEnv bannerAction bannerWorld).1.Error = Status.Ok
    ∧ (BannerRemoveAction.Execute sampleEnv bannerAction bannerWorld).1.Cost
        = (BannerRemoveAction.Query sampleEnv bannerAction bannerWorld).Cost
    ∧ (BannerRemoveAction.Execute sampleEnv bannerAction bannerWorld).1.Expenditure
        = (BannerRemoveAction.Query sampleEnv bannerAction bannerWorld).Expenditure
    ∧ (BannerRemoveAction.Execute sampleEnv bannerAction bannerWorld).1.Position
        = (BannerRemoveAction.Query sampleEnv bannerAction bannerWorld).Position :=
  ⟨by decide, by decide,
    banner_execute_agrees_with_query sampleEnv bannerAction bannerWorld (by decide)⟩

/-! ## The scrub of the guests -/

theorem KeepsRefs.refl (g : Guest) : KeepsRefs g g :=
  ⟨rfl, rfl, rfl, rfl, rfl, rfl, rfl, fun _ h => h, rfl⟩

theorem KeepsRefs.trans {a b c : Guest} (h1 : KeepsRefs a b) (h2 : KeepsRefs b c) : KeepsRefs a c :=
  ⟨h2.rides.trans h1.rides, h2.voucherType.trans h1.voucherType, h2.voucherRide.trans h1.voucherRide,
    h2.photo1.trans h1.photo1, h2.photo2.trans h1.photo2, h2.photo3.trans h1.photo3,
    h2.photo4.trans h1.photo4, fun i h => h1.items i (h2.items i h), h2.thoughts.trans h1.thoughts⟩

theorem hasItem_removeItem (g : Guest) (i j : ShopItem) :
    (g.RemoveItem i).HasItem j = true → g.HasItem j = true := by
  unfold Guest.RemoveItem Guest.HasItem
  simp only [List.contains_eq_any_beq, List.any_eq_true, List.mem_filter]
  rintro ⟨x, ⟨hx, _⟩, hxe⟩
  exact ⟨x, hx, hxe⟩

theorem not_hasItem_removeItem (g : Guest) (i : ShopItem) : (g.RemoveItem i).HasItem i = false := by
  unfold Guest.RemoveItem Guest.HasItem
  simp

theorem keepsRefs_removeItem (g : Guest) (i : ShopItem) : KeepsRefs g (g.RemoveItem i) :=
  ⟨rfl, rfl, rfl, rfl, rfl, rfl, rfl, hasItem_removeItem g i, rfl⟩

theorem keepsRefs_watching (r : Nat) (g : Guest) : KeepsRefs g (scrubWatching r g) := by
  unfold scrubWatching
  simp only
  split_ifs <;> exact ⟨rfl, rfl, rfl, rfl, rfl, rfl, rfl, fun _ h => h, rfl⟩

theorem keepsRefs_voucher (r : Nat) (g : Guest) : KeepsRefs g (scrubVoucher r g) := by
  unfold scrubVoucher
  split_ifs
  · exact keepsRefs_removeItem g _
  · exact KeepsRefs.refl g
  · exact KeepsRefs.refl g

theorem keepsRefs_photo1 (r : Nat) (g : Guest) : KeepsRefs g (scrubPhoto1 r g) := by
  unfold scrubPhoto1
  split_ifs
  · exact keepsRefs_removeItem g _
  · exact KeepsRefs.refl g
  · exact KeepsRefs.refl g

theorem keepsRefs_photo2 (r : Nat) (g : Guest) : KeepsRefs g (scrubPhoto2 r g) := by
  unfold scrubPhoto2
  split_ifs
  · exact keepsRefs_removeItem g _
  · exact KeepsRefs.refl g
  · exact KeepsRefs.refl g

theorem keepsRefs_photo3 (r : Nat) (g : Guest) : KeepsRefs g (scrubPhoto3 r g) := by
  unfold scrubPhoto3
  split_ifs
  · exact keepsRefs_removeItem g _
  · exact KeepsRefs.refl g
  · exact KeepsRefs.refl g

theorem keepsRefs_photo4 (r : Nat) (g : Guest) : KeepsRefs g (scrubPhoto4 r g) := by
  unfold scrubPhoto4
  split_ifs
  · exact keepsRefs_removeItem g _
  · exact KeepsRefs.refl g
  · exact KeepsRefs.refl g

theorem keepsRefs_heading (r : Nat) (g : Guest) : KeepsRefs g (scrubHeading r g) := by
  unfold scrubHeading
  split_ifs <;> exact ⟨rfl, rfl, rfl, rfl, rfl, rfl, rfl, fun _ h => h, rfl⟩

theorem keepsRefs_favourite (r : Nat) (g : Guest) : KeepsRefs g (scrubFavourite r g) := by
  unfold scrubFavourite
  split_ifs <;> exact ⟨rfl, rfl, rfl, rfl, rfl, rfl, rfl, fun _ h => h, rfl⟩

theorem voucher_scrubbed (r : Nat) (g : Guest) :
    ¬ ((scrubVoucher r g).HasItem ShopItem.Voucher = true
        ∧ (scrubVoucher r g).VoucherType = VOUCHER_TYPE_RIDE_FREE
        ∧ (scrubVoucher r g).VoucherRideId = r) := by
  unfold scrubVoucher
  split_ifs with h1 h2
  · rw [not_hasItem_removeItem]; simp
  · rintro ⟨_, h3, h4⟩; exact h2 ⟨h3, h4⟩
  · rintro ⟨h3, _⟩; exact h1 h3

theorem photo1_scrubbed (r : Nat) (g : Guest) :
    ¬ ((scrubPhoto1 r g).HasItem ShopItem.Photo = true ∧ (scrubPhoto1 r g).Photo1RideRef = r) := by
  unfold scrubPhoto1
  split_ifs with h1 h2
  · rw [not_hasItem_removeItem]; simp
  · rintro ⟨_, h3⟩; exact h2 h3
  · rintro ⟨h3, _⟩; exact h1 h3

theorem heading_scrubbed (r : Nat) (g : Guest) (hr : r ≠ RIDE_ID_NULL) :
    (scrubHeading r g).GuestHeadingToRideId ≠ r := by
  unfold scrubHeading
  split_ifs with h
  · exact fun e => hr e.symm
  · exact h

theorem favourite_heading (r : Nat) (g : Guest) :
    (scrubFavourite r g).GuestHeadingToRideId = g.GuestHeadingToRideId := by
  unfold scrubFavourite
  split_ifs <;> rfl

theorem favourite_scrubbed (r : Nat) (g : Guest) (hr : r ≠ RIDE_ID_NULL) :
    (scrubFavourite r g).FavouriteRide ≠ r := by
  unfold scrubFavourite
  split_ifs with h
  · exact fun e => hr e.symm
  · exact h

theorem clearBit_testBit (x bit b : Nat) (hb : b < 8) :
    (x &&& (UINT8_MASK ^^^ (1 <<< bit))).testBit b = (if b = bit then false else x.testBit b) := by
  have h255 : (255 : Nat).testBit b = true := by
    interval_cases b <;> decide
  rw [Nat.testBit_and, Nat.testBit_xor, Nat.one_shiftLeft, Nat.testBit_two_pow]
  unfold UINT8_MASK
  rw [h255]
  by_cases h : b = bit
  · subst h; simp
  · have h2 : ¬ bit = b := fun e => h e.symm
    simp [h, h2]

theorem getD_modify (f : Nat → Nat) (hf : f 0 = 0) (l : List Nat) (n j : Nat) :
    (l.modify f n).getD j 0 = if n = j then f (l.getD j 0) else l.getD j 0 := by
  rw [List.getD_eq_getElem?_getD, List.getD_eq_getElem?_getD, List.getElem?_modify]
  cases h : l[j]? with
  | none => by_cases hn : n = j <;> simp [hn, hf]
  | some v => by_cases hn : n = j <;> simp [hn]

theorem ridesBeenOn_scrubbed (r : Nat) (hr : r < MAX_RIDES) (g : Guest) (j b : Nat) (hb : b < 8) :
    ((scrubRidesBeenOn r g).RidesBeenOn.getD j 0).testBit b
      = if j = r / 8 ∧ b = r % 8 then false else (g.RidesBeenOn.getD j 0).testBit b := by
  unfold MAX_RIDES at hr
  have h1 : (r % 8) % 256 = r % 8 := by omega
  have h2 : (r / 8) % 256 = r / 8 := by omega
  unfold scrubRidesBeenOn
  simp only [h1, h2]
  rw [getD_modify _ (by simp)]
  by_cases hj : r / 8 = j
  · rw [if_pos hj, clearBit_testBit _ _ _ hb]
    have hj' : j = r / 8 := hj.symm
    by_cases hbb : b = r % 8
    · simp [hj', hbb]
    · simp [hj', hbb]
  · rw [if_neg hj]
    have hj' : ¬ j = r / 8 := fun e => hj e.symm
    simp [hj']

theorem ridesBeenOn_length (r : Nat) (g : Guest) :
    (scrubRidesBeenOn r g).RidesBeenOn.length = g.RidesBeenOn.length := by
  unfold scrubRidesBeenOn
  simp

theorem scrubGuest_some (r fuel : Nat) (g g' : Guest) (h : scrubGuest r fuel g = some g') :
    ∃ ts, thoughtLoop r fuel (scrubGuestFields r g).Thoughts 0 = some ts
      ∧ g' = { scrubGuestFields r g with Thoughts := ts } := by
  unfold scrubGuest at h
  simp only at h
  cases hl : thoughtLoop r fuel (scrubGuestFields r g).Thoughts 0 with
  | none => rw [hl] at h; cases h
  | some ts =>
    rw [hl] at h
    simp only [Option.some.injEq] at h
    exact ⟨ts, rfl, h.symm⟩

theorem scrubGuests_forall₂ (r fuel : Nat) :
    ∀ (gs gs' : List Guest), scrubGuests r fuel gs = some gs' →
      List.Forall₂ (fun g g' => scrubGuest r fuel g = some g') gs gs' := by
  intro gs
  induction gs with
  | nil =>
    intro gs' h
    simp only [scrubGuests, Option.some.injEq] at h
    subst h
    exact List.Forall₂.nil
  | cons g rest ih =>
    intro gs' h
    unfold scrubGuests at h
    cases hg : scrubGuest r fuel g with
    | none => rw [hg] at h; cases h
    | some g' =>
      rw [hg] at h
      simp only at h
      cases hrest : scrubGuests r fuel rest with
      | none => rw [hrest] at h; cases h
      | some rest' =>
        rw [hrest] at h
        simp only [Option.some.injEq] at h
        subst h
        exact List.Forall₂.cons hg (ih rest' hrest)

theorem demolishRide_some (env : Env) (a : RideDemolishAction) (fuel : Nat) (w : World)
    (out : Result × World × List NestedCall)
    (h : RideDemolishAction.DemolishRide env a fuel w = some out) :
    ∃ s guests, RideDemolishAction.DemolishRidePrepare env a fuel w = some s
      ∧ scrubGuests a.rideIndex fuel s.world.guests = some guests
      ∧ out.2.1.guests = guests
      ∧ out.1.Error = Status.Ok
      ∧ out.1.Cost = s.refundPrice
      ∧ out.2.2 = s.trace := by
  unfold RideDemolishAction.DemolishRide at h
  cases hp : RideDemolishAction.DemolishRidePrepare env a fuel w with
  | none => rw [hp] at h; cases h
  | some s =>
    rw [hp] at h
    simp only at h
    cases hg : scrubGuests a.rideIndex fuel s.world.guests with
    | none => rw [hg] at h; cases h
    | some guests =>
      rw [hg] at h
      simp only [Option.some.injEq] at h
      subst h
      refine ⟨s, guests, rfl, hg, rfl, ?_, ?_, rfl⟩
      · simp only [MarketingCancelCampaignsForRide]
        split
        · rfl
        · split <;> rfl
      · simp only [MarketingCancelCampaignsForRide]
        split
        · rfl
        · split <;> rfl

theorem photo2_scrubbed (r : Nat) (g : Guest) :
    ¬ ((scrubPhoto2 r g).HasItem ShopItem.Photo2 = true ∧ (scrubPhoto2 r g).Photo2RideRef = r) := by
  unfold scrubPhoto2
  split_ifs with h1 h2
  · rw [not_hasItem_removeItem]; simp
  · rintro ⟨_, h3⟩; exact h2 h3
  · rintro ⟨h3, _⟩; exact h1 h3

theorem photo3_scrubbed (r : Nat) (g : Guest) :
    ¬ ((scrubPhoto3 r g).HasItem ShopItem.Photo3 = true ∧ (scrubPhoto3 r g).Photo3RideRef = r) := by
  unfold scrubPhoto3
  split_ifs with h1 h2
  · rw [not_hasItem_removeItem]; simp
  · rintro ⟨_, h3⟩; exact h2 h3
  · rintro ⟨h3, _⟩; exact h1 h3

theorem photo4_scrubbed (r : Nat) (g : Guest) :
    ¬ ((scrubPhoto4 r g).HasItem ShopItem.Photo4 = true ∧ (scrubPhoto4 r g).Photo4RideRef = r) := by
  unfold scrubPhoto4
  split_ifs with h1 h2
  · rw [not_hasItem_removeItem]; simp
  · rintro ⟨_, h3⟩; exact h2 h3
  · rintro ⟨h3, _⟩; exact h1 h3

theorem scrubGuestFields_thoughts (r : Nat) (g : Guest) :
    (scrubGuestFields r g).Thoughts = g.Thoughts := by
  unfold scrubGuestFields
  simp only
  rw [(keepsRefs_favourite r _).thoughts, (keepsRefs_heading r _).thoughts,
    (keepsRefs_photo4 r _).thoughts, (keepsRefs_photo3 r _).thoughts,
    (keepsRefs_photo2 r _).thoughts, (keepsRefs_photo1 r _).thoughts,
    (keepsRefs_voucher r _).thoughts, (keepsRefs_watching r _).thoughts]
  rfl

theorem scrubGuestFields_refs (r : Nat) (hr : r < MAX_RIDES) (g : Guest) :
    RideRefsScrubbed r g (scrubGuestFields r g) := by
  have hnull : r ≠ RIDE_ID_NULL := by
    unfold MAX_RIDES at hr
    unfold RIDE_ID_NULL
    omega
  unfold scrubGuestFields
  simp only
  generalize hg1 : scrubRidesBeenOn r g = g1
  generalize hg2 : scrubWatching r g1 = g2
  generalize hg3 : scrubVoucher r g2 = g3
  generalize hg4 : scrubPhoto1 r g3 = g4
  generalize hg5 : scrubPhoto2 r g4 = g5
  generalize hg6 : scrubPhoto3 r g5 = g6
  generalize hg7 : scrubPhoto4 r g6 = g7
  generalize hg8 : scrubHeading r g7 = g8
  generalize hg9 : scrubFavourite r g8 = g9
  have k2 : KeepsRefs g1 g2 := hg2 ▸ keepsRefs_watching r g1
  have k3 : KeepsRefs g2 g3 := hg3 ▸ keepsRefs_voucher r g2
  have k4 : KeepsRefs g3 g4 := hg4 ▸ keepsRefs_photo1 r g3
  have k5 : KeepsRefs g4 g5 := hg5 ▸ keepsRefs_photo2 r g4
  have k6 : KeepsRefs g5 g6 := hg6 ▸ keepsRefs_photo3 r g5
  have k7 : KeepsRefs g6 g7 := hg7 ▸ keepsRefs_photo4 r g6
  have k8 : KeepsRefs g7 g8 := hg8 ▸ keepsRefs_heading r g7
  have k9 : KeepsRefs g8 g9 := hg9 ▸ keepsRefs_favourite r g8
  have k19 : KeepsRefs g1 g9 :=
    k2.trans (k3.trans (k4.trans (k5.trans (k6.trans (k7.trans (k8.trans k9))))))
  have k39 : KeepsRefs g3 g9 := k4.trans (k5.trans (k6.trans (k7.trans (k8.trans k9))))
  have k49 : KeepsRefs g4 g9 := k5.trans (k6.trans (k7.trans (k8.trans k9)))
  have k59 : KeepsRefs g5 g9 := k6.trans (k7.trans (k8.trans k9))
  have k69 : KeepsRefs g6 g9 := k7.trans (k8.trans k9)
  have k79 : KeepsRefs g7 g9 := k8.trans k9
  refine ⟨?_, ?_, ?_, ?_, ?_, ?_, ?_, ?_, ?_⟩
  · rw [k19.rides, ← hg1]
    exact ridesBeenOn_length r g
  · intro j b hb
    rw [k19.rides, ← hg1]
    exact ridesBeenOn_scrubbed r hr g j b hb
  · rw [← hg9]
    exact favourite_scrubbed r g8 hnull
  · rw [← hg9, favourite_heading, ← hg8]
    exact heading_scrubbed r g7 hnull
  · rintro ⟨h1, h2, h3⟩
    apply voucher_scrubbed r g2
    rw [hg3]
    exact ⟨k39.items _ h1, k39.voucherType ▸ h2, k39.voucherRide ▸ h3⟩
  · rintro ⟨h1, h2⟩
    apply photo1_scrubbed r g3
    rw [hg4]
    exact ⟨k49.items _ h1, k49.photo1 ▸ h2⟩
  · rintro ⟨h1, h2⟩
    apply photo2_scrubbed r g4
    rw [hg5]
    exact ⟨k59.items _ h1, k59.photo2 ▸ h2⟩
  · rintro ⟨h1, h2⟩
    apply photo3_scrubbed r g5
    rw [hg6]
    exact ⟨k69.items _ h1, k69.photo3 ▸ h2⟩
  · rintro ⟨h1, h2⟩
    apply photo4_scrubbed r g6
    rw [hg7]
    exact ⟨k79.items _ h1, k79.photo4 ▸ h2⟩

theorem get_ride_lt (w : World) (index : Nat) (ride : Ride) (h : get_ride w index = some ride) :
    index < MAX_RIDES := by
  unfold get_ride at h
  by_contra hc
  rw [if_neg hc] at h
  cases h

theorem refsScrubbed_thoughts (r : Nat) (g g1 : Guest) (ts : List PeepThought)
    (h : RideRefsScrubbed r g g1) : RideRefsScrubbed r g { g1 with Thoughts := ts } := h

/-- C3: after `DemolishRide` for an existing ride `r`, every guest, compared with the same
guest on entry to the loop over the guests, has bit `r mod 8` of `RidesBeenOn[r div 8]` clear
and every other bit of `RidesBeenOn` unchanged, has neither `FavouriteRide` nor
`GuestHeadingToRideId` equal to `r`, holds no voucher of type `RIDE_FREE` for `r`, and for
`k = 1..4` holds no photo item `k` whose ride reference is `r`. -/
theorem demolishRide_scrubs_ride_references (env : Env) (a : RideDemolishAction) (fuel : Nat)
    (w : World) (ride : Ride) (out : Result × World × List NestedCall)
    (hride : get_ride w a.rideIndex = some ride)
    (hrun : RideDemolishAction.DemolishRide env a fuel w = some out) :
    ∃ s, RideDemolishAction.DemolishRidePrepare env a fuel w = some s
      ∧ List.Forall₂ (RideRefsScrubbed a.rideIndex) s.world.guests out.2.1.guests := by
  obtain ⟨s, guests, hs, hg, hout, _, _, _⟩ := demolishRide_some env a fuel w out hrun
  refine ⟨s, hs, ?_⟩
  rw [hout]
  have hlt := get_ride_lt w a.rideIndex ride hride
  refine List.Forall₂.imp ?_ (scrubGuests_forall₂ a.rideIndex fuel _ _ hg)
  intro g g' hgg
  obtain ⟨ts, _, hg'⟩ := scrubGuest_some a.rideIndex fuel g g' hgg
  rw [hg']
  exact refsScrubbed_thoughts _ _ _ ts (scrubGuestFields_refs a.rideIndex hlt g)

theorem demolishRide_scrubs_ride_references_witness :
    get_ride demolishWorld demolishAction.rideIndex = some viewedRide
    ∧ ∃ out, RideDemolishAction.DemolishRide sampleEnv demolishAction 40 demolishWorld = some out
      ∧ ∃ s, RideDemolishAction.DemolishRidePrepare sampleEnv demolishAction 40 demolishWorld = some s
        ∧ List.Forall₂ (RideRefsScrubbed demolishAction.rideIndex) s.world.guests out.2.1.guests :=
  ⟨by decide, _, rfl,
    demolishRide_scrubs_ride_references sampleEnv demolishAction 40 demolishWorld viewedRide _
      (by decide) rfl⟩

/-! ## The thought queue -/

theorem length_five {α : Type} (l : List α) (h : l.length = 5) :
    ∃ a b c d e, l = [a, b, c, d, e] := by
  match l, h with
  | [a, b, c, d, e], _ => exact ⟨a, b, c, d, e, rfl⟩

theorem clearTopThought_length (ts : List PeepThought) (i : Nat)
    (hlen : ts.length = PEEP_MAX_THOUGHTS) (hi : i < PEEP_MAX_THOUGHTS) :
    (clearTopThought ts i).length = PEEP_MAX_THOUGHTS := by
  unfold PEEP_MAX_THOUGHTS at *
  obtain ⟨a, b, c, d, e, rfl⟩ := length_five ts hlen
  interval_cases i <;> rfl

theorem clearTopThought_below (ts : List PeepThought) (i j : Nat)
    (hlen : ts.length = PEEP_MAX_THOUGHTS) (hi : i < PEEP_MAX_THOUGHTS) (hj : j < i) :
    (clearTopThought ts i).get? j = ts.get? j := by
  unfold PEEP_MAX_THOUGHTS at *
  obtain ⟨a, b, c, d, e, rfl⟩ := length_five ts hlen
  interval_cases i <;> interval_cases j <;> rfl

theorem clearTopThought_above (ts : List PeepThought) (i j : Nat)
    (hlen : ts.length = PEEP_MAX_THOUGHTS) (hij : i ≤ j) (hj : j + 1 < PEEP_MAX_THOUGHTS) :
    (clearTopThought ts i).get? j = ts.get? (j + 1) := by
  unfold PEEP_MAX_THOUGHTS at *
  obtain ⟨a, b, c, d, e, rfl⟩ := length_five ts hlen
  have hj' : j < 4 := by omega
  interval_cases j <;> interval_cases i <;> rfl

theorem clearTopThought_last (ts : List PeepThought) (i : Nat) (t : PeepThought)
    (hlen : ts.length = PEEP_MAX_THOUGHTS) (hi : i < PEEP_MAX_THOUGHTS)
    (ht : (clearTopThought ts i).get? (PEEP_MAX_THOUGHTS - 1) = some t) :
    t.type = PeepThoughtType_None ∧ t.item = PEEP_THOUGHT_ITEM_NONE := by
  unfold PEEP_MAX_THOUGHTS at *
  obtain ⟨a, b, c, d, e, rfl⟩ := length_five ts hlen
  interval_cases i <;>
    · simp [clearTopThought, PEEP_MAX_THOUGHTS, List.modify, List.modifyTailIdx, List.modifyHead] at ht
      subst ht
      exact ⟨rfl, rfl⟩

theorem get?_lt {α : Type} (l : List α) (k : Nat) (t : α) (h : l.get? k = some t) : k < l.length := by
  by_contra hc
  rw [List.get?_eq_none.mpr (by omega)] at h
  cases h

theorem compacted_clearTopThought (ts : List PeepThought) (i : Nat)
    (hlen : ts.length = PEEP_MAX_THOUGHTS) (hi : i < PEEP_MAX_THOUGHTS) (hc : Compacted ts) :
    Compacted (clearTopThought ts i) := by
  intro p q t u hpq hp hq htype
  have hql : q < PEEP_MAX_THOUGHTS := by
    have := get?_lt _ _ _ hq
    rwa [clearTopThought_length ts i hlen hi] at this
  by_cases hqlast : q = PEEP_MAX_THOUGHTS - 1
  · subst hqlast
    exact (clearTopThought_last ts i u hlen hi hq).1
  · have hq1 : q + 1 < PEEP_MAX_THOUGHTS := by omega
    have hp1 : p + 1 < PEEP_MAX_THOUGHTS := by omega
    by_cases hqi : q < i
    · rw [clearTopThought_below ts i q hlen hi hqi] at hq
      rw [clearTopThought_below ts i p hlen hi (by omega)] at hp
      exact hc p q t u hpq hp hq htype
    · rw [clearTopThought_above ts i q hlen (by omega) hq1] at hq
      by_cases hpi : p < i
      · rw [clearTopThought_below ts i p hlen hi hpi] at hp
        exact hc p (q + 1) t u (by omega) hp hq htype
      · rw [clearTopThought_above ts i p hlen (by omega) hp1] at hp
        exact hc (p + 1) (q + 1) t u (by omega) hp hq htype

theorem thoughtLoop_spec (r : Nat) :
    ∀ (fuel : Nat) (ts : List PeepThought) (i : Nat) (out : List PeepThought),
      ts.length = PEEP_MAX_THOUGHTS →
      thoughtLoop r fuel ts i = some out →
      (∀ j t, j < i → ts.get? j = some t → t.type ≠ PeepThoughtType_None ∧ t.item ≠ r) →
      out.length = PEEP_MAX_THOUGHTS
      ∧ (∀ k t, out.get? k = some t →
          (∀ j u, j ≤ k → out.get? j = some u → u.type ≠ PeepThoughtType_None) → t.item ≠ r)
      ∧ (Compacted ts → Compacted out) := by
  intro fuel
  induction fuel with
  | zero =>
    intro ts i out _ h
    simp [thoughtLoop] at h
  | succ fuel ih =>
    intro ts i out hlen h hinv
    unfold thoughtLoop at h
    by_cases hi : i < PEEP_MAX_THOUGHTS
    · rw [if_pos hi] at h
      cases hget : ts.get? i with
      | none =>
        exfalso
        have h2 := List.get?_eq_none.mp hget
        omega
      | some t =>
        rw [hget] at h
        simp only at h
        by_cases hnone : t.type = PeepThoughtType_None
        · rw [if_pos hnone] at h
          simp only [Option.some.injEq] at h
          subst h
          refine ⟨hlen, ?_, fun hc => hc⟩
          intro k u hk hall
          by_cases hki : k < i
          · exact (hinv k u hki hk).2
          · exact absurd hnone (hall i t (by omega) hget)
        · rw [if_neg hnone] at h
          by_cases hitem : t.item = r
          · rw [if_pos ⟨hnone, hitem⟩] at h
            have hlen' := clearTopThought_length ts i hlen hi
            obtain ⟨h1, h2, h3⟩ := ih (clearTopThought ts i) i out hlen' h (by
              intro j u hj hu
              rw [clearTopThought_below ts i j hlen hi hj] at hu
              exact hinv j u hj hu)
            exact ⟨h1, h2, fun hc => h3 (compacted_clearTopThought ts i hlen hi hc)⟩
          · rw [if_neg (fun hh => hitem hh.2)] at h
            exact ih ts (i + 1) out hlen h (by
              intro j u hj hu
              by_cases hji : j < i
              · exact hinv j u hji hu
              · have : j = i := by omega
                subst this
                rw [hget] at hu
                cases hu
                exact ⟨hnone, hitem⟩)
    · rw [if_neg hi] at h
      simp only [Option.some.injEq] at h
      subst h
      refine ⟨hlen, ?_, fun hc => hc⟩
      intro k u hk _
      have hkl := get?_lt _ _ _ hk
      exact (hinv k u (by omega) hk).2

/-- C4 as stated fails: after the demolition of ride 0 in `staleWorld` the entry at index 1 of
the queue of the guest still has item 0; the loop stops at that entry, whose type is `None`. -/
theorem demolishRide_leaves_stale_thought_item :
    ∃ out, RideDemolishAction.DemolishRide sampleEnv demolishAction 40 staleWorld = some out
      ∧ ¬ (∀ g ∈ out.2.1.guests, ∀ i t, i < PEEP_MAX_THOUGHTS → g.Thoughts.get? i = some t →
            t.item ≠ demolishAction.rideIndex) := by
  refine ⟨_, rfl, ?_⟩
  intro h
  exact h staleGuest (by decide) 1 { type := 255, item := 0 } (by decide) (by decide) (by decide)

/-- C4, amended: after `DemolishRide` every guest whose queue has `PEEP_MAX_THOUGHTS` entries
keeps a queue of that length in which no entry before the first entry of type `None` has the
item `r`; and when the queue was compacted on entry to the loop over the guests, it is
compacted afterwards and no entry of a type other than `None` has the item `r`. -/
theorem demolishRide_scrubs_thoughts (env : Env) (a : RideDemolishAction) (fuel : Nat)
    (w : World) (out : Result × World × List NestedCall)
    (hrun : RideDemolishAction.DemolishRide env a fuel w = some out) :
    ∃ s, RideDemolishAction.DemolishRidePrepare env a fuel w = some s
      ∧ List.Forall₂ (fun before after =>
          before.Thoughts.length = PEEP_MAX_THOUGHTS →
            after.Thoughts.length = PEEP_MAX_THOUGHTS
            ∧ (∀ k t, after.Thoughts.get? k = some t →
                (∀ j u, j ≤ k → after.Thoughts.get? j = some u → u.type ≠ PeepThoughtType_None) →
                t.item ≠ a.rideIndex)
            ∧ (Compacted before.Thoughts →
                Compacted after.Thoughts
                ∧ ∀ k t, after.Thoughts.get? k = some t → t.type ≠ PeepThoughtType_None →
                    t.item ≠ a.rideIndex))
          s.world.guests out.2.1.guests := by
  obtain ⟨s, guests, hs, hg, hout, _, _, _⟩ := demolishRide_some env a fuel w out hrun
  refine ⟨s, hs, ?_⟩
  rw [hout]
  refine List.Forall₂.imp ?_ (scrubGuests_forall₂ a.rideIndex fuel _ _ hg)
  intro g g' hgg hlen
  obtain ⟨ts, hloop, hg'⟩ := scrubGuest_some a.rideIndex fuel g g' hgg
  rw [scrubGuestFields_thoughts] at hloop
  have hts : g'.Thoughts = ts := by rw [hg']
  rw [hts]
  obtain ⟨h1, h2, h3⟩ := thoughtLoop_spec a.rideIndex fuel g.Thoughts 0 ts hlen hloop
    (fun j t hj _ => absurd hj (Nat.not_lt_zero j))
  refine ⟨h1, h2, fun hc => ⟨h3 hc, ?_⟩⟩
  intro k t hk hty
  refine h2 k t hk ?_
  intro j u hjk hu hnone
  by_cases hjk' : j = k
  · subst hjk'
    rw [hk] at hu
    cases hu
    exact hty hnone
  · exact hty (h3 hc j k u t (by omega) hu hk hnone)

theorem demolishRide_scrubs_thoughts_witness :
    ∃ out, RideDemolishAction.DemolishRide sampleEnv demolishAction 40 demolishWorld = some out
      ∧ ∃ s, RideDemolishAction.DemolishRidePrepare sampleEnv demolishAction 40 demolishWorld = some s
        ∧ List.Forall₂ (fun before after =>
            before.Thoughts.length = PEEP_MAX_THOUGHTS →
              after.Thoughts.length = PEEP_MAX_THOUGHTS
              ∧ (∀ k t, after.Thoughts.get? k = some t →
                  (∀ j u, j ≤ k → after.Thoughts.get? j = some u → u.type ≠ PeepThoughtType_None) →
                  t.item ≠ demolishAction.rideIndex)
              ∧ (Compacted before.Thoughts →
                  Compacted after.Thoughts
                  ∧ ∀ k t, after.Thoughts.get? k = some t → t.type ≠ PeepThoughtType_None →
                      t.item ≠ demolishAction.rideIndex))
            s.world.guests out.2.1.guests :=
  ⟨_, rfl, demolishRide_scrubs_thoughts sampleEnv demolishAction 40 demolishWorld _ rfl⟩

/-! ## The trace of the nested actions -/

theorem wrap32_add_wrap32 (x y : Int) : wrap32 (wrap32 x + y) = wrap32 (x + y) := by
  unfold wrap32
  omega

theorem sumAdded_append_one (calls : List NestedCall) (c : NestedCall) :
    sumAdded (calls ++ [c]) = sumAdded calls + (if c.added then c.result.Cost else 0) := by
  unfold sumAdded
  rw [List.filter_append, List.map_append, List.sum_append]
  by_cases h : c.added = true
  · simp [h]
  · simp [h]

theorem sumAdded_append (xs ys : List NestedCall) :
    sumAdded (xs ++ ys) = sumAdded xs + sumAdded ys := by
  unfold sumAdded
  rw [List.filter_append, List.map_append, List.sum_append]

theorem addRefunds_eq (calls : List NestedCall) :
    ∀ x : Int, addRefunds (wrap32 x) calls = wrap32 (x + sumAdded calls) := by
  induction calls with
  | nil => intro x; simp [addRefunds, sumAdded]
  | cons c rest ih =>
    intro x
    have hcons : addRefunds (wrap32 x) (c :: rest)
        = addRefunds (if c.added then wrap32 (wrap32 x + c.result.Cost) else wrap32 x) rest := rfl
    rw [hcons]
    by_cases h : c.added = true
    · rw [if_pos h, wrap32_add_wrap32, ih]
      congr 1
      have : sumAdded (c :: rest) = c.result.Cost + sumAdded rest := by
        unfold sumAdded
        simp [List.filter_cons, h]
      rw [this]; ring
    · rw [if_neg h, ih]
      congr 1
      have : sumAdded (c :: rest) = sumAdded rest := by
        unfold sumAdded
        simp [List.filter_cons, h]
      rw [this]

theorem mazeRemoveTrack_action (env : Env) (a : RideDemolishAction) (location : CoordsXYZD)
    (dir : Nat) (w : World) :
    NestedAction.maze (RideDemolishAction.MazeRemoveTrack env a
      { x := location.x + (DirOffsets.getD dir { x := 0, y := 0 }).x
        y := location.y + (DirOffsets.getD dir { x := 0, y := 0 }).y
        z := location.z + 0, direction := dir } w).action = mazeActionAt a location dir := by
  unfold RideDemolishAction.MazeRemoveTrack mazeActionAt
  simp only
  split <;> rfl

theorem mazeRemoveTrack_price (env : Env) (a : RideDemolishAction) (coords : CoordsXYZD)
    (w : World) :
    ((RideDemolishAction.MazeRemoveTrack env a coords w).price ≠ MONEY32_UNDEFINED ↔
      ((RideDemolishAction.MazeRemoveTrack env a coords w).result.Error = Status.Ok
        ∧ (RideDemolishAction.MazeRemoveTrack env a coords w).result.Cost ≠ MONEY32_UNDEFINED))
    ∧ ((RideDemolishAction.MazeRemoveTrack env a coords w).price ≠ MONEY32_UNDEFINED →
        (RideDemolishAction.MazeRemoveTrack env a coords w).price
          = (RideDemolishAction.MazeRemoveTrack env a coords w).result.Cost) := by
  unfold RideDemolishAction.MazeRemoveTrack
  simp only
  split
  · rename_i h
    simp [h]
  · rename_i h
    simp [h]

theorem mazeRemoveTrack_flags (env : Env) (a : RideDemolishAction) (coords : CoordsXYZD)
    (w : World) : (RideDemolishAction.MazeRemoveTrack env a coords w).action.flags = a.flags := by
  unfold RideDemolishAction.MazeRemoveTrack
  simp only
  split <;> rfl

theorem mazeLoop_spec (env : Env) (a : RideDemolishAction) (location : CoordsXYZD) :
    ∀ (dirs : List Nat) (s : TrackState), ∃ calls : List NestedCall,
      (RideDemolishAction.mazeLoop env a location dirs s).trace = s.trace ++ calls
      ∧ (RideDemolishAction.mazeLoop env a location dirs s).refundPrice
          = addRefunds s.refundPrice calls
      ∧ calls.map (fun c => c.action) <+: dirs.map (mazeActionAt a location)
      ∧ (∀ c ∈ calls, CallOk a c)
      ∧ (∀ c ∈ calls,
          (c.added = true ↔ (c.result.Error = Status.Ok ∧ c.result.Cost ≠ MONEY32_UNDEFINED)))
      ∧ (∀ k c, calls.get? k = some c → c.added = false → calls.length = k + 1)
      ∧ (calls.length < dirs.length → ∃ c, calls.getLast? = some c ∧ c.added = false) := by
  intro dirs
  induction dirs with
  | nil =>
    intro s
    refine ⟨[], by simp [RideDemolishAction.mazeLoop], rfl, by simp, by simp, by simp, by simp,
      by simp⟩
  | cons dir rest ih =>
    intro s
    unfold RideDemolishAction.mazeLoop
    simp only
    generalize hr : RideDemolishAction.MazeRemoveTrack env a
      { x := location.x + (DirOffsets.getD dir { x := 0, y := 0 }).x
        y := location.y + (DirOffsets.getD dir { x := 0, y := 0 }).y
        z := location.z + 0, direction := dir } s.world = r
    have hact : NestedAction.maze r.action = mazeActionAt a location dir := by
      rw [← hr]; exact mazeRemoveTrack_action env a location dir s.world
    have hprice := mazeRemoveTrack_price env a
      { x := location.x + (DirOffsets.getD dir { x := 0, y := 0 }).x
        y := location.y + (DirOffsets.getD dir { x := 0, y := 0 }).y
        z := location.z + 0, direction := dir } s.world
    rw [hr] at hprice
    have hflags : r.action.flags = a.flags := by
      rw [← hr]; exact mazeRemoveTrack_flags env a _ s.world
    by_cases hp : r.price ≠ MONEY32_UNDEFINED
    · rw [if_pos hp]
      obtain ⟨calls, h1, h2, h3, h4, h4', h5, h6⟩ := ih
        { world := r.world, refundPrice := wrap32 (s.refundPrice + r.price),
          trace := s.trace ++
            [{ action := NestedAction.maze r.action, result := r.result, added := true }] }
      refine ⟨{ action := NestedAction.maze r.action, result := r.result, added := true } :: calls,
        ?_, ?_, ?_, ?_, ?_, ?_, ?_⟩
      · rw [h1]; simp
      · rw [h2]
        simp only [addRefunds, List.foldl_cons, if_true, hprice.2 hp]
      · simp only [List.map_cons]
        rw [hact]
        exact (List.cons_prefix_cons).mpr ⟨rfl, h3⟩
      · intro c hc
        rcases List.mem_cons.mp hc with hc | hc
        · subst hc
          exact ⟨hflags, by simpa using hprice.1.mp hp⟩
        · exact h4 c hc
      · intro c hc
        rcases List.mem_cons.mp hc with hc | hc
        · subst hc
          simpa using hprice.1.mp hp
        · exact h4' c hc
      · intro k c hk hadd
        cases k with
        | zero =>
          simp only [List.get?_cons_zero, Option.some.injEq] at hk
          subst hk
          cases hadd
        | succ k =>
          simp only [List.get?_cons_succ] at hk
          have := h5 k c hk hadd
          simp [this]
      · intro hlen
        simp only [List.length_cons, Nat.add_lt_add_iff_right] at hlen
        obtain ⟨c, hc1, hc2⟩ := h6 hlen
        refine ⟨c, ?_, hc2⟩
        cases calls with
        | nil => simp at hc1
        | cons x xs => simpa [List.getLast?_cons_cons] using hc1
    · rw [if_neg hp]
      refine ⟨[{ action := NestedAction.maze r.action, result := r.result, added := false }],
        rfl, ?_, ?_, ?_, ?_, ?_, ?_⟩
      · simp [addRefunds]
      · simp only [List.map_cons, List.map_nil]
        rw [hact]
        exact (List.cons_prefix_cons).mpr ⟨rfl, List.nil_prefix⟩
      · intro c hc
        simp only [List.mem_singleton] at hc
        subst hc
        refine ⟨hflags, ?_⟩
        constructor
        · intro h; cases h
        · intro h; exact absurd (hprice.1.mpr h) hp
      · intro c hc
        simp only [List.mem_singleton] at hc
        subst hc
        constructor
        · intro h; cases h
        · intro h; exact absurd (hprice.1.mpr h) hp
      · intro k c hk _
        cases k with
        | zero => rfl
        | succ k => simp at hk
      · intro _
        exact ⟨_, rfl, rfl⟩

theorem traceOk_mazeLoop (env : Env) (a : RideDemolishAction) (location : CoordsXYZD)
    (dirs : List Nat) (s : TrackState) (h : TraceOk a s) :
    TraceOk a (RideDemolishAction.mazeLoop env a location dirs s) := by
  obtain ⟨calls, h1, h2, _, h4, _, _, _⟩ := mazeLoop_spec env a location dirs s
  constructor
  · rw [h2, h1, h.1, addRefunds_eq, sumAdded_append]
  · intro c hc
    rw [h1] at hc
    rcases List.mem_append.mp hc with hc | hc
    · exact h.2 c hc
    · exact h4 c hc

theorem traceOk_snoc (a : RideDemolishAction) (s : TrackState) (w : World) (c : NestedCall)
    (h : TraceOk a s) (hc : CallOk a c) :
    TraceOk a
      { world := w
        refundPrice := if c.added then wrap32 (s.refundPrice + c.result.Cost) else s.refundPrice
        trace := s.trace ++ [c] } := by
  constructor
  · simp only
    rw [sumAdded_append_one, h.1]
    by_cases hadd : c.added = true
    · rw [if_pos hadd, if_pos hadd, wrap32_add_wrap32]
    · rw [if_neg hadd, if_neg hadd, Int.add_zero]
  · intro c' hc'
    rcases List.mem_append.mp hc' with hc' | hc'
    · exact h.2 c' hc'
    · simp only [List.mem_singleton] at hc'
      subst hc'
      exact hc

theorem demolishLoop_traceOk (env : Env) (a : RideDemolishAction) :
    ∀ (fuel : Nat) (it : tile_element_iterator) (s out : TrackState), TraceOk a s →
      RideDemolishAction.demolishLoop env a fuel it s = some out → TraceOk a out := by
  intro fuel
  induction fuel with
  | zero =>
    intro it s out _ h
    simp [RideDemolishAction.demolishLoop] at h
  | succ fuel ih =>
    intro it s out hs h
    unfold RideDemolishAction.demolishLoop at h
    cases hnext : tile_element_iterator_next s.world it with
    | finished =>
      rw [hnext] at h
      simp only [Option.some.injEq] at h
      subst h
      exact hs
    | moved it1 =>
      rw [hnext] at h
      exact ih _ _ _ hs h
    | found it1 tile element =>
      rw [hnext] at h
      simp only at h
      split_ifs at h with h1 h2 h3 h4
      · exact ih _ _ _ hs h
      · exact ih _ _ _ hs h
      · refine ih _ _ _ ?_ h
        exact traceOk_snoc a s _
          { action := NestedAction.track
              { trackType := element.trackType, sequence := element.sequenceIndex,
                origin := { x := (tile.x : Int) * 32, y := (tile.y : Int) * 32, z := element.baseZ,
                            direction := element.direction },
                flags := GAME_COMMAND_FLAG_NO_SPEND }
            result := _, added := false } hs
          ⟨rfl, by simpa using h4⟩
      · refine ih _ _ _ ?_ h
        exact traceOk_snoc a s _
          { action := NestedAction.track
              { trackType := element.trackType, sequence := element.sequenceIndex,
                origin := { x := (tile.x : Int) * 32, y := (tile.y : Int) * 32, z := element.baseZ,
                            direction := element.direction },
                flags := GAME_COMMAND_FLAG_NO_SPEND }
            result := _, added := true } hs
          ⟨rfl, by simpa using h4⟩
      · exact ih _ _ _ (traceOk_mazeLoop env a _ _ s hs) h

theorem demolishTracks_some (env : Env) (a : RideDemolishAction) (fuel : Nat) (w : World)
    (out : TrackState) (h : RideDemolishAction.DemolishTracks env a fuel w = some out) :
    ∃ s, RideDemolishAction.demolishLoop env a fuel tile_element_iterator_begin
          { world := { w with gGamePaused := 0 }, refundPrice := 0, trace := [] } = some s
      ∧ out.refundPrice = s.refundPrice ∧ out.trace = s.trace
      ∧ out.world = { s.world with gGamePaused := w.gGamePaused } := by
  unfold RideDemolishAction.DemolishTracks at h
  simp only at h
  cases hl : RideDemolishAction.demolishLoop env a fuel tile_element_iterator_begin
      { world := { w with gGamePaused := 0 }, refundPrice := 0, trace := [] } with
  | none => rw [hl] at h; cases h
  | some s =>
    rw [hl] at h
    simp only [Option.some.injEq] at h
    subst h
    exact ⟨s, rfl, rfl, rfl, rfl⟩

theorem demolishTracks_traceOk (env : Env) (a : RideDemolishAction) (fuel : Nat) (w : World)
    (out : TrackState) (h : RideDemolishAction.DemolishTracks env a fuel w = some out) :
    TraceOk a out := by
  obtain ⟨s, hs, h1, h2, _⟩ := demolishTracks_some env a fuel w out h
  have h0 : TraceOk a { world := { w with gGamePaused := 0 }, refundPrice := 0, trace := [] } :=
    ⟨rfl, fun c hc => absurd hc (List.not_mem_nil c)⟩
  have := demolishLoop_traceOk env a fuel _ _ s h0 hs
  exact ⟨by rw [h1, h2]; exact this.1, by rw [h2]; exact this.2⟩

theorem demolishRidePrepare_some (env : Env) (a : RideDemolishAction) (fuel : Nat) (w : World)
    (s : TrackState) (h : RideDemolishAction.DemolishRidePrepare env a fuel w = some s) :
    ∃ s0, RideDemolishAction.DemolishTracks env a fuel w = some s0
      ∧ s.refundPrice = s0.refundPrice ∧ s.trace = s0.trace := by
  unfold RideDemolishAction.DemolishRidePrepare at h
  cases ht : RideDemolishAction.DemolishTracks env a fuel w with
  | none => rw [ht] at h; cases h
  | some s0 =>
    rw [ht] at h
    simp only [Option.some.injEq] at h
    subst h
    exact ⟨s0, rfl, rfl, rfl⟩

/-! ## The refund and the flags of the nested actions -/

theorem mazeRemoveTrack_fromEnv (env : Env) (a : RideDemolishAction) (coords : CoordsXYZD)
    (w : World) (added : Bool) :
    FromEnv env
      { action := NestedAction.maze (RideDemolishAction.MazeRemoveTrack env a coords w).action
        result := (RideDemolishAction.MazeRemoveTrack env a coords w).result
        added := added } := by
  refine ⟨w, ?_⟩
  unfold RideDemolishAction.MazeRemoveTrack Env.ExecuteNested
  simp only
  split <;> rfl

theorem mazeLoop_fromEnv (env : Env) (a : RideDemolishAction) (location : CoordsXYZD) :
    ∀ (dirs : List Nat) (s : TrackState), (∀ c ∈ s.trace, FromEnv env c) →
      ∀ c ∈ (RideDemolishAction.mazeLoop env a location dirs s).trace, FromEnv env c := by
  intro dirs
  induction dirs with
  | nil => intro s hs; simpa [RideDemolishAction.mazeLoop] using hs
  | cons dir rest ih =>
    intro s hs
    unfold RideDemolishAction.mazeLoop
    simp only
    split
    · apply ih
      intro c hc
      rcases List.mem_append.mp hc with hc | hc
      · exact hs c hc
      · simp only [List.mem_singleton] at hc
        subst hc
        exact mazeRemoveTrack_fromEnv env a _ s.world true
    · intro c hc
      rcases List.mem_append.mp hc with hc | hc
      · exact hs c hc
      · simp only [List.mem_singleton] at hc
        subst hc
        exact mazeRemoveTrack_fromEnv env a _ s.world false

theorem demolishLoop_fromEnv (env : Env) (a : RideDemolishAction) :
    ∀ (fuel : Nat) (it : tile_element_iterator) (s out : TrackState),
      (∀ c ∈ s.trace, FromEnv env c) →
      RideDemolishAction.demolishLoop env a fuel it s = some out →
      ∀ c ∈ out.trace, FromEnv env c := by
  intro fuel
  induction fuel with
  | zero =>
    intro it s out _ h
    simp [RideDemolishAction.demolishLoop] at h
  | succ fuel ih =>
    intro it s out hs h
    unfold RideDemolishAction.demolishLoop at h
    cases hnext : tile_element_iterator_next s.world it with
    | finished =>
      rw [hnext] at h
      simp only [Option.some.injEq] at h
      subst h
      exact hs
    | moved it1 =>
      rw [hnext] at h
      exact ih _ _ _ hs h
    | found it1 tile element =>
      rw [hnext] at h
      simp only at h
      split_ifs at h with h1 h2 h3 h4
      · exact ih _ _ _ hs h
      · exact ih _ _ _ hs h
      · refine ih _ _ _ ?_ h
        intro c hc
        rcases List.mem_append.mp hc with hc | hc
        · exact hs c hc
        · simp only [List.mem_singleton] at hc
          subst hc
          exact ⟨s.world, rfl⟩
      · refine ih _ _ _ ?_ h
        intro c hc
        rcases List.mem_append.mp hc with hc | hc
        · exact hs c hc
        · simp only [List.mem_singleton] at hc
          subst hc
          exact ⟨s.world, rfl⟩
      · exact ih _ _ _ (mazeLoop_fromEnv env a _ _ s hs) h

theorem demolishTracks_fromEnv (env : Env) (a : RideDemolishAction) (fuel : Nat) (w : World)
    (out : TrackState) (h : RideDemolishAction.DemolishTracks env a fuel w = some out) :
    ∀ c ∈ out.trace, FromEnv env c := by
  obtain ⟨s, hs, _, h2, _⟩ := demolishTracks_some env a fuel w out h
  rw [h2]
  exact demolishLoop_fromEnv env a fuel _ _ s (fun c hc => absurd hc (List.not_mem_nil c)) hs

theorem fromEnv_cost (env : Env)
    (htrack : ∀ act w, (env.ExecuteNestedTrackRemove act w).1.Error = Status.Ok →
      (env.ExecuteNestedTrackRemove act w).1.Cost ≠ MONEY32_UNDEFINED)
    (hmaze : ∀ act w, (env.ExecuteNestedMazeSetTrack act w).1.Error = Status.Ok →
      (env.ExecuteNestedMazeSetTrack act w).1.Cost ≠ MONEY32_UNDEFINED)
    (c : NestedCall) (hc : FromEnv env c) (hok : c.result.Error = Status.Ok) :
    c.result.Cost ≠ MONEY32_UNDEFINED := by
  obtain ⟨w, hw⟩ := hc
  rw [hw] at hok ⊢
  cases hact : c.action with
  | track t =>
    rw [hact] at hok
    exact htrack t w hok
  | maze m =>
    rw [hact] at hok
    exact hmaze m w hok

theorem callOk_added (env : Env) (a : RideDemolishAction)
    (htrack : ∀ act w, (env.ExecuteNestedTrackRemove act w).1.Error = Status.Ok →
      (env.ExecuteNestedTrackRemove act w).1.Cost ≠ MONEY32_UNDEFINED)
    (hmaze : ∀ act w, (env.ExecuteNestedMazeSetTrack act w).1.Error = Status.Ok →
      (env.ExecuteNestedMazeSetTrack act w).1.Cost ≠ MONEY32_UNDEFINED)
    (c : NestedCall) (hc : FromEnv env c) (hok : CallOk a c) :
    (c.added = true ↔ c.result.Error = Status.Ok) := by
  have hcost := fromEnv_cost env htrack hmaze c hc
  unfold CallOk at hok
  split at hok
  · exact hok.2
  · exact ⟨fun h => (hok.2.mp h).1, fun h => hok.2.mpr ⟨h, hcost h⟩⟩

theorem chain_of_failed_last : ∀ l : List NestedCall,
    (∀ k c, l.get? k = some c → c.added = false → l.length = k + 1) →
    (∀ c ∈ l, (c.added = true ↔ (c.result.Error = Status.Ok ∧ c.result.Cost ≠ MONEY32_UNDEFINED))) →
    List.Chain' EndsVisit l := by
  intro l
  induction l with
  | nil => intro _ _; exact List.chain'_nil
  | cons c rest ih =>
    intro hlast hadd
    cases rest with
    | nil => exact List.chain'_singleton c
    | cons c1 rest1 =>
      rw [List.chain'_cons]
      constructor
      · intro m m1 _ _ hfail
        have hnot : c.added = false := by
          cases hc : c.added with
          | false => rfl
          | true => exact absurd ((hadd c (List.mem_cons_self _ _)).mp hc) hfail
        have := hlast 0 c rfl hnot
        simp at this
      · apply ih
        · intro k c2 hk hf
          have := hlast (k + 1) c2 (by simpa using hk) hf
          simpa using this
        · intro c2 hc2
          exact hadd c2 (List.mem_cons_of_mem _ hc2)

theorem mazeLoop_chain (env : Env) (a : RideDemolishAction) (location : CoordsXYZD)
    (s : TrackState) (hs : List.Chain' EndsVisit s.trace) :
    List.Chain' EndsVisit
      (RideDemolishAction.mazeLoop env a location ALL_DIRECTIONS s).trace := by
  obtain ⟨calls, h1, _, h3, _, h4, h5, _⟩ := mazeLoop_spec env a location ALL_DIRECTIONS s
  rw [h1]
  refine List.Chain'.append hs (chain_of_failed_last calls h5 h4) ?_
  intro x _ y hy m m1 _ hm1 _
  cases calls with
  | nil => simp at hy
  | cons c0 cs =>
    simp only [List.head?_cons, Option.mem_def, Option.some.injEq] at hy
    subst hy
    simp only [ALL_DIRECTIONS, List.map_cons, List.map_nil] at h3
    have h0 := (List.cons_prefix_cons.mp h3).1
    rw [hm1] at h0
    simp only [mazeActionAt, NestedAction.maze.injEq] at h0
    rw [h0]

theorem chain_snoc_track (trace : List NestedCall) (c : NestedCall) (t : TrackRemoveAction)
    (hc : c.action = NestedAction.track t) (hs : List.Chain' EndsVisit trace) :
    List.Chain' EndsVisit (trace ++ [c]) := by
  refine List.Chain'.append hs (List.chain'_singleton c) ?_
  intro x _ y hy m m1 _ hm1 _
  simp only [List.head?_cons, Option.mem_def, Option.some.injEq] at hy
  subst hy
  rw [hc] at hm1
  cases hm1

theorem demolishLoop_chain (env : Env) (a : RideDemolishAction) :
    ∀ (fuel : Nat) (it : tile_element_iterator) (s out : TrackState),
      List.Chain' EndsVisit s.trace →
      RideDemolishAction.demolishLoop env a fuel it s = some out →
      List.Chain' EndsVisit out.trace := by
  intro fuel
  induction fuel with
  | zero =>
    intro it s out _ h
    simp [RideDemolishAction.demolishLoop] at h
  | succ fuel ih =>
    intro it s out hs h
    unfold RideDemolishAction.demolishLoop at h
    cases hnext : tile_element_iterator_next s.world it with
    | finished =>
      rw [hnext] at h
      simp only [Option.some.injEq] at h
      subst h
      exact hs
    | moved it1 =>
      rw [hnext] at h
      exact ih _ _ _ hs h
    | found it1 tile element =>
      rw [hnext] at h
      simp only at h
      split_ifs at h with h1 h2 h3 h4
      · exact ih _ _ _ hs h
      · exact ih _ _ _ hs h
      · exact ih _ _ _ (chain_snoc_track s.trace _ _ rfl hs) h
      · exact ih _ _ _ (chain_snoc_track s.trace _ _ rfl hs) h
      · exact ih _ _ _ (mazeLoop_chain env a _ s hs) h

theorem demolishTracks_chain (env : Env) (a : RideDemolishAction) (fuel : Nat) (w : World)
    (out : TrackState) (h : RideDemolishAction.DemolishTracks env a fuel w = some out) :
    List.Chain' EndsVisit out.trace := by
  obtain ⟨s, hs, _, h2, _⟩ := demolishTracks_some env a fuel w out h
  rw [h2]
  exact demolishLoop_chain env a fuel _ _ s List.chain'_nil hs

/-- C5: when the nested actions keep the contract of results (a result with the status `Ok`
does not carry the cost `MONEY32_UNDEFINED`), the refund that `DemolishTracks` returns is the
32-bit sum of the costs of the nested `TrackRemoveAction` and maze removals that returned `Ok`;
every recorded result is the result that the nested action returned; a cost is added exactly
when the status is `Ok`, so that a failed nested action contributes nothing; no added cost is
`MONEY32_UNDEFINED`; a maze removal that failed is followed by no further removal of its visit
(a maze removal issued next is the one for direction 0, which begins a visit), so that every
maze removal that returned `Ok` comes before the first failure of its visit; and `DemolishRide`
reports this refund as its cost. -/
theorem demolishTracks_refund_is_sum (env : Env) (a : RideDemolishAction) (fuel : Nat) (w : World)
    (out : TrackState)
    (htrack : ∀ act w, (env.ExecuteNestedTrackRemove act w).1.Error = Status.Ok →
      (env.ExecuteNestedTrackRemove act w).1.Cost ≠ MONEY32_UNDEFINED)
    (hmaze : ∀ act w, (env.ExecuteNestedMazeSetTrack act w).1.Error = Status.Ok →
      (env.ExecuteNestedMazeSetTrack act w).1.Cost ≠ MONEY32_UNDEFINED)
    (h : RideDemolishAction.DemolishTracks env a fuel w = some out) :
    out.refundPrice
        = wrap32 (((out.trace.filter (fun c => decide (c.result.Error = Status.Ok))).map
            (fun c => c.result.Cost)).sum)
    ∧ (∀ c ∈ out.trace, ∃ w1, c.result = (env.ExecuteNested c.action w1).1)
    ∧ (∀ c ∈ out.trace, (c.added = true ↔ c.result.Error = Status.Ok))
    ∧ (∀ c ∈ out.trace, c.added = true → c.result.Cost ≠ MONEY32_UNDEFINED)
    ∧ List.Chain' (fun c next => ∀ m m1, c.action = NestedAction.maze m →
        next.action = NestedAction.maze m1 → c.result.Error ≠ Status.Ok → m1.loc.direction = 0)
        out.trace
    ∧ (∀ res, RideDemolishAction.DemolishRide env a fuel w = some res →
        res.1.Cost = out.refundPrice) := by
  have hok := demolishTracks_traceOk env a fuel w out h
  have hfrom := demolishTracks_fromEnv env a fuel w out h
  have hadded : ∀ c ∈ out.trace, (c.added = true ↔ c.result.Error = Status.Ok) :=
    fun c hc => callOk_added env a htrack hmaze c (hfrom c hc) (hok.2 c hc)
  have hchain := demolishTracks_chain env a fuel w out h
  refine ⟨?_, hfrom, hadded, ?_,
    hchain.imp (fun _ _ hends m m1 hm hm1 hne => hends m m1 hm hm1 (fun hh => hne hh.1)), ?_⟩
  · rw [hok.1]
    unfold sumAdded
    congr 3
    apply List.filter_congr
    intro c hc
    have := hadded c hc
    by_cases hb : c.added = true
    · rw [hb]; exact (decide_eq_true (this.mp hb)).symm
    · have hb' : c.added = false := by simpa using hb
      rw [hb']
      exact (decide_eq_false (fun he => hb (this.mpr he))).symm
  · intro c hc hadd
    exact fromEnv_cost env htrack hmaze c (hfrom c hc) ((hadded c hc).mp hadd)
  · intro res hres
    obtain ⟨s, _, hs, _, _, _, hcost, _⟩ := demolishRide_some env a fuel w res hres
    obtain ⟨s0, hs0, hr, _⟩ := demolishRidePrepare_some env a fuel w s hs
    rw [h] at hs0
    cases hs0
    rw [hcost, hr]

theorem demolishTracks_refund_is_sum_witness :
    (∀ act w, (sampleEnv.ExecuteNestedTrackRemove act w).1.Error = Status.Ok →
      (sampleEnv.ExecuteNestedTrackRemove act w).1.Cost ≠ MONEY32_UNDEFINED)
    ∧ (∀ act w, (sampleEnv.ExecuteNestedMazeSetTrack act w).1.Error = Status.Ok →
      (sampleEnv.ExecuteNestedMazeSetTrack act w).1.Cost ≠ MONEY32_UNDEFINED)
    ∧ ∃ out, RideDemolishAction.DemolishTracks sampleEnv demolishAction 40 demolishWorld = some out
      ∧ out.refundPrice = -140
      ∧ out.trace.map (fun c => (c.result.Error, c.result.Cost))
          = [(Status.Ok, -100), (Status.Disallowed, 0), (Status.Ok, -10), (Status.Ok, -10),
             (Status.Ok, -10), (Status.Ok, -10)]
      ∧ out.refundPrice
          = wrap32 (((out.trace.filter (fun c => decide (c.result.Error = Status.Ok))).map
              (fun c => c.result.Cost)).sum) := by
  have htrack : ∀ act w, (sampleEnv.ExecuteNestedTrackRemove act w).1.Error = Status.Ok →
      (sampleEnv.ExecuteNestedTrackRemove act w).1.Cost ≠ MONEY32_UNDEFINED := by
    intro act w
    unfold sampleEnv
    simp only
    split
    · intro h; cases h
    · intro _
      show (-100 : Int) ≠ MONEY32_UNDEFINED
      decide
  have hmaze : ∀ act w, (sampleEnv.ExecuteNestedMazeSetTrack act w).1.Error = Status.Ok →
      (sampleEnv.ExecuteNestedMazeSetTrack act w).1.Cost ≠ MONEY32_UNDEFINED := by
    intro act w
    unfold sampleEnv
    simp only
    split
    · intro _
      show (-10 : Int) ≠ MONEY32_UNDEFINED
      decide
    · intro _
      show (-10 : Int) ≠ MONEY32_UNDEFINED
      decide
  exact ⟨htrack, hmaze, _, rfl, by decide, by decide,
    (demolishTracks_refund_is_sum sampleEnv demolishAction 40 demolishWorld _ htrack hmaze rfl).1⟩

/-- C8 as stated fails: in the demolition of `demolishWorld` the parent carries the ghost
flag, and the nested `TrackRemoveAction` is given `GAME_COMMAND_FLAG_NO_SPEND` instead. -/
theorem demolishTracks_track_flags_differ :
    ∃ out, RideDemolishAction.DemolishTracks sampleEnv demolishAction 40 demolishWorld = some out
      ∧ ¬ (∀ c ∈ out.trace, c.action.flags = demolishAction.flags) := by
  refine ⟨_, rfl, ?_⟩
  intro h
  have := h
    { action := NestedAction.track
        { trackType := 1, sequence := 0, origin := { x := 32, y := 0, z := 16, direction := 0 },
          flags := GAME_COMMAND_FLAG_NO_SPEND }
      result := { Cost := -100 }
      added := true } (by decide)
  revert this
  decide

/-- C8, amended: every nested `MazeSetTrackAction` that the demolition issues is given the
flags of the parent action, and every nested `TrackRemoveAction` is given the flag
`GAME_COMMAND_FLAG_NO_SPEND` alone, whatever the flags of the parent are. -/
theorem nested_actions_flags (env : Env) (a : RideDemolishAction) (fuel : Nat) (w : World)
    (out : TrackState) (h : RideDemolishAction.DemolishTracks env a fuel w = some out) :
    ∀ c ∈ out.trace,
      match c.action with
      | NestedAction.track t => t.flags = GAME_COMMAND_FLAG_NO_SPEND
      | NestedAction.maze m => m.flags = a.flags := by
  have hok := demolishTracks_traceOk env a fuel w out h
  intro c hc
  have := hok.2 c hc
  unfold CallOk at this
  split at this
  · rename_i t heq
    try rw [heq]
    exact this.1
  · rename_i m heq
    try rw [heq]
    exact this.1

theorem nested_actions_flags_witness :
    ∃ out, RideDemolishAction.DemolishTracks sampleEnv demolishAction 40 demolishWorld = some out
      ∧ out.trace.length = 6
      ∧ ∀ c ∈ out.trace,
          match c.action with
          | NestedAction.track t => t.flags = GAME_COMMAND_FLAG_NO_SPEND
          | NestedAction.maze m => m.flags = demolishAction.flags :=
  ⟨_, rfl, by decide, nested_actions_flags sampleEnv demolishAction 40 demolishWorld _ rfl⟩

/-! ## The visit of a maze tile -/

theorem mazeLoop_calls_fromEnv (env : Env) (a : RideDemolishAction) (location : CoordsXYZD) :
    ∀ (dirs : List Nat) (s : TrackState), ∃ calls : List NestedCall,
      (RideDemolishAction.mazeLoop env a location dirs s).trace = s.trace ++ calls
      ∧ ∀ c ∈ calls, FromEnv env c := by
  intro dirs
  induction dirs with
  | nil => intro s; exact ⟨[], by simp [RideDemolishAction.mazeLoop], by simp⟩
  | cons dir rest ih =>
    intro s
    unfold RideDemolishAction.mazeLoop
    simp only
    have hfrom := mazeRemoveTrack_fromEnv env a
      { x := location.x + (DirOffsets.getD dir { x := 0, y := 0 }).x
        y := location.y + (DirOffsets.getD dir { x := 0, y := 0 }).y
        z := location.z + 0, direction := dir } s.world
    generalize RideDemolishAction.MazeRemoveTrack env a
      { x := location.x + (DirOffsets.getD dir { x := 0, y := 0 }).x
        y := location.y + (DirOffsets.getD dir { x := 0, y := 0 }).y
        z := location.z + 0, direction := dir } s.world = r at hfrom
    by_cases hp : r.price ≠ MONEY32_UNDEFINED
    · rw [if_pos hp]
      obtain ⟨calls, h1, h2⟩ := ih
        { world := r.world, refundPrice := wrap32 (s.refundPrice + r.price),
          trace := s.trace ++
            [{ action := NestedAction.maze r.action, result := r.result, added := true }] }
      refine ⟨{ action := NestedAction.maze r.action, result := r.result, added := true } :: calls,
        ?_, ?_⟩
      · rw [h1]; simp
      · intro c hc
        rcases List.mem_cons.mp hc with hc | hc
        · subst hc
          exact hfrom true
        · exact h2 c hc
    · rw [if_neg hp]
      refine ⟨[{ action := NestedAction.maze r.action, result := r.result, added := false }],
        rfl, ?_⟩
      intro c hc
      simp only [List.mem_singleton] at hc
      subst hc
      exact hfrom false

theorem addRefunds_of_added (calls : List NestedCall) (hall : ∀ c ∈ calls, c.added = true) :
    ∀ init : Int, addRefunds init calls = addAll init calls := by
  induction calls with
  | nil => intro init; rfl
  | cons c rest ih =>
    intro init
    have hc : c.added = true := hall c (List.mem_cons_self c rest)
    have hrest : ∀ c1 ∈ rest, c1.added = true := fun c1 h1 => hall c1 (List.mem_cons_of_mem c h1)
    simp only [addRefunds, addAll, List.foldl_cons, hc, if_true]
    exact ih hrest _

theorem addRefunds_snoc_failed (calls : List NestedCall) (c : NestedCall) (hc : c.added = false)
    (init : Int) : addRefunds init (calls ++ [c]) = addRefunds init calls := by
  simp [addRefunds, List.foldl_append, hc]

theorem eq_take_append_of_get? {α : Type} (l : List α) (k : Nat) (x : α)
    (hk : l.get? k = some x) (hlen : l.length = k + 1) : l = l.take k ++ [x] := by
  induction l generalizing k with
  | nil => simp at hk
  | cons y ys ih =>
    cases k with
    | zero =>
      simp only [List.get?_cons_zero, Option.some.injEq] at hk
      subst hk
      have : ys = [] := by
        simp only [List.length_cons] at hlen
        exact List.length_eq_zero.mp (by omega)
      simp [this]
    | succ k =>
      simp only [List.get?_cons_succ] at hk
      simp only [List.length_cons, Nat.add_right_cancel_iff] at hlen
      have := ih k hk hlen
      simp only [List.take_succ_cons, List.cons_append]
      rw [← this]

/-- C6: when `DemolishTracks` reads a maze element of the ride on the tile `(tx, ty)`, it
continues with the state `visit` that the maze loop leaves at `(x, y, z) = (32 tx, 32 ty, baseZ)`
and restarts the tile. With `calls` the nested removals of that visit: between one and four are
issued, in the order direction 0 at `(x, y, z)`, 1 at `(x, y + 16, z)`, 2 at
`(x + 16, y + 16, z)`, 3 at `(x + 16, y, z)`, each recorded with the result that the nested
action returned. A removal fails when its status is not `Ok` or its cost is
`MONEY32_UNDEFINED`. If the removal number `k` fails, it is the last one issued, the removals
before it succeeded, and the total is the old total plus their refunds; if none fails, four
are issued and all four refunds are added. -/
theorem maze_visit_order (env : Env) (a : RideDemolishAction) (fuel : Nat)
    (it it1 : tile_element_iterator) (s : TrackState) (tile : Tile) (element : TileElement)
    (visit : TrackState) (calls : List NestedCall)
    (hnext : tile_element_iterator_next s.world it = IteratorStep.found it1 tile element)
    (htype : element.type = TILE_ELEMENT_TYPE_TRACK)
    (hride : element.rideIndex = a.rideIndex)
    (hmaze : element.trackType = TrackElemType_Maze)
    (hvisit : visit = RideDemolishAction.mazeLoop env a
      { x := (tile.x : Int) * 32, y := (tile.y : Int) * 32, z := element.baseZ,
        direction := element.direction } ALL_DIRECTIONS s)
    (hcalls : calls = visit.trace.drop s.trace.length) :
    RideDemolishAction.demolishLoop env a (fuel + 1) it s
        = RideDemolishAction.demolishLoop env a fuel (tile_element_iterator_restart_for_tile it1) visit
    ∧ visit.trace = s.trace ++ calls
    ∧ 1 ≤ calls.length ∧ calls.length ≤ 4
    ∧ calls.map (fun c => c.action) <+:
        [NestedAction.maze
           { loc := { x := (tile.x : Int) * 32, y := (tile.y : Int) * 32, z := element.baseZ,
                      direction := 0 },
             initialPlacement := false, rideIndex := a.rideIndex,
             mode := GC_SET_MAZE_TRACK_FILL, flags := a.flags },
         NestedAction.maze
           { loc := { x := (tile.x : Int) * 32, y := (tile.y : Int) * 32 + 16, z := element.baseZ,
                      direction := 1 },
             initialPlacement := false, rideIndex := a.rideIndex,
             mode := GC_SET_MAZE_TRACK_FILL, flags := a.flags },
         NestedAction.maze
           { loc := { x := (tile.x : Int) * 32 + 16, y := (tile.y : Int) * 32 + 16,
                      z := element.baseZ, direction := 2 },
             initialPlacement := false, rideIndex := a.rideIndex,
             mode := GC_SET_MAZE_TRACK_FILL, flags := a.flags },
         NestedAction.maze
           { loc := { x := (tile.x : Int) * 32 + 16, y := (tile.y : Int) * 32, z := element.baseZ,
                      direction := 3 },
             initialPlacement := false, rideIndex := a.rideIndex,
             mode := GC_SET_MAZE_TRACK_FILL, flags := a.flags }]
    ∧ (∀ c ∈ calls, ∃ w1, c.result = (env.ExecuteNested c.action w1).1)
    ∧ (∀ c ∈ calls,
        (c.added = true ↔ (c.result.Error = Status.Ok ∧ c.result.Cost ≠ MONEY32_UNDEFINED)))
    ∧ (∀ k c, calls.get? k = some c →
        ¬ (c.result.Error = Status.Ok ∧ c.result.Cost ≠ MONEY32_UNDEFINED) →
        calls.length = k + 1
        ∧ (∀ c1 ∈ calls.take k,
            c1.result.Error = Status.Ok ∧ c1.result.Cost ≠ MONEY32_UNDEFINED)
        ∧ visit.refundPrice = addAll s.refundPrice (calls.take k))
    ∧ ((∀ c ∈ calls, c.result.Error = Status.Ok ∧ c.result.Cost ≠ MONEY32_UNDEFINED) →
        calls.length = 4 ∧ visit.refundPrice = addAll s.refundPrice calls) := by
  obtain ⟨calls0, h1, h2, h3, _, h4, h5, h6⟩ := mazeLoop_spec env a
    { x := (tile.x : Int) * 32, y := (tile.y : Int) * 32, z := element.baseZ,
      direction := element.direction } ALL_DIRECTIONS s
  obtain ⟨calls1, g1, g2⟩ := mazeLoop_calls_fromEnv env a
    { x := (tile.x : Int) * 32, y := (tile.y : Int) * 32, z := element.baseZ,
      direction := element.direction } ALL_DIRECTIONS s
  rw [← hvisit] at h1 h2 g1
  have hc0 : calls = calls0 := by rw [hcalls, h1]; simp
  have hc1 : calls1 = calls0 := by
    rw [h1] at g1
    exact (List.append_cancel_left g1).symm
  rw [hc1] at g2
  rw [← hc0] at h1 h2 h3 h4 h5 h6 g2
  have hlen4 : calls.length ≤ 4 := by
    have := h3.length_le
    simpa [ALL_DIRECTIONS] using this
  have hadded : ∀ l : List NestedCall, (∀ c ∈ l, c ∈ calls) →
      (∀ c ∈ l, c.result.Error = Status.Ok ∧ c.result.Cost ≠ MONEY32_UNDEFINED) →
      ∀ c ∈ l, c.added = true := fun l hl hok c hc => (h4 c (hl c hc)).mpr (hok c hc)
  refine ⟨?_, h1, ?_, hlen4, ?_, g2, h4, ?_, ?_⟩
  · conv_lhs => unfold RideDemolishAction.demolishLoop
    simp only [hnext, htype, hride, hmaze, hvisit, ne_eq, not_true_eq_false, if_false]
  · cases hcs : calls with
    | nil =>
      rw [hcs] at h6
      obtain ⟨c, hc, _⟩ := h6 (by simp [ALL_DIRECTIONS])
      simp at hc
    | cons c cs => simp
  · simpa [ALL_DIRECTIONS, mazeActionAt, DirOffsets] using h3
  · intro k c hk hfail
    have hmem : c ∈ calls := List.get?_mem hk
    have hnot : c.added = false := by
      cases hadd : c.added with
      | false => rfl
      | true => exact absurd ((h4 c hmem).mp hadd) hfail
    have hlen := h5 k c hk hnot
    have htake : ∀ c1 ∈ calls.take k,
        c1.result.Error = Status.Ok ∧ c1.result.Cost ≠ MONEY32_UNDEFINED := by
      intro c1 hc1
      obtain ⟨j, hj, hget⟩ := List.getElem_of_mem hc1
      have hjk : j < k := by
        have := hj
        simp only [List.length_take] at this
        omega
      have hj2 : j < calls.length := by omega
      have hget2 : calls.get? j = some c1 := by
        rw [List.getElem_take] at hget
        rw [List.get?_eq_getElem?, List.getElem?_eq_getElem hj2, hget]
      apply (h4 c1 (List.mem_of_mem_take hc1)).mp
      cases hadd : c1.added with
      | true => rfl
      | false =>
        have := h5 j c1 hget2 hadd
        omega
    refine ⟨hlen, htake, ?_⟩
    have hsplit := eq_take_append_of_get? calls k c hk hlen
    rw [h2]
    conv_lhs => rw [hsplit]
    rw [addRefunds_snoc_failed _ c hnot]
    exact addRefunds_of_added _
      (hadded _ (fun c1 h1 => List.mem_of_mem_take h1) htake) _
  · intro hall
    have hall' := hadded calls (fun c hc => hc) hall
    constructor
    · by_contra hne
      have hlt : calls.length < ALL_DIRECTIONS.length := by
        simp only [ALL_DIRECTIONS, List.length_cons, List.length_nil]
        omega
      obtain ⟨c, hc, hfalse⟩ := h6 hlt
      have hmem : c ∈ calls := List.mem_of_getLast?_eq_some hc
      rw [hall' c hmem] at hfalse
      cases hfalse
    · rw [h2]
      exact addRefunds_of_added _ hall' _

theorem maze_visit_order_witness :
    tile_element_iterator_next mazeStart.world { tile := 1, element := some 0 }
        = IteratorStep.found { tile := 1, element := some 1 } mazeTile mazeElement
    ∧ mazeElement.type = TILE_ELEMENT_TYPE_TRACK
    ∧ mazeElement.rideIndex = demolishAction.rideIndex
    ∧ mazeElement.trackType = TrackElemType_Maze
    ∧ failedVisit.refundPrice = -20
    ∧ failedVisit.trace.map (fun c => (c.action.flags, c.added, c.result.Error, c.result.Cost))
        = [(64, true, Status.Ok, -10), (64, true, Status.Ok, -10), (64, false, Status.NotOwned, 0)]
    ∧ (failedVisit.trace.drop mazeStart.trace.length).length = 2 + 1
    ∧ failedVisit.refundPrice
        = addAll mazeStart.refundPrice ((failedVisit.trace.drop mazeStart.trace.length).take 2) := by
  have h := maze_visit_order (mazeFailsAtEnv 2) demolishAction 5 { tile := 1, element := some 0 }
    { tile := 1, element := some 1 } mazeStart mazeTile mazeElement failedVisit
    (failedVisit.trace.drop mazeStart.trace.length)
    (by decide) (by decide) (by decide) (by decide) rfl rfl
  obtain ⟨_, _, _, _, _, _, _, hk, _⟩ := h
  have hk2 := hk 2
    { action := mazeActionAt demolishAction { x := 32, y := 0, z := 16, direction := 0 } 2
      result := { Error := Status.NotOwned }, added := false }
    (by decide) (by decide)
  exact ⟨by decide, by decide, by decide, by decide, by decide, by decide, hk2.1, hk2.2.2⟩

/-! ## Termination of the demolition of the track -/

theorem mazeLoop_failsEnv_world (k : Nat) (a : RideDemolishAction) (location : CoordsXYZD) :
    ∀ (dirs : List Nat) (s : TrackState),
      (RideDemolishAction.mazeLoop (mazeFailsAtEnv k) a location dirs s).world = s.world := by
  intro dirs
  induction dirs with
  | nil => intro s; rfl
  | cons dir rest ih =>
    intro s
    unfold RideDemolishAction.mazeLoop
    simp only
    have hw : ∀ c, (RideDemolishAction.MazeRemoveTrack (mazeFailsAtEnv k) a c s.world).world
        = s.world := by
      intro c
      unfold RideDemolishAction.MazeRemoveTrack mazeFailsAtEnv
      simp only
      split <;> split <;> rfl
    split
    · rw [ih]
      exact hw _
    · exact hw _

theorem demolishLoop_mazeWorld_none (k : Nat) :
    ∀ (fuel : Nat) (s : TrackState), s.world.tiles = mazeWorld.tiles →
      RideDemolishAction.demolishLoop (mazeFailsAtEnv k) demolishAction fuel
          { tile := 0, element := none } s = none
      ∧ RideDemolishAction.demolishLoop (mazeFailsAtEnv k) demolishAction fuel
          { tile := 0, element := some 0 } s = none
      ∧ RideDemolishAction.demolishLoop (mazeFailsAtEnv k) demolishAction fuel
          { tile := 1, element := none } s = none
      ∧ RideDemolishAction.demolishLoop (mazeFailsAtEnv k) demolishAction fuel
          { tile := 1, element := some 0 } s = none := by
  intro fuel
  induction fuel with
  | zero =>
    intro s _
    exact ⟨rfl, rfl, rfl, rfl⟩
  | succ fuel ih =>
    intro s hs
    obtain ⟨i1, i2, i3, i4⟩ := ih s hs
    refine ⟨?_, ?_, ?_, ?_⟩
    · unfold RideDemolishAction.demolishLoop tile_element_iterator_next
      rw [hs]
      simpa [mazeWorld, TILE_ELEMENT_TYPE_TRACK] using i2
    · unfold RideDemolishAction.demolishLoop tile_element_iterator_next
      rw [hs]
      simpa [mazeWorld] using i3
    · unfold RideDemolishAction.demolishLoop tile_element_iterator_next
      rw [hs]
      simpa [mazeWorld, TILE_ELEMENT_TYPE_TRACK] using i4
    · unfold RideDemolishAction.demolishLoop tile_element_iterator_next
      rw [hs]
      have hm := (ih (RideDemolishAction.mazeLoop (mazeFailsAtEnv k) demolishAction
        { x := 32, y := 0, z := 16, direction := 0 } ALL_DIRECTIONS s)
        (by rw [mazeLoop_failsEnv_world]; exact hs)).2.2.1
      simpa [mazeWorld, TILE_ELEMENT_TYPE_TRACK, TrackElemType_Maze, demolishAction,
        tile_element_iterator_restart_for_tile] using hm

/-- C7: in `mazeWorld` the ride has one maze tile; when the nested maze removal for
direction 0 is refused, `DemolishTracks` does not return, whatever the number of turns of its
loop: the maze element stays, and the restart of the tile reads it again. -/
theorem demolishTracks_never_returns_when_maze_removal_fails :
    ∀ fuel, RideDemolishAction.DemolishTracks (mazeFailsAtEnv 0) demolishAction fuel mazeWorld
      = none := by
  intro fuel
  unfold RideDemolishAction.DemolishTracks tile_element_iterator_begin
  simp only
  rw [(demolishLoop_mazeWorld_none 0 fuel _ rfl).1]

/-! ## Execute after Query for the demolition -/

theorem query_ok_of_unknown_modify_type (env : Env) (a : RideDemolishAction) (w : World)
    (ride : Ride) (hride : get_ride w a.rideIndex = some ride)
    (h0 : a.modifyType ≠ RIDE_MODIFY_DEMOLISH) (h1 : a.modifyType ≠ RIDE_MODIFY_RENEW) :
    RideDemolishAction.Query env a w = {} := by
  simp only [RideDemolishAction.Query, hride, h0, h1, and_false, if_false]

theorem execute_invalid_of_unknown_modify_type (env : Env) (a : RideDemolishAction) (w : World)
    (ride : Ride) (fuel : Nat) (hride : get_ride w a.rideIndex = some ride)
    (h0 : a.modifyType ≠ RIDE_MODIFY_DEMOLISH) (h1 : a.modifyType ≠ RIDE_MODIFY_RENEW) :
    RideDemolishAction.Execute env a fuel w
      = some (MakeResult2 Status.InvalidParameters StringId.STR_CANT_DO_THIS, w, []) := by
  simp only [RideDemolishAction.Execute, hride, h0, h1, if_false]

theorem execute_ok_of_known_modify_type (env : Env) (a : RideDemolishAction) (w : World)
    (ride : Ride) (fuel : Nat) (out : Result × World × List NestedCall)
    (hride : get_ride w a.rideIndex = some ride)
    (hmode : a.modifyType = RIDE_MODIFY_DEMOLISH ∨ a.modifyType = RIDE_MODIFY_RENEW)
    (hrun : RideDemolishAction.Execute env a fuel w = some out) :
    out.1.Error = Status.Ok := by
  unfold RideDemolishAction.Execute at hrun
  rw [hride] at hrun
  simp only at hrun
  rcases hmode with hmode | hmode
  · rw [if_pos hmode] at hrun
    obtain ⟨_, _, _, _, _, hok, _, _⟩ := demolishRide_some env a fuel w out hrun
    exact hok
  · have hne : ¬ a.modifyType = RIDE_MODIFY_DEMOLISH := by rw [hmode]; decide
    rw [if_neg hne, if_pos hmode] at hrun
    simp only [Option.some.injEq] at hrun
    subst hrun
    unfold RideDemolishAction.RefurbishRide
    simp only
    split <;> rfl

/-- C1: for the existing ride 0 and the modify type 2, `Query` returns `Ok` and `Execute`, on
the same world, returns `InvalidParameters`. -/
theorem query_ok_but_execute_invalid_for_unknown_modify_type :
    (RideDemolishAction.Query sampleEnv { rideIndex := 0, modifyType := 2 } sampleWorld).Error
        = Status.Ok
    ∧ ∀ fuel, ∃ out,
        RideDemolishAction.Execute sampleEnv { rideIndex := 0, modifyType := 2 } fuel sampleWorld
          = some out
        ∧ out.1.Error = Status.InvalidParameters :=
  ⟨by decide, fun _ => ⟨_, rfl, rfl⟩⟩

/-! ## The refund of a banner -/

theorem tdiv4_bounds (x : Int) :
    (0 ≤ x → 0 ≤ Int.tdiv x 4 ∧ Int.tdiv x 4 ≤ x)
    ∧ (x ≤ 0 → x ≤ Int.tdiv x 4 ∧ Int.tdiv x 4 ≤ 0) := by
  constructor
  · intro h
    rw [Int.tdiv_eq_ediv h (by decide)]
    omega
  · intro h
    have h2 : Int.tdiv x 4 = -(Int.tdiv (-x) 4) := by
      rw [Int.neg_tdiv, Int.neg_neg]
    rw [h2, Int.tdiv_eq_ediv (by omega) (by decide)]
    omega

theorem bannerRefund_of_int16 (p : Int) (hlo : -32768 ≤ p) (hhi : p ≤ 32767) :
    wrap32 (p * 3) = p * 3
    ∧ bannerRefund p = -(Int.tdiv (3 * p) 4)
    ∧ INT32_MIN ≤ -(Int.tdiv (3 * p) 4) ∧ -(Int.tdiv (3 * p) 4) ≤ INT32_MAX := by
  have h3 : wrap32 (p * 3) = p * 3 := by
    apply wrap32_of_range <;> (first | unfold INT32_MIN | unfold INT32_MAX) <;> omega
  have hb := tdiv4_bounds (p * 3)
  have hr : INT32_MIN ≤ -(Int.tdiv (p * 3) 4) ∧ -(Int.tdiv (p * 3) 4) ≤ INT32_MAX := by
    unfold INT32_MIN INT32_MAX
    rcases Int.le_total 0 (p * 3) with h | h
    · have := hb.1 h
      omega
    · have := hb.2 h
      omega
  have hm : 3 * p = p * 3 := by ring
  refine ⟨h3, ?_, ?_, ?_⟩
  · unfold bannerRefund
    rw [h3, wrap32_of_range _ hr.1 hr.2, hm]
  · rw [hm]; exact hr.1
  · rw [hm]; exact hr.2

/-- C11: when the action finds a banner whose scenery entry exists with a 16-bit signed price
`p`, the cost of a successful `Query` and the cost that `Execute` reports are `-((3 * p) / 4)`
with the division truncating toward zero; the product and the refund lie in the 32-bit range,
so nothing overflows; and for `p ≥ 0` the cost `c` satisfies `-p ≤ c ≤ 0`. -/
theorem banner_refund_three_quarters (env : Env) (a : BannerRemoveAction) (w : World)
    (found : Nat × Nat × TileElement) (banner : Banner) (p : Int)
    (hfound : BannerRemoveAction.GetBannerElementAt a w = some found)
    (hbanner : GetBanner w found.2.2.bannerIndex = some banner)
    (hentry : env.get_banner_entry_price banner.type = some p)
    (hlo : -32768 ≤ p) (hhi : p ≤ 32767) :
    ((BannerRemoveAction.Query env a w).Error = Status.Ok →
        (BannerRemoveAction.Query env a w).Cost = -(Int.tdiv (3 * p) 4))
    ∧ ((BannerRemoveAction.Execute env a w).1.Error = Status.Ok →
        (BannerRemoveAction.Execute env a w).1.Cost = -(Int.tdiv (3 * p) 4))
    ∧ wrap32 (p * 3) = p * 3
    ∧ INT32_MIN ≤ -(Int.tdiv (3 * p) 4) ∧ -(Int.tdiv (3 * p) 4) ≤ INT32_MAX
    ∧ (0 ≤ p → -p ≤ -(Int.tdiv (3 * p) 4) ∧ -(Int.tdiv (3 * p) 4) ≤ 0) := by
  obtain ⟨h1, h2, h3, h4⟩ := bannerRefund_of_int16 p hlo hhi
  refine ⟨?_, ?_, h1, h3, h4, ?_⟩
  · intro hok
    unfold BannerRemoveAction.Query at hok ⊢
    simp only [hfound, hbanner, hentry] at hok ⊢
    split at hok
    · simp [MakeResult3] at hok
    · rename_i hown
      simp only [if_neg hown] at hok ⊢
      split at hok
      · simp [MakeResult2] at hok
      · rename_i hidx
        simp only [if_neg hidx]
        exact h2
  · intro hok
    unfold BannerRemoveAction.Execute at hok ⊢
    simp only [hfound, hbanner, hentry] at hok ⊢
    split at hok
    · simp [MakeResult2] at hok
    · rename_i hidx
      simp only [if_neg hidx]
      exact h2
  · intro hp
    rw [Int.tdiv_eq_ediv (by omega) (by decide)]
    omega

theorem banner_refund_three_quarters_witness :
    BannerRemoveAction.GetBannerElementAt bannerAction bannerWorld
        = some (0, 1, { type := TILE_ELEMENT_TYPE_BANNER, baseZ := 16, position := 2, bannerIndex := 0 })
    ∧ GetBanner bannerWorld 0 = some { type := 3 }
    ∧ sampleEnv.get_banner_entry_price 3 = some 30
    ∧ (BannerRemoveAction.Query sampleEnv bannerAction bannerWorld).Error = Status.Ok
    ∧ ((BannerRemoveAction.Query sampleEnv bannerAction bannerWorld).Error = Status.Ok →
        (BannerRemoveAction.Query sampleEnv bannerAction bannerWorld).Cost = -(Int.tdiv (3 * 30) 4)) :=
  ⟨by decide, by decide, rfl, by decide,
    (banner_refund_three_quarters sampleEnv bannerAction bannerWorld
      (0, 1, { type := TILE_ELEMENT_TYPE_BANNER, baseZ := 16, position := 2, bannerIndex := 0 })
      { type := 3 } 30 (by decide) (by decide) rfl (by decide) (by decide)).1⟩

/-! ## Banner removal: the classification of Query -/

theorem banner_query_cases (env : Env) (a : BannerRemoveAction) (w : World) :
    ((env.LocationValid a.loc = false
          ∨ env.map_can_build_at w { x := a.loc.x, y := a.loc.y, z := a.loc.z - 16 } = false)
        ∧ BannerRemoveAction.Query env a w
            = MakeResult3 Status.NotOwned StringId.STR_CANT_REMOVE_THIS
                StringId.STR_LAND_NOT_OWNED_BY_PARK)
    ∨ (¬ (env.LocationValid a.loc = false
          ∨ env.map_can_build_at w { x := a.loc.x, y := a.loc.y, z := a.loc.z - 16 } = false)
        ∧ (BannerRemoveAction.GetBannerElementAt a w = none
            ∨ ∃ found, BannerRemoveAction.GetBannerElementAt a w = some found
                ∧ (found.2.2.bannerIndex ≥ MAX_BANNERS
                    ∨ found.2.2.bannerIndex = BANNER_INDEX_NULL
                    ∨ GetBanner w found.2.2.bannerIndex = none))
        ∧ BannerRemoveAction.Query env a w
            = MakeResult2 Status.InvalidParameters StringId.STR_CANT_REMOVE_THIS)
    ∨ (¬ (env.LocationValid a.loc = false
          ∨ env.map_can_build_at w { x := a.loc.x, y := a.loc.y, z := a.loc.z - 16 } = false)
        ∧ ¬ (BannerRemoveAction.GetBannerElementAt a w = none
            ∨ ∃ found, BannerRemoveAction.GetBannerElementAt a w = some found
                ∧ (found.2.2.bannerIndex ≥ MAX_BANNERS
                    ∨ found.2.2.bannerIndex = BANNER_INDEX_NULL
                    ∨ GetBanner w found.2.2.bannerIndex = none))
        ∧ (BannerRemoveAction.Query env a w).Error = Status.Ok) := by
  unfold BannerRemoveAction.Query
  simp only
  by_cases hown : (!env.LocationValid a.loc) = true
      ∨ (!env.map_can_build_at w { x := a.loc.x, y := a.loc.y, z := a.loc.z - 16 }) = true
  · rw [if_pos hown]
    left
    exact ⟨by simpa using hown, rfl⟩
  · rw [if_neg hown]
    right
    have hown' : ¬ (env.LocationValid a.loc = false
        ∨ env.map_can_build_at w { x := a.loc.x, y := a.loc.y, z := a.loc.z - 16 } = false) := by
      simpa using hown
    cases hfound : BannerRemoveAction.GetBannerElementAt a w with
    | none =>
      left
      exact ⟨hown', Or.inl rfl, rfl⟩
    | some found =>
      simp only
      by_cases hidx : found.2.2.bannerIndex ≥ MAX_BANNERS ∨ found.2.2.bannerIndex = BANNER_INDEX_NULL
      · rw [if_pos hidx]
        left
        refine ⟨hown', Or.inr ⟨found, rfl, ?_⟩, rfl⟩
        tauto
      · rw [if_neg hidx]
        cases hbanner : GetBanner w found.2.2.bannerIndex with
        | none =>
          left
          exact ⟨hown', Or.inr ⟨found, rfl, Or.inr (Or.inr hbanner)⟩, rfl⟩
        | some banner =>
          right
          refine ⟨hown', ?_, ?_⟩
          · rintro (h | ⟨f, hf, hbad⟩)
            · cases h
            · simp only [Option.some.injEq] at hf
              subst hf
              rcases hbad with h | h | h
              · exact hidx (Or.inl h)
              · exact hidx (Or.inr h)
              · rw [hbanner] at h
                cases h
          · simp only
            cases env.get_banner_entry_price banner.type <;> rfl

theorem banner_query_classification (env : Env) (a : BannerRemoveAction) (w : World) :
    ((BannerRemoveAction.Query env a w).Error = Status.NotOwned ↔
        (env.LocationValid a.loc = false
          ∨ env.map_can_build_at w { x := a.loc.x, y := a.loc.y, z := a.loc.z - 16 } = false))
    ∧ ((BannerRemoveAction.Query env a w).Error = Status.InvalidParameters ↔
        (¬ (env.LocationValid a.loc = false
              ∨ env.map_can_build_at w { x := a.loc.x, y := a.loc.y, z := a.loc.z - 16 } = false)
          ∧ (BannerRemoveAction.GetBannerElementAt a w = none
              ∨ ∃ found, BannerRemoveAction.GetBannerElementAt a w = some found
                  ∧ (found.2.2.bannerIndex ≥ MAX_BANNERS
                      ∨ found.2.2.bannerIndex = BANNER_INDEX_NULL
                      ∨ GetBanner w found.2.2.bannerIndex = none))))
    ∧ ((BannerRemoveAction.Query env a w).Error = Status.NotOwned
        ∨ (BannerRemoveAction.Query env a w).Error = Status.InvalidParameters
        ∨ (BannerRemoveAction.Query env a w).Error = Status.Ok)
    ∧ ((BannerRemoveAction.Query env a w).Error = Status.NotOwned →
        (BannerRemoveAction.Query env a w).ErrorTitle = StringId.STR_CANT_REMOVE_THIS)
    ∧ ((BannerRemoveAction.Query env a w).Error = Status.InvalidParameters →
        (BannerRemoveAction.Query env a w).ErrorTitle = StringId.STR_NONE
        ∧ (BannerRemoveAction.Query env a w).ErrorMessage = StringId.STR_CANT_REMOVE_THIS) := by
  rcases banner_query_cases env a w with ⟨h1, hq⟩ | ⟨h1, h2, hq⟩ | ⟨h1, h2, hq⟩
  · rw [hq]
    refine ⟨⟨fun _ => h1, fun _ => rfl⟩, ⟨fun h => ?_, fun h => absurd h1 h.1⟩, Or.inl rfl,
      fun _ => rfl, fun h => ?_⟩
    · simp [MakeResult3] at h
    · simp [MakeResult3] at h
  · rw [hq]
    refine ⟨⟨fun h => ?_, fun h => absurd h h1⟩, ⟨fun _ => ⟨h1, h2⟩, fun _ => rfl⟩,
      Or.inr (Or.inl rfl), fun h => ?_, fun _ => ⟨rfl, rfl⟩⟩
    · simp [MakeResult2] at h
    · simp [MakeResult2] at h
  · rw [hq]
    refine ⟨⟨fun h => ?_, fun h => absurd h h1⟩, ⟨fun h => ?_, fun h => absurd h.2 h2⟩,
      Or.inr (Or.inr rfl), fun h => ?_, fun h => ?_⟩ <;> cases h

/-- C14: on a world without any banner, `BannerRemoveAction::Query` for a valid, buildable
location rejects with `InvalidParameters`, and the result carries `STR_CANT_REMOVE_THIS` as its
message while its title is `STR_NONE`. -/
theorem banner_query_rejection_without_title :
    (BannerRemoveAction.Query sampleEnv bannerAction sampleWorld).Error = Status.InvalidParameters
    ∧ (BannerRemoveAction.Query sampleEnv bannerAction sampleWorld).ErrorTitle = StringId.STR_NONE
    ∧ (BannerRemoveAction.Query sampleEnv bannerAction sampleWorld).ErrorMessage
        = StringId.STR_CANT_REMOVE_THIS
    ∧ (BannerRemoveAction.Query sampleEnv bannerAction sampleWorld).ErrorTitle
        ≠ StringId.STR_CANT_REMOVE_THIS := by
  decide

/-! ## Ride demolition: the protection flags -/

theorem lor_eq_zero (p q : Nat) : (p ||| q) = 0 ↔ p = 0 ∧ q = 0 := by
  constructor
  · intro h
    have hb : ∀ i, (p.testBit i || q.testBit i) = false := by
      intro i
      rw [← Nat.testBit_or, h, Nat.zero_testBit]
    constructor
    · apply Nat.eq_of_testBit_eq
      intro i
      have := hb i
      rw [Nat.zero_testBit]
      cases hp : p.testBit i <;> simp [hp] at this ⊢
    · apply Nat.eq_of_testBit_eq
      intro i
      have := hb i
      rw [Nat.zero_testBit]
      cases hq : q.testBit i <;> simp [hq] at this ⊢
  · rintro ⟨rfl, rfl⟩
    rfl

theorem protection_flags_test (flags : Nat) :
    (flags &&& (RIDE_LIFECYCLE_INDESTRUCTIBLE ||| RIDE_LIFECYCLE_INDESTRUCTIBLE_TRACK)) ≠ 0
      ↔ ((flags &&& RIDE_LIFECYCLE_INDESTRUCTIBLE) ≠ 0
          ∨ (flags &&& RIDE_LIFECYCLE_INDESTRUCTIBLE_TRACK) ≠ 0) := by
  rw [Nat.and_or_distrib_left, Ne, lor_eq_zero]
  tauto

/-- C15: `RideDemolishAction::Query` returns `NoClearance` exactly when the ride exists, the
mode is `RIDE_MODIFY_DEMOLISH` and the ride has `RIDE_LIFECYCLE_INDESTRUCTIBLE` or
`RIDE_LIFECYCLE_INDESTRUCTIBLE_TRACK` set; in refurbish mode the status is `Ok` exactly when
the ride is closed or simulating, has no riders, has been opened before and can break down,
whatever the two protection flags are; and a missing ride yields `InvalidParameters` in every
mode. -/
theorem query_noClearance_iff (env : Env) (a : RideDemolishAction) (w : World) :
    ((RideDemolishAction.Query env a w).Error = Status.NoClearance ↔
        ∃ ride, get_ride w a.rideIndex = some ride
          ∧ a.modifyType = RIDE_MODIFY_DEMOLISH
          ∧ ((ride.lifecycle_flags &&& RIDE_LIFECYCLE_INDESTRUCTIBLE) ≠ 0
              ∨ (ride.lifecycle_flags &&& RIDE_LIFECYCLE_INDESTRUCTIBLE_TRACK) ≠ 0))
    ∧ (∀ ride, get_ride w a.rideIndex = some ride → a.modifyType = RIDE_MODIFY_RENEW →
        ((RideDemolishAction.Query env a w).Error = Status.Ok ↔
          ((ride.status = RIDE_STATUS_CLOSED ∨ ride.status = RIDE_STATUS_SIMULATING)
            ∧ ride.num_riders = 0
            ∧ (ride.lifecycle_flags &&& RIDE_LIFECYCLE_EVER_BEEN_OPENED) ≠ 0
            ∧ env.AvailableBreakdowns ride.type ≠ 0)))
    ∧ (get_ride w a.rideIndex = none →
        (RideDemolishAction.Query env a w).Error = Status.InvalidParameters) := by
  refine ⟨?_, ?_, ?_⟩
  · constructor
    · intro h
      unfold RideDemolishAction.Query at h
      cases hride : get_ride w a.rideIndex with
      | none => simp [hride, MakeResult3] at h
      | some ride =>
        simp only [hride] at h
        split at h
        · rename_i hc
          exact ⟨ride, rfl, hc.2, (protection_flags_test _).mp hc.1⟩
        · exfalso
          split at h
          · split at h
            · simp [MakeResult3] at h
            · split at h
              · simp [MakeResult3] at h
              · split at h
                · simp [MakeResult3] at h
                · simp at h
          · simp at h
    · rintro ⟨ride, hride, hmode, hflags⟩
      unfold RideDemolishAction.Query
      simp only [hride]
      rw [if_pos ⟨(protection_flags_test _).mpr hflags, hmode⟩]
      rfl
  · intro ride hride hmode
    rw [query_of_ride env a w ride hride hmode]
    constructor
    · intro hok
      split at hok
      · simp [MakeResult3] at hok
      · split at hok
        · simp [MakeResult3] at hok
        · split at hok
          · simp [MakeResult3] at hok
          · rename_i h1 h2 h3
            refine ⟨?_, by omega, fun hz => h3 (Or.inl hz), fun hz => h3 (Or.inr hz)⟩
            by_contra hc
            exact h1 ⟨fun h => hc (Or.inl h), fun h => hc (Or.inr h)⟩
    · rintro ⟨hst, hr, hopen, hbr⟩
      have h1 : ¬ (ride.status ≠ RIDE_STATUS_CLOSED ∧ ride.status ≠ RIDE_STATUS_SIMULATING) := by
        rintro ⟨hA, hB⟩
        rcases hst with h | h
        · exact hA h
        · exact hB h
      have h2 : ¬ ride.num_riders > 0 := by omega
      have h3 : ¬ ((ride.lifecycle_flags &&& RIDE_LIFECYCLE_EVER_BEEN_OPENED) = 0
          ∨ env.AvailableBreakdowns ride.type = 0) := by
        rintro (h | h)
        · exact hopen h
        · exact hbr h
      rw [if_neg h1, if_neg h2, if_neg h3]
  · intro hnone
    unfold RideDemolishAction.Query
    simp only [hnone]
    rfl

theorem query_noClearance_iff_witness :
    (RideDemolishAction.Query sampleEnv { rideIndex := 0, modifyType := RIDE_MODIFY_DEMOLISH }
        protectedWorld).Error = Status.NoClearance
    ∧ (RideDemolishAction.Query sampleEnv { rideIndex := 0, modifyType := RIDE_MODIFY_RENEW }
        protectedWorld).Error = Status.Ok
    ∧ (RideDemolishAction.Query sampleEnv { rideIndex := 4, modifyType := RIDE_MODIFY_RENEW }
        protectedWorld).Error = Status.InvalidParameters :=
  ⟨(query_noClearance_iff sampleEnv { rideIndex := 0, modifyType := RIDE_MODIFY_DEMOLISH }
      protectedWorld).1.mpr ⟨protectedRide, by decide, by decide, Or.inl (by decide)⟩,
    by decide, by decide⟩

/-! ## Banner removal: the element found -/

theorem scan_spec (a : BannerRemoveAction) :
    ∀ (l : List TileElement) (i : Nat),
      (BannerRemoveAction.scan a l i = none ↔ ∀ el ∈ l, ¬ BannerRemoveAction.isTarget a el)
      ∧ (∀ k el, BannerRemoveAction.scan a l i = some (k, el) →
          i ≤ k ∧ l.get? (k - i) = some el ∧ BannerRemoveAction.isTarget a el
          ∧ ∀ j e', j < k - i → l.get? j = some e' → ¬ BannerRemoveAction.isTarget a e') := by
  intro l
  induction l with
  | nil =>
    intro i
    simp [BannerRemoveAction.scan]
  | cons x rest ih =>
    intro i
    by_cases hx : BannerRemoveAction.isTarget a x
    · have hscan : BannerRemoveAction.scan a (x :: rest) i = some (i, x) := by
        obtain ⟨h1, h2, h3, h4⟩ := hx
        unfold BannerRemoveAction.scan
        have hg : ¬ (x.ghost = true ∧ (a.flags &&& GAME_COMMAND_FLAG_GHOST) = 0) := by
          rintro ⟨hg1, hg2⟩
          exact h4 hg1 hg2
        simp only [h1, h2, h3, hg, ne_eq, not_true_eq_false, if_false]
      rw [hscan]
      constructor
      · constructor
        · intro h; cases h
        · intro h
          exact absurd hx (h x (List.mem_cons_self x rest))
      · intro k el hk
        simp only [Option.some.injEq, Prod.mk.injEq] at hk
        obtain ⟨rfl, rfl⟩ := hk
        refine ⟨Nat.le_refl _, by simp, hx, ?_⟩
        intro j e' hj
        omega
    · have hscan : BannerRemoveAction.scan a (x :: rest) i
          = BannerRemoveAction.scan a rest (i + 1) := by
        conv_lhs => unfold BannerRemoveAction.scan
        by_cases h1 : x.type ≠ TILE_ELEMENT_TYPE_BANNER
        · rw [if_pos h1]
        · rw [if_neg h1]
          by_cases h2 : x.baseZ ≠ a.loc.z
          · rw [if_pos h2]
          · rw [if_neg h2]
            by_cases h3 : x.ghost = true ∧ (a.flags &&& GAME_COMMAND_FLAG_GHOST) = 0
            · rw [if_pos h3]
            · rw [if_neg h3]
              by_cases h4 : x.position ≠ a.loc.direction
              · rw [if_pos h4]
              · exfalso
                apply hx
                refine ⟨not_not.mp h1, not_not.mp h2, not_not.mp h4, ?_⟩
                intro hg hf
                exact h3 ⟨hg, hf⟩
      rw [hscan]
      obtain ⟨ih1, ih2⟩ := ih (i + 1)
      constructor
      · rw [ih1]
        constructor
        · intro h el hel
          rcases List.mem_cons.mp hel with rfl | hel
          · exact hx
          · exact h el hel
        · intro h el hel
          exact h el (List.mem_cons_of_mem x hel)
      · intro k el hk
        obtain ⟨h1, h2, h3, h4⟩ := ih2 k el hk
        have hki : k - i = (k - (i + 1)) + 1 := by omega
        refine ⟨by omega, ?_, h3, ?_⟩
        · rw [hki, List.get?_cons_succ]
          exact h2
        · intro j e' hj hje
          cases j with
          | zero =>
            simp only [List.get?_cons_zero, Option.some.injEq] at hje
            subst hje
            exact hx
          | succ j =>
            rw [List.get?_cons_succ] at hje
            exact h4 j e' (by omega) hje

theorem getBannerElementAt_eq (a : BannerRemoveAction) (w : World) :
    (BannerRemoveAction.GetBannerElementAt a w).map (fun found => found.2)
      = BannerRemoveAction.scan a (tileElementsAt w a.loc.x a.loc.y) 0 := by
  unfold BannerRemoveAction.GetBannerElementAt tileElementsAt
  cases tileIndexAt w a.loc.x a.loc.y with
  | none => rfl
  | some t =>
    simp only
    cases w.tiles.get? t with
    | none => rfl
    | some tile =>
      simp only
      cases BannerRemoveAction.scan a tile.elements 0 with
      | none => rfl
      | some found => rfl

/-- C18: `GetBannerElementAt` returns the first element of the tile at `(x, y)` that is a
banner element whose base height is the `z` of the action, whose position is the direction of
the action and which is not a ghost unless the action carries `GAME_COMMAND_FLAG_GHOST`; it
returns null exactly when no element of the tile meets the conditions; and an action without
the ghost flag never selects a ghost banner. -/
theorem getBannerElementAt_first_target (a : BannerRemoveAction) (w : World) :
    (BannerRemoveAction.GetBannerElementAt a w = none ↔
        ∀ el ∈ tileElementsAt w a.loc.x a.loc.y, ¬ BannerRemoveAction.isTarget a el)
    ∧ (∀ found, BannerRemoveAction.GetBannerElementAt a w = some found →
        (tileElementsAt w a.loc.x a.loc.y).get? found.2.1 = some found.2.2
        ∧ BannerRemoveAction.isTarget a found.2.2
        ∧ ∀ j e', j < found.2.1 → (tileElementsAt w a.loc.x a.loc.y).get? j = some e' →
            ¬ BannerRemoveAction.isTarget a e')
    ∧ ((a.flags &&& GAME_COMMAND_FLAG_GHOST) = 0 →
        ∀ found, BannerRemoveAction.GetBannerElementAt a w = some found →
          found.2.2.ghost = false) := by
  have heq := getBannerElementAt_eq a w
  obtain ⟨s1, s2⟩ := scan_spec a (tileElementsAt w a.loc.x a.loc.y) 0
  have hfound : ∀ found, BannerRemoveAction.GetBannerElementAt a w = some found →
      BannerRemoveAction.scan a (tileElementsAt w a.loc.x a.loc.y) 0
        = some (found.2.1, found.2.2) := by
    intro found h
    rw [h] at heq
    exact heq.symm
  refine ⟨?_, ?_, ?_⟩
  · rw [← s1, ← heq]
    cases BannerRemoveAction.GetBannerElementAt a w <;> simp
  · intro found h
    obtain ⟨_, h2, h3, h4⟩ := s2 _ _ (hfound found h)
    exact ⟨h2, h3, h4⟩
  · intro hflag found h
    obtain ⟨_, _, h3, _⟩ := s2 _ _ (hfound found h)
    cases hg : found.2.2.ghost with
    | false => rfl
    | true => exact absurd hflag (h3.2.2.2 hg)

theorem getBannerElementAt_first_target_witness :
    (bannerAction.flags &&& GAME_COMMAND_FLAG_GHOST) = 0
    ∧ BannerRemoveAction.GetBannerElementAt bannerAction ghostBannerWorld
        = some (0, 2, { type := TILE_ELEMENT_TYPE_BANNER, baseZ := 16, position := 2, bannerIndex := 0 })
    ∧ BannerRemoveAction.GetBannerElementAt { bannerAction with flags := GAME_COMMAND_FLAG_GHOST }
        ghostBannerWorld
        = some (0, 1, { type := TILE_ELEMENT_TYPE_BANNER, baseZ := 16, position := 2, bannerIndex := 1,
                        ghost := true })
    ∧ (∀ found, BannerRemoveAction.GetBannerElementAt bannerAction ghostBannerWorld = some found →
          found.2.2.ghost = false) :=
  ⟨by decide, by decide, by decide,
    (getBannerElementAt_first_target bannerAction ghostBannerWorld).2.2 (by decide)⟩

/-! ## Refurbishment: no repetition -/

theorem get_ride_set_ride (w : World) (index : Nat) (ride ride' : Ride)
    (h : get_ride w index = some ride) : get_ride (set_ride w index ride') index = some ride' := by
  unfold get_ride at h ⊢
  by_cases hlt : index < MAX_RIDES
  · rw [if_pos hlt] at h ⊢
    have hlen : index < w.rides.length := by
      by_contra hc
      rw [List.get?_eq_none.mpr (by omega)] at h
      cases h
    unfold set_ride
    simp only [List.get?_eq_getElem?, List.getElem?_set, hlen, if_true]
    rfl
  · rw [if_neg hlt] at h
    cases h

theorem clear_ever_been_opened (flags : Nat) :
    (flags &&& (UINT32_MASK ^^^ RIDE_LIFECYCLE_EVER_BEEN_OPENED))
      &&& RIDE_LIFECYCLE_EVER_BEEN_OPENED = 0 := by
  rw [Nat.and_assoc]
  have : (UINT32_MASK ^^^ RIDE_LIFECYCLE_EVER_BEEN_OPENED) &&& RIDE_LIFECYCLE_EVER_BEEN_OPENED = 0 := by
    decide
  rw [this, Nat.and_zero]

theorem refurbishRide_world (env : Env) (a : RideDemolishAction) (ride : Ride) (w : World) :
    (RideDemolishAction.RefurbishRide env a ride w).2
      = set_ride w a.rideIndex
          { env.Renew ride with
            lifecycle_flags :=
              (env.Renew ride).lifecycle_flags &&& (UINT32_MASK ^^^ RIDE_LIFECYCLE_EVER_BEEN_OPENED)
            last_crash_type := RIDE_CRASH_TYPE_NONE
            window_invalidate_flags :=
              (env.Renew ride).window_invalidate_flags
                ||| (RIDE_INVALIDATE_RIDE_MAINTENANCE ||| RIDE_INVALIDATE_RIDE_CUSTOMER) } := by
  unfold RideDemolishAction.RefurbishRide
  simp only
  split <;> rfl

/-- C19: `RefurbishRide` leaves the ride in its slot with `RIDE_LIFECYCLE_EVER_BEEN_OPENED`
clear and `last_crash_type` equal to `RIDE_CRASH_TYPE_NONE`, and every refurbish-mode `Query`
for that ride on the world that `RefurbishRide` leaves returns `Disallowed`. -/
theorem refurbish_not_repeatable (env : Env) (a b : RideDemolishAction) (w : World) (ride : Ride)
    (hride : get_ride w a.rideIndex = some ride)
    (hsame : b.rideIndex = a.rideIndex) (hmode : b.modifyType = RIDE_MODIFY_RENEW) :
    ∃ after, get_ride (RideDemolishAction.RefurbishRide env a ride w).2 a.rideIndex = some after
      ∧ (after.lifecycle_flags &&& RIDE_LIFECYCLE_EVER_BEEN_OPENED) = 0
      ∧ after.last_crash_type = RIDE_CRASH_TYPE_NONE
      ∧ (RideDemolishAction.Query env b (RideDemolishAction.RefurbishRide env a ride w).2).Error
          = Status.Disallowed := by
  rw [refurbishRide_world]
  generalize hafter :
    ({ env.Renew ride with
        lifecycle_flags :=
          (env.Renew ride).lifecycle_flags &&& (UINT32_MASK ^^^ RIDE_LIFECYCLE_EVER_BEEN_OPENED)
        last_crash_type := RIDE_CRASH_TYPE_NONE
        window_invalidate_flags :=
          (env.Renew ride).window_invalidate_flags
            ||| (RIDE_INVALIDATE_RIDE_MAINTENANCE ||| RIDE_INVALIDATE_RIDE_CUSTOMER) } : Ride) = after
  have hflags : (after.lifecycle_flags &&& RIDE_LIFECYCLE_EVER_BEEN_OPENED) = 0 := by
    rw [← hafter]
    exact clear_ever_been_opened _
  have hcrash : after.last_crash_type = RIDE_CRASH_TYPE_NONE := by
    rw [← hafter]
  have hget := get_ride_set_ride w a.rideIndex ride after hride
  refine ⟨after, hget, hflags, hcrash, ?_⟩
  have hget' : get_ride (set_ride w a.rideIndex after) b.rideIndex = some after := by
    rw [hsame]
    exact hget
  rw [query_of_ride env b _ _ hget' hmode]
  split
  · rfl
  · split
    · rfl
    · rw [if_pos (Or.inl hflags)]
      rfl

theorem refurbish_not_repeatable_witness :
    get_ride sampleWorld 0 = some sampleRide
    ∧ (RideDemolishAction.Query sampleEnv { rideIndex := 0, modifyType := 1 } sampleWorld).Error
        = Status.Ok
    ∧ (RideDemolishAction.Query sampleEnv { rideIndex := 0, modifyType := 1 }
        (RideDemolishAction.RefurbishRide sampleEnv { rideIndex := 0, modifyType := 1 } sampleRide
          sampleWorld).2).Error = Status.Disallowed
    ∧ ∃ after,
        get_ride (RideDemolishAction.RefurbishRide sampleEnv { rideIndex := 0, modifyType := 1 }
          sampleRide sampleWorld).2 0 = some after
        ∧ (after.lifecycle_flags &&& RIDE_LIFECYCLE_EVER_BEEN_OPENED) = 0
        ∧ after.last_crash_type = RIDE_CRASH_TYPE_NONE
        ∧ (RideDemolishAction.Query sampleEnv { rideIndex := 0, modifyType := 1 }
            (RideDemolishAction.RefurbishRide sampleEnv { rideIndex := 0, modifyType := 1 }
              sampleRide sampleWorld).2).Error = Status.Disallowed :=
  ⟨by decide, by decide, by decide,
    refurbish_not_repeatable sampleEnv { rideIndex := 0, modifyType := 1 }
      { rideIndex := 0, modifyType := 1 } sampleWorld sampleRide (by decide) rfl (by decide)⟩

/-! ## The staff colour action -/

theorem recolour_forall₂ (a : StaffSetColourAction) :
    ∀ staff : List Staff,
      List.Forall₂ (fun before after =>
          after.sprite_index = before.sprite_index
          ∧ after.AssignedStaffType = before.AssignedStaffType
          ∧ (before.AssignedStaffType = a.staffType →
              after.TshirtColour = a.colour ∧ after.TrousersColour = a.colour)
          ∧ (before.AssignedStaffType ≠ a.staffType →
              after.TshirtColour = before.TshirtColour
              ∧ after.TrousersColour = before.TrousersColour))
        staff (StaffSetColourAction.recolour a staff) := by
  intro staff
  induction staff with
  | nil => exact List.Forall₂.nil
  | cons peep rest ih =>
    unfold StaffSetColourAction.recolour
    refine List.Forall₂.cons ?_ ih
    by_cases h : peep.AssignedStaffType = a.staffType
    · rw [if_pos h]
      exact ⟨rfl, rfl, fun _ => ⟨rfl, rfl⟩, fun hne => absurd h hne⟩
    · rw [if_neg h]
      exact ⟨rfl, rfl, fun he => absurd he h, fun _ => ⟨rfl, rfl⟩⟩

/-- C12: when `StaffSetColourAction::Execute` succeeds for the category `t` and the colour `c`,
the staff entities after it are the staff entities before it, in the same order, none added
and none removed; each keeps its identity and its category, has `TshirtColour = c` and
`TrousersColour = c` if its `AssignedStaffType` is `t`, and keeps both colours otherwise. -/
theorem staff_colour_execute_frame (a : StaffSetColourAction) (w : World)
    (hok : (StaffSetColourAction.Execute a w).1.Error = Status.Ok) :
    List.Forall₂ (fun before after =>
        after.sprite_index = before.sprite_index
        ∧ after.AssignedStaffType = before.AssignedStaffType
        ∧ (before.AssignedStaffType = a.staffType →
            after.TshirtColour = a.colour ∧ after.TrousersColour = a.colour)
        ∧ (before.AssignedStaffType ≠ a.staffType →
            after.TshirtColour = before.TshirtColour
            ∧ after.TrousersColour = before.TrousersColour))
      w.staff (StaffSetColourAction.Execute a w).2.staff := by
  unfold StaffSetColourAction.Execute at hok ⊢
  simp only at hok ⊢
  split at hok
  · simp [MakeResult2] at hok
  · rename_i h
    rw [if_neg h]
    exact recolour_forall₂ a w.staff

theorem staff_colour_execute_frame_witness :
    (StaffSetColourAction.Execute { staffType := StaffType_Handyman, colour := 9 } staffWorld).1.Error
        = Status.Ok
    ∧ (StaffSetColourAction.Execute { staffType := StaffType_Handyman, colour := 9 }
        staffWorld).2.staff.map (fun peep => (peep.sprite_index, peep.TshirtColour, peep.TrousersColour))
        = [(10, 9, 9), (11, 3, 3), (12, 9, 9), (13, 5, 6)]
    ∧ List.Forall₂ (fun before after =>
          after.sprite_index = before.sprite_index
          ∧ after.AssignedStaffType = before.AssignedStaffType
          ∧ (before.AssignedStaffType = StaffType_Handyman →
              after.TshirtColour = 9 ∧ after.TrousersColour = 9)
          ∧ (before.AssignedStaffType ≠ StaffType_Handyman →
              after.TshirtColour = before.TshirtColour
              ∧ after.TrousersColour = before.TrousersColour))
        staffWorld.staff
        (StaffSetColourAction.Execute { staffType := StaffType_Handyman, colour := 9 }
          staffWorld).2.staff :=
  ⟨by decide, by decide,
    staff_colour_execute_frame { staffType := StaffType_Handyman, colour := 9 } staffWorld
      (by decide)⟩

/-- C13: `StaffSetColourAction::Query` returns `InvalidParameters` if and only if the category
is none of handyman, mechanic and security, and `Ok` otherwise; and when the global colour
setter rejects the category, `Execute` returns `InvalidParameters` and leaves the staff
entities, with their colours, as they were. -/
theorem staff_colour_rejects_unknown_category (a : StaffSetColourAction) (w : World) :
    ((StaffSetColourAction.Query a).Error = Status.InvalidParameters ↔
        (a.staffType ≠ StaffType_Handyman ∧ a.staffType ≠ StaffType_Mechanic
          ∧ a.staffType ≠ StaffType_Security))
    ∧ ((StaffSetColourAction.Query a).Error = Status.Ok ↔
        ¬ (a.staffType ≠ StaffType_Handyman ∧ a.staffType ≠ StaffType_Mechanic
          ∧ a.staffType ≠ StaffType_Security))
    ∧ ((staff_set_colour a.staffType a.colour w.staffColours).1 = false →
        (StaffSetColourAction.Execute a w).1.Error = Status.InvalidParameters
        ∧ (StaffSetColourAction.Execute a w).2.staff = w.staff) := by
  refine ⟨?_, ?_, ?_⟩
  · unfold StaffSetColourAction.Query
    simp only
    split
    · rename_i h
      simp [MakeResult2, h]
    · rename_i h
      simp only [MakeResult]
      constructor
      · intro hc; cases hc
      · intro hc; exact absurd hc h
  · unfold StaffSetColourAction.Query
    simp only
    split
    · rename_i h
      simp only [MakeResult2]
      constructor
      · intro hc; cases hc
      · intro hc; exact absurd h hc
    · rename_i h
      simp [MakeResult, h]
  · intro hrej
    unfold StaffSetColourAction.Execute
    simp only [hrej]
    exact ⟨rfl, rfl⟩

theorem staff_colour_rejects_unknown_category_witness :
    (StaffSetColourAction.Query { staffType := StaffType_Entertainer, colour := 9 }).Error
        = Status.InvalidParameters
    ∧ (staff_set_colour StaffType_Entertainer 9 staffWorld.staffColours).1 = false
    ∧ (StaffSetColourAction.Execute { staffType := StaffType_Entertainer, colour := 9 }
          staffWorld).1.Error = Status.InvalidParameters
    ∧ (StaffSetColourAction.Execute { staffType := StaffType_Entertainer, colour := 9 }
          staffWorld).2.staff = staffWorld.staff :=
  ⟨by decide, by decide,
    (staff_colour_rejects_unknown_category { staffType := StaffType_Entertainer, colour := 9 }
      staffWorld).2.2 (by decide)⟩

/-! ## The thought queue: removal and compaction -/

theorem clearTopThought_eq (ts : List PeepThought) (i : Nat)
    (hlen : ts.length = PEEP_MAX_THOUGHTS) (hi : i < PEEP_MAX_THOUGHTS) :
    ∃ last, ts.getLast? = some last ∧ clearTopThought ts i = ts.eraseIdx i ++ [last.cleared] := by
  unfold PEEP_MAX_THOUGHTS at *
  obtain ⟨a, b, c, d, e, rfl⟩ := length_five ts hlen
  interval_cases i <;> exact ⟨e, rfl, rfl⟩

theorem cleared_cleared (t : PeepThought) : t.cleared.cleared = t.cleared := rfl

theorem thoughtLoop_compacts (r : Nat) (L : PeepThought) (hL : L.cleared = L) :
    ∀ (B A : List PeepThought) (j fuel : Nat),
      (A ++ B ++ List.replicate j L).length = PEEP_MAX_THOUGHTS →
      (∀ last, (A ++ B ++ List.replicate j L).getLast? = some last → last.cleared = L) →
      B.length + 1 ≤ fuel →
      thoughtLoop r fuel (A ++ B ++ List.replicate j L) A.length
        = some (A ++ thoughtsKept r B ++ thoughtsFromNone B
            ++ List.replicate (j + thoughtsRemoved r B) L) := by
  intro B
  induction B with
  | nil =>
    intro A j fuel hlen _ hfuel
    obtain ⟨fuel, rfl⟩ : ∃ f, fuel = f + 1 := ⟨fuel - 1, by omega⟩
    unfold thoughtLoop
    simp only [List.append_nil] at hlen ⊢
    have hk : thoughtsKept r [] = [] := rfl
    have hf : thoughtsFromNone [] = [] := rfl
    have hr : thoughtsRemoved r [] = 0 := rfl
    rw [hk, hf, hr, List.append_nil, List.append_nil, Nat.add_zero]
    by_cases hi : A.length < PEEP_MAX_THOUGHTS
    · rw [if_pos hi]
      have hj : 0 < j := by
        simp only [List.length_append, List.length_replicate] at hlen
        omega
      have hget : (A ++ List.replicate j L).get? A.length = some L := by
        rw [List.get?_eq_getElem?, List.getElem?_append_right (Nat.le_refl _), Nat.sub_self]
        cases j with
        | zero => omega
        | succ j => simp [List.replicate_succ]
      rw [hget]
      simp only
      have hty : L.type = PeepThoughtType_None := by rw [← hL]; rfl
      rw [if_pos hty]
      rfl
    · rw [if_neg hi]
      rfl
  | cons t B ih =>
    intro A j fuel hlen hlast hfuel
    obtain ⟨fuel, rfl⟩ : ∃ f, fuel = f + 1 := ⟨fuel - 1, by omega⟩
    have hA : A.length < PEEP_MAX_THOUGHTS := by
      simp only [List.length_append, List.length_cons, List.length_replicate] at hlen
      omega
    have hget : (A ++ t :: B ++ List.replicate j L).get? A.length = some t := by
      rw [List.append_assoc, List.get?_eq_getElem?, List.getElem?_append_right (Nat.le_refl _),
        Nat.sub_self]
      simp
    unfold thoughtLoop
    rw [if_pos hA, hget]
    simp only
    by_cases hnone : t.type = PeepThoughtType_None
    · rw [if_pos hnone]
      have hb : (t.type != PeepThoughtType_None) = false := by simp [hnone]
      have hk : thoughtsKept r (t :: B) = [] := by
        simp [thoughtsKept, thoughtsBeforeNone, List.takeWhile_cons, hb]
      have hf : thoughtsFromNone (t :: B) = t :: B := by
        simp [thoughtsFromNone, List.dropWhile_cons, hb]
      have hr : thoughtsRemoved r (t :: B) = 0 := by
        simp [thoughtsRemoved, thoughtsBeforeNone, List.takeWhile_cons, hb]
      rw [hk, hf, hr, List.append_nil, Nat.add_zero]
    · rw [if_neg hnone]
      have hb : (t.type != PeepThoughtType_None) = true := by simp [hnone]
      have hf : thoughtsFromNone (t :: B) = thoughtsFromNone B := by
        simp [thoughtsFromNone, List.dropWhile_cons, hb]
      by_cases hitem : t.item = r
      · rw [if_pos ⟨hnone, hitem⟩]
        obtain ⟨last, hl1, hl2⟩ := clearTopThought_eq _ A.length hlen hA
        have hLl : last.cleared = L := hlast last hl1
        have herase : (A ++ t :: B ++ List.replicate j L).eraseIdx A.length
            = A ++ B ++ List.replicate j L := by
          rw [List.append_assoc, List.eraseIdx_append_of_length_le (Nat.le_refl _), Nat.sub_self]
          simp
        have hcur : clearTopThought (A ++ t :: B ++ List.replicate j L) A.length
            = A ++ B ++ List.replicate (j + 1) L := by
          rw [hl2, herase, hLl, List.replicate_succ']
          simp only [List.append_assoc]
        rw [hcur]
        have hk : thoughtsKept r (t :: B) = thoughtsKept r B := by
          simp [thoughtsKept, thoughtsBeforeNone, List.takeWhile_cons, hb, List.filter_cons, hitem]
        have hr : thoughtsRemoved r (t :: B) = thoughtsRemoved r B + 1 := by
          simp [thoughtsRemoved, thoughtsBeforeNone, List.takeWhile_cons, hb, List.countP_cons, hitem]
        rw [hk, hf, hr]
        have := ih A (j + 1) fuel
          (by
            simp only [List.length_append, List.length_cons, List.length_replicate] at hlen ⊢
            omega)
          (by
            intro last' hl'
            rw [List.replicate_succ', ← List.append_assoc, List.getLast?_append] at hl'
            simp only [List.getLast?_singleton] at hl'
            have hl'' : last' = L := by
              cases hx : (A ++ B ++ List.replicate j L).getLast? <;> rw [hx] at hl' <;>
                simpa [Option.or] using hl'.symm
            rw [hl'']
            exact hL)
          (by simp only [List.length_cons] at hfuel; omega)
        rw [this]
        have hj : j + 1 + thoughtsRemoved r B = j + (thoughtsRemoved r B + 1) := by omega
        rw [hj]
      · rw [if_neg (fun h => hitem h.2)]
        have hk : thoughtsKept r (t :: B) = t :: thoughtsKept r B := by
          simp [thoughtsKept, thoughtsBeforeNone, List.takeWhile_cons, hb, List.filter_cons, hitem]
        have hr : thoughtsRemoved r (t :: B) = thoughtsRemoved r B := by
          simp [thoughtsRemoved, thoughtsBeforeNone, List.takeWhile_cons, hb, List.countP_cons, hitem]
        rw [hk, hf, hr]
        have hre : A ++ t :: B ++ List.replicate j L = (A ++ [t]) ++ B ++ List.replicate j L := by
          simp
        have hlen' : A.length + 1 = (A ++ [t]).length := by simp
        rw [hre, hlen']
        have := ih (A ++ [t]) j fuel (by rw [← hre]; exact hlen)
          (by rw [← hre]; exact hlast)
          (by simp only [List.length_cons] at hfuel; omega)
        rw [this]
        simp

theorem takeWhile_append_of_all {α : Type} (p : α → Bool) (K Y : List α)
    (hK : ∀ k ∈ K, p k = true) (hY : Y.takeWhile p = []) : (K ++ Y).takeWhile p = K := by
  induction K with
  | nil => simpa using hY
  | cons k rest ih =>
    have hk : p k = true := hK k (List.mem_cons_self k rest)
    rw [List.cons_append, List.takeWhile_cons, if_pos hk,
      ih (fun x hx => hK x (List.mem_cons_of_mem k hx))]

theorem takeWhile_dropWhile_append {α : Type} (p : α → Bool) (Z : List α)
    (hZ : Z.takeWhile p = []) : ∀ l : List α, (l.dropWhile p ++ Z).takeWhile p = [] := by
  intro l
  induction l with
  | nil => simpa using hZ
  | cons x rest ih =>
    rw [List.dropWhile_cons]
    by_cases hx : p x = true
    · rw [if_pos hx]
      exact ih
    · rw [if_neg hx, List.cons_append, List.takeWhile_cons, if_neg hx]

/-- C17: for every thought queue of `PEEP_MAX_THOUGHTS` entries the loop of `DemolishRide`
over the queue returns as soon as it is given `PEEP_MAX_THOUGHTS + 1` turns. Writing `P` for
the entries before the first entry of type `None`, the queue that it returns consists of the
entries of `P` whose item is not the ride, in their order, then the entries from the first
`None` on, then one entry of type `None` and item `PEEP_THOUGHT_ITEM_NONE` for each entry of
`P` whose item is the ride; it has `PEEP_MAX_THOUGHTS` entries, and the entries before its
first `None` are exactly the kept entries of `P`. The scrub of a guest with this queue returns
the guest with that queue. -/
theorem thought_scrub_removes_and_compacts (r : Nat) (ts : List PeepThought) (fuel : Nat)
    (hlen : ts.length = PEEP_MAX_THOUGHTS) (hfuel : PEEP_MAX_THOUGHTS + 1 ≤ fuel) :
    ∃ out last, ts.getLast? = some last
      ∧ thoughtLoop r fuel ts 0 = some out
      ∧ out = thoughtsKept r ts ++ thoughtsFromNone ts
          ++ List.replicate (thoughtsRemoved r ts) last.cleared
      ∧ out.length = PEEP_MAX_THOUGHTS
      ∧ out.take (thoughtsKept r ts).length = thoughtsKept r ts
      ∧ thoughtsBeforeNone out = thoughtsKept r ts
      ∧ out.drop (PEEP_MAX_THOUGHTS - thoughtsRemoved r ts)
          = List.replicate (thoughtsRemoved r ts) last.cleared
      ∧ last.cleared.type = PeepThoughtType_None
      ∧ last.cleared.item = PEEP_THOUGHT_ITEM_NONE
      ∧ (∀ peep : Guest, peep.Thoughts = ts →
          ∃ after, scrubGuest r fuel peep = some after ∧ after.Thoughts = out) := by
  obtain ⟨last, hlast⟩ : ∃ last, ts.getLast? = some last := by
    unfold PEEP_MAX_THOUGHTS at hlen
    obtain ⟨a, b, c, d, e, rfl⟩ := length_five ts hlen
    exact ⟨e, rfl⟩
  have hloop := thoughtLoop_compacts r last.cleared rfl ts [] 0 fuel
    (by simpa using hlen)
    (by
      intro last' hl'
      simp only [List.nil_append, List.replicate_zero, List.append_nil] at hl'
      rw [hlast] at hl'
      cases hl'
      rfl)
    (by omega)
  simp only [List.nil_append, List.replicate_zero, List.append_nil, List.length_nil,
    Nat.zero_add] at hloop
  have hout := (thoughtLoop_spec r fuel ts 0 _ hlen hloop
    (fun j t hj _ => absurd hj (Nat.not_lt_zero j))).1
  refine ⟨_, last, hlast, hloop, rfl, hout, ?_, ?_, ?_, rfl, rfl, ?_⟩
  · rw [List.append_assoc, List.take_left']
    rfl
  · unfold thoughtsBeforeNone
    rw [List.append_assoc]
    apply takeWhile_append_of_all
    · intro k hk
      unfold thoughtsKept thoughtsBeforeNone at hk
      have hk' : k ∈ List.takeWhile (fun t => t.type != PeepThoughtType_None) ts :=
        List.mem_of_mem_filter hk
      have h := @List.mem_takeWhile_imp _ (fun t : PeepThought => t.type != PeepThoughtType_None)
        ts k hk'
      exact h
    · unfold thoughtsFromNone
      apply takeWhile_dropWhile_append
      cases thoughtsRemoved r ts with
      | zero => rfl
      | succ n =>
        rw [List.replicate_succ, List.takeWhile_cons]
        simp [PeepThought.cleared]
  · have hl : (thoughtsKept r ts ++ thoughtsFromNone ts).length
        = PEEP_MAX_THOUGHTS - thoughtsRemoved r ts := by
      simp only [List.length_append, List.length_replicate] at hout
      simp only [List.length_append]
      omega
    rw [← hl, List.drop_left']
    rfl
  · intro peep hpeep
    unfold scrubGuest
    simp only
    rw [scrubGuestFields_thoughts, hpeep, hloop]
    exact ⟨_, rfl, rfl⟩

theorem thought_scrub_removes_and_compacts_witness :
    fullQueueGuest.Thoughts.length = PEEP_MAX_THOUGHTS
    ∧ thoughtLoop 0 6 fullQueueGuest.Thoughts 0
        = some [{ type := 5, item := 9, freshness := 2 }, { type := 7, item := 8, freshness := 4 },
                { type := 255, item := 255, freshness := 5 },
                { type := 255, item := 255, freshness := 5 },
                { type := 255, item := 255, freshness := 5 }]
    ∧ ∃ out last, fullQueueGuest.Thoughts.getLast? = some last
        ∧ thoughtLoop 0 6 fullQueueGuest.Thoughts 0 = some out
        ∧ out = thoughtsKept 0 fullQueueGuest.Thoughts ++ thoughtsFromNone fullQueueGuest.Thoughts
            ++ List.replicate (thoughtsRemoved 0 fullQueueGuest.Thoughts) last.cleared
        ∧ out.length = PEEP_MAX_THOUGHTS := by
  refine ⟨by decide, by decide, ?_⟩
  obtain ⟨out, last, h1, h2, h3, h4, _⟩ :=
    thought_scrub_removes_and_compacts 0 fullQueueGuest.Thoughts 6 (by decide) (by decide)
  exact ⟨out, last, h1, h2, h3, h4⟩

/-! ## Serialisation: the round trip -/

theorem uint8_save (st : List Nat) (f : Bool) (v : Nat) :
    DataSerialiser.uint8 ⟨true, st, f⟩ v = (⟨true, st ++ bytesU8 v, f⟩, v) := rfl

theorem uint16_save (st : List Nat) (f : Bool) (v : Nat) :
    DataSerialiser.uint16 ⟨true, st, f⟩ v = (⟨true, st ++ bytesU16 v, f⟩, v) := rfl

theorem uint32_save (st : List Nat) (f : Bool) (v : Nat) :
    DataSerialiser.uint32 ⟨true, st, f⟩ v = (⟨true, st ++ bytesU32 v, f⟩, v) := rfl

theorem int32_save (st : List Nat) (f : Bool) (v : Int) :
    DataSerialiser.int32 ⟨true, st, f⟩ v = (⟨true, st ++ bytesI32 v, f⟩, v) := rfl

theorem uint8_load (rest : List Nat) (f : Bool) (v x : Nat) :
    DataSerialiser.uint8 ⟨false, bytesU8 v ++ rest, f⟩ x = (⟨false, rest, f⟩, v % 256) := by
  simp [DataSerialiser.uint8, bytesU8]

theorem uint16_load (rest : List Nat) (f : Bool) (v x : Nat) :
    DataSerialiser.uint16 ⟨false, bytesU16 v ++ rest, f⟩ x = (⟨false, rest, f⟩, v % 65536) := by
  simp only [DataSerialiser.uint16, bytesU16, List.cons_append, List.nil_append, Bool.false_eq_true,
    if_false, Prod.mk.injEq, true_and]
  omega

theorem uint32_load (rest : List Nat) (f : Bool) (v x : Nat) :
    DataSerialiser.uint32 ⟨false, bytesU32 v ++ rest, f⟩ x
      = (⟨false, rest, f⟩, v % 4294967296) := by
  simp only [DataSerialiser.uint32, bytesU32, List.cons_append, List.nil_append, Bool.false_eq_true,
    if_false, Prod.mk.injEq, true_and]
  omega

theorem int32_load (rest : List Nat) (f : Bool) (v x : Int) :
    DataSerialiser.int32 ⟨false, bytesI32 v ++ rest, f⟩ x = (⟨false, rest, f⟩, wrap32 v) := by
  simp only [DataSerialiser.int32, bytesI32, bytesU32, List.cons_append, List.nil_append,
    Bool.false_eq_true, if_false, Prod.mk.injEq, true_and]
  generalize hn : (v % 4294967296).toNat = n
  have hn' : (n : Int) = v % 4294967296 := by
    rw [← hn]; exact Int.toNat_of_nonneg (Int.emod_nonneg _ (by decide))
  have hlt : n < 4294967296 := by
    have := Int.emod_lt_of_pos v (show (0 : Int) < 4294967296 by decide)
    omega
  have hsum : n / 16777216 % 256 % 256 * 16777216 + n / 65536 % 256 % 256 * 65536
      + n / 256 % 256 % 256 * 256 + n % 256 % 256 = n := by omega
  rw [hsum]
  unfold wrap32
  omega

theorem bytesU8_mod (v : Nat) : bytesU8 (v % 256) = bytesU8 v := by
  simp [bytesU8]

theorem bytesU16_mod (v : Nat) : bytesU16 (v % 65536) = bytesU16 v := by
  simp only [bytesU16, List.cons.injEq, and_true]
  constructor <;> omega

theorem bytesU32_mod (v : Nat) : bytesU32 (v % 4294967296) = bytesU32 v := by
  simp only [bytesU32, List.cons.injEq, and_true]
  refine ⟨?_, ?_, ?_, ?_⟩ <;> omega

theorem bytesI32_wrap32 (v : Int) : bytesI32 (wrap32 v) = bytesI32 v := by
  unfold bytesI32
  have : wrap32 v % 4294967296 = v % 4294967296 := by
    unfold wrap32
    omega
  rw [this]

theorem gameAction_save (st : List Nat) (f : Bool) (base : GameActionBase) :
    GameAction.Serialise ⟨true, st, f⟩ base
      = (⟨true, st ++ bytesU32 base.networkId ++ bytesU32 base.flags ++ bytesI32 base.playerId, f⟩,
          base) := rfl

theorem gameAction_load (rest : List Nat) (f : Bool) (base fresh : GameActionBase) :
    GameAction.Serialise
        ⟨false, bytesU32 base.networkId ++ (bytesU32 base.flags ++ (bytesI32 base.playerId ++ rest)),
          f⟩ fresh
      = (⟨false, rest, f⟩,
          { networkId := base.networkId % 4294967296, flags := base.flags % 4294967296,
            playerId := wrap32 base.playerId }) := by
  simp only [GameAction.Serialise, uint32_load, int32_load]

theorem rideDemolish_encode (a : RideDemolishAction) :
    RideDemolishAction.encode a
      = bytesU32 a.networkId ++ (bytesU32 a.flags ++ (bytesI32 a.playerId
          ++ (bytesU16 a.rideIndex ++ bytesU8 a.modifyType))) := by
  simp only [RideDemolishAction.encode, RideDemolishAction.Serialise, savingStream,
    gameAction_save, uint16_save, uint8_save, List.nil_append, List.append_assoc]

theorem rideDemolish_decode (a fresh : RideDemolishAction) :
    RideDemolishAction.decode (RideDemolishAction.encode a) fresh
      = (⟨false, [], false⟩,
          { rideIndex := a.rideIndex % 65536, modifyType := a.modifyType % 256,
            flags := a.flags % 4294967296, networkId := a.networkId % 4294967296,
            playerId := wrap32 a.playerId }) := by
  rw [rideDemolish_encode]
  have hb := gameAction_load (bytesU16 a.rideIndex ++ bytesU8 a.modifyType) false
    { networkId := a.networkId, flags := a.flags, playerId := a.playerId }
    { networkId := fresh.networkId, flags := fresh.flags, playerId := fresh.playerId }
  have h8 := uint8_load [] false a.modifyType fresh.modifyType
  rw [List.append_nil] at h8
  simp only [RideDemolishAction.decode, RideDemolishAction.Serialise, loadingStream, hb,
    uint16_load, h8]

theorem bannerRemove_encode (a : BannerRemoveAction) :
    BannerRemoveAction.encode a
      = bytesU32 a.networkId ++ (bytesU32 a.flags ++ (bytesI32 a.playerId
          ++ (bytesI32 a.loc.x ++ (bytesI32 a.loc.y ++ (bytesI32 a.loc.z
            ++ bytesU8 a.loc.direction))))) := by
  simp only [BannerRemoveAction.encode, BannerRemoveAction.Serialise, savingStream,
    DataSerialiser.coordsXYZD, gameAction_save, int32_save, uint8_save, List.nil_append,
    List.append_assoc]

theorem bannerRemove_decode (a fresh : BannerRemoveAction) :
    BannerRemoveAction.decode (BannerRemoveAction.encode a) fresh
      = (⟨false, [], false⟩,
          { loc := { x := wrap32 a.loc.x, y := wrap32 a.loc.y, z := wrap32 a.loc.z,
                     direction := a.loc.direction % 256 },
            flags := a.flags % 4294967296, networkId := a.networkId % 4294967296,
            playerId := wrap32 a.playerId }) := by
  rw [bannerRemove_encode]
  have hb := gameAction_load
    (bytesI32 a.loc.x ++ (bytesI32 a.loc.y ++ (bytesI32 a.loc.z ++ bytesU8 a.loc.direction))) false
    { networkId := a.networkId, flags := a.flags, playerId := a.playerId }
    { networkId := fresh.networkId, flags := fresh.flags, playerId := fresh.playerId }
  have h8 := uint8_load [] false a.loc.direction fresh.loc.direction
  rw [List.append_nil] at h8
  simp only [BannerRemoveAction.decode, BannerRemoveAction.Serialise, loadingStream, hb,
    DataSerialiser.coordsXYZD, int32_load, h8]

theorem staffSetColour_encode (a : StaffSetColourAction) :
    StaffSetColourAction.encode a
      = bytesU32 a.networkId ++ (bytesU32 a.flags ++ (bytesI32 a.playerId
          ++ (bytesU8 a.staffType ++ bytesU8 a.colour))) := by
  simp only [StaffSetColourAction.encode, StaffSetColourAction.Serialise, savingStream,
    gameAction_save, uint8_save, List.nil_append, List.append_assoc]

theorem staffSetColour_decode (a fresh : StaffSetColourAction) :
    StaffSetColourAction.decode (StaffSetColourAction.encode a) fresh
      = (⟨false, [], false⟩,
          { staffType := a.staffType % 256, colour := a.colour % 256,
            flags := a.flags % 4294967296, networkId := a.networkId % 4294967296,
            playerId := wrap32 a.playerId }) := by
  rw [staffSetColour_encode]
  have hb := gameAction_load (bytesU8 a.staffType ++ bytesU8 a.colour) false
    { networkId := a.networkId, flags := a.flags, playerId := a.playerId }
    { networkId := fresh.networkId, flags := fresh.flags, playerId := fresh.playerId }
  have h8 := uint8_load [] false a.colour fresh.colour
  rw [List.append_nil] at h8
  simp only [StaffSetColourAction.decode, StaffSetColourAction.Serialise, loadingStream, hb,
    uint8_load, h8]

/-- C16: for each of the three actions, the bytes of an action are the base fields followed by
the fields of the action in the fixed order (the location; the ride index then the modify type;
the staff type then the colour); loading these bytes into any fresh action succeeds and consumes
them all; and saving the loaded action yields the same bytes again. -/
theorem serialise_round_trip :
    (∀ a fresh : BannerRemoveAction,
      BannerRemoveAction.encode a
          = bytesU32 a.networkId ++ bytesU32 a.flags ++ bytesI32 a.playerId
            ++ (bytesI32 a.loc.x ++ bytesI32 a.loc.y ++ bytesI32 a.loc.z
              ++ bytesU8 a.loc.direction)
        ∧ (BannerRemoveAction.decode (BannerRemoveAction.encode a) fresh).1.failed = false
        ∧ (BannerRemoveAction.decode (BannerRemoveAction.encode a) fresh).1.stream = []
        ∧ BannerRemoveAction.encode
            (BannerRemoveAction.decode (BannerRemoveAction.encode a) fresh).2
          = BannerRemoveAction.encode a)
    ∧ (∀ a fresh : RideDemolishAction,
      RideDemolishAction.encode a
          = bytesU32 a.networkId ++ bytesU32 a.flags ++ bytesI32 a.playerId
            ++ bytesU16 a.rideIndex ++ bytesU8 a.modifyType
        ∧ (RideDemolishAction.decode (RideDemolishAction.encode a) fresh).1.failed = false
        ∧ (RideDemolishAction.decode (RideDemolishAction.encode a) fresh).1.stream = []
        ∧ RideDemolishAction.encode
            (RideDemolishAction.decode (RideDemolishAction.encode a) fresh).2
          = RideDemolishAction.encode a)
    ∧ (∀ a fresh : StaffSetColourAction,
      StaffSetColourAction.encode a
          = bytesU32 a.networkId ++ bytesU32 a.flags ++ bytesI32 a.playerId
            ++ bytesU8 a.staffType ++ bytesU8 a.colour
        ∧ (StaffSetColourAction.decode (StaffSetColourAction.encode a) fresh).1.failed = false
        ∧ (StaffSetColourAction.decode (StaffSetColourAction.encode a) fresh).1.stream = []
        ∧ StaffSetColourAction.encode
            (StaffSetColourAction.decode (StaffSetColourAction.encode a) fresh).2
          = StaffSetColourAction.encode a) := by
  refine ⟨fun a fresh => ?_, fun a fresh => ?_, fun a fresh => ?_⟩
  · rw [bannerRemove_decode]
    refine ⟨?_, rfl, rfl, ?_⟩
    · rw [bannerRemove_encode]; simp only [List.append_assoc]
    · rw [bannerRemove_encode, bannerRemove_encode]
      simp only [bytesU32_mod, bytesI32_wrap32, bytesU8_mod]
  · rw [rideDemolish_decode]
    refine ⟨?_, rfl, rfl, ?_⟩
    · rw [rideDemolish_encode]; simp only [List.append_assoc]
    · rw [rideDemolish_encode, rideDemolish_encode]
      simp only [bytesU32_mod, bytesI32_wrap32, bytesU16_mod, bytesU8_mod]
  · rw [staffSetColour_decode]
    refine ⟨?_, rfl, rfl, ?_⟩
    · rw [staffSetColour_encode]; simp only [List.append_assoc]
    · rw [staffSetColour_encode, staffSetColour_encode]
      simp only [bytesU32_mod, bytesI32_wrap32, bytesU8_mod]

end OpenRCT2
